import Mathlib

/-!
# SportSync: wallet ledger and game-join settlement

A shallow embedding of the money-moving routes of the SportSync backend
(`backend/routes/games.js`, `backend/routes/walletRoutes.js`,
`backend/routes/wallet.js`) over the Mongoose models in `backend/models/`.

Modelling conventions.

* A JavaScript `Number` is a finite binary64 value, kept as the rational it
  denotes.  The arithmetic the handlers do on money (`/`, `*`, `+=`, `-=`) is
  the exact operation followed by `fl`, the rounding to the nearest binary64
  value with a tie going to the even significand (`fdiv`, `fmul`, `fadd`,
  `fsub`).  `NaN`, the infinities (overflow beyond `2^1024`) and the sign of
  zero are not modelled.
* `x.toFixed(2)` is `toFixed2`: the decimal with two fraction digits nearest to
  the exact value of `x`, a tie going to the larger magnitude;
  `Number(x.toFixed(2))` is `numberToFixed2`, the binary64 value nearest to that
  decimal.
* `teamSize - players.length` is kept exact: for a team size of at least 1 and
  below `2^53` and a roster of at most twice that size, the binary64 difference
  is the exact one.
* A collection keyed by `_id` is a partial function from identifiers to
  documents; the `WalletTransaction` collection is a list in insertion order.
* A route handler is a function from the store and the request to the new store
  and the response.  A handler that runs inside a Mongo session aborts to the
  store it started from.
* The payment gateway and the HMAC primitive are parameters.
* Division by zero is not modelled (`x / 0` is `0` in `ℚ`, `Infinity` in
  JavaScript): a stored game has `teamSize >= 1` by its schema, and pay-game
  divides by the length of a roster that holds the caller.
* A schema validator is run for the paths a handler writes.
-/

namespace SportSync

/-! ## Identifiers and documents -/

abbrev UserId := Nat
abbrev GameId := Nat

/-- Values of `Game.status` (`enum` in `models/Game.js`). -/
inductive GameStatus
  | upcoming
  | ongoing
  | finished
  | cancelled
  deriving DecidableEq, Repr

/-- Values of `WalletTransaction.type`. -/
inductive TxType
  | CREDIT
  | DEBIT
  deriving DecidableEq, Repr

/-- Values of `WalletTransaction.reason`. -/
inductive TxReason
  | ADD_MONEY
  | GAME_JOIN
  | REFUND
  | ADJUSTMENT
  deriving DecidableEq, Repr

/-- Documents of `models/User.js` (the fields the routes read or write). -/
structure User where
  name : String
  email : String
  walletBalance : ℚ
  deriving DecidableEq

/-- Documents of `models/Game.js`.  `turfPrice` has the schema default `0` when
it was never set. -/
structure Game where
  teamName : String
  teamSize : ℚ
  gameType : String
  turfLocation : String
  turfDateTime : Int
  turfPrice : ℚ
  geoLocation : Option (ℚ × ℚ)
  players : List UserId
  captain : Option UserId
  availableSpots : ℚ
  isOpen : Bool
  status : GameStatus
  createdBy : UserId
  deriving DecidableEq

/-- Documents of `models/WalletTransaction.js` (one ledger entry). -/
structure WalletTransaction where
  user : UserId
  type : TxType
  amount : ℚ
  razorpayPaymentId : Option String
  razorpayOrderId : Option String
  reason : TxReason
  game : Option GameId
  description : String
  createdAt : Nat
  deriving DecidableEq

/-- Values of the embedded `transactionSchema.type` of `models/Wallet.js`. -/
inductive LegacyTxType
  | topup
  | payment
  | refund
  deriving DecidableEq, Repr

/-- Values of the embedded `transactionSchema.status`. -/
inductive LegacyTxStatus
  | pending
  | completed
  | failed
  deriving DecidableEq, Repr

/-- Values of the embedded `paymentSchema.status`. -/
inductive PaymentStatus
  | pending
  | paid
  deriving DecidableEq, Repr

/-- The embedded `transactionSchema` of `models/Wallet.js`. -/
structure LegacyTransaction where
  type : LegacyTxType
  amount : ℚ
  description : String
  game : Option GameId
  status : LegacyTxStatus
  createdAt : Nat
  deriving DecidableEq

/-- The embedded `paymentSchema` of `models/Wallet.js`. -/
structure GamePayment where
  game : GameId
  amount : ℚ
  status : PaymentStatus
  paidAt : Option Nat
  deriving DecidableEq

/-- Documents of `models/Wallet.js`; the owning user is the key in the store. -/
structure Wallet where
  balance : ℚ
  transactions : List LegacyTransaction
  payments : List GamePayment
  deriving DecidableEq

/-- The database: the four collections the routes touch. -/
structure Store where
  users : UserId → Option User
  games : GameId → Option Game
  ledger : List WalletTransaction
  wallets : UserId → Option Wallet

/-! ## Numbers and strings -/

/-- Rounding to the nearest integer, a tie going to the even one. -/
def roundHalfEven (q : ℚ) : ℤ :=
  if q - (⌊q⌋ : ℚ) < 1 / 2 then ⌊q⌋
  else if 1 / 2 < q - (⌊q⌋ : ℚ) then ⌊q⌋ + 1
  else if ⌊q⌋ % 2 = 0 then ⌊q⌋ else ⌊q⌋ + 1

/-- The exponent `e` of the binade `2^e <= |x| < 2^(e+1)` that holds `x`, and
`-1022`, the exponent of the smallest normal binary64 values, below that. -/
def binade (x : ℚ) : ℤ := max (Int.log 2 |x|) (-1022)

/-- The spacing of the binary64 values in the binade of `x`: a significand of 53
bits. -/
def ulp (x : ℚ) : ℚ := (2 : ℚ) ^ (binade x - 52)

/-- The binary64 value nearest to `x`, a tie going to the even significand
(IEEE 754 roundTiesToEven). -/
def fl (x : ℚ) : ℚ := (roundHalfEven (x / ulp x) : ℚ) * ulp x

/-- The JavaScript `a + b` on Numbers. -/
def fadd (a b : ℚ) : ℚ := fl (a + b)

/-- The JavaScript `a - b` on Numbers. -/
def fsub (a b : ℚ) : ℚ := fl (a - b)

/-- The JavaScript `a * b` on Numbers. -/
def fmul (a b : ℚ) : ℚ := fl (a * b)

/-- The JavaScript `a / b` on Numbers. -/
def fdiv (a b : ℚ) : ℚ := fl (a / b)

/-- The decimal that the text `x.toFixed(2)` denotes: `n / 100` for the integer
`n` with `n / 100` nearest to the exact value of `|x|`, the larger one on a tie,
with the sign of `x` restored.  (From `1e21` on `toFixed` prints the Number
itself; a binary64 value that large is an integer and `n / 100` is that
value.) -/
def toFixed2 (x : ℚ) : ℚ :=
  if 0 ≤ x then ((⌊x * 100 + 1 / 2⌋ : ℤ) : ℚ) / 100
  else -(((⌊(-x) * 100 + 1 / 2⌋ : ℤ) : ℚ) / 100)

/-- `Number(x.toFixed(2))`: the binary64 value nearest to the decimal
`x.toFixed(2)`. -/
def numberToFixed2 (x : ℚ) : ℚ := fl (toFixed2 x)

/-- `Math.round(x)`: the nearest integer, a tie going to the larger one. -/
def mathRound (x : ℚ) : ℤ := ⌊x + 1 / 2⌋

/-- The `trim: true` setter of a schema string: leading and trailing white space
removed. -/
def trim (s : String) : String :=
  String.mk ((s.data.dropWhile Char.isWhitespace).reverse.dropWhile Char.isWhitespace).reverse

/-! ## Schema validators and hooks -/

/-- The `pre('save')` hook of `models/Game.js`. -/
def Game.preSave (g : Game) : Game :=
  let availableSpots := g.teamSize - (g.players.length : ℚ)
  { g with
    availableSpots := availableSpots
    isOpen := decide (availableSpots > 0) && decide (g.status = GameStatus.upcoming) }

/-- The `min: 0` validator on `User.walletBalance`. -/
def User.valid (u : User) : Prop := 0 ≤ u.walletBalance

instance (u : User) : Decidable u.valid := by unfold User.valid; infer_instance

/-- Why a `WalletTransaction` insert is refused. -/
inductive SaveError
  | validation
  | duplicateKey
  deriving DecidableEq, Repr

/-- The first ledger entry carrying the payment id, as
`WalletTransaction.findOne` by `razorpayPaymentId` returns it. -/
def findByPaymentId (ledger : List WalletTransaction) (paymentId : String) :
    Option WalletTransaction :=
  ledger.find? (fun e => decide (e.razorpayPaymentId = some paymentId))

/-- The effect of `walletTransaction.save()`: the `min: 0` validator on `amount`,
then the unique sparse index on `razorpayPaymentId`, then the append. -/
def insertTransaction (ledger : List WalletTransaction) (t : WalletTransaction) :
    Except SaveError (List WalletTransaction) :=
  if t.amount < 0 then Except.error SaveError.validation
  else
    match t.razorpayPaymentId with
    | none => Except.ok (ledger ++ [t])
    | some p =>
      match findByPaymentId ledger p with
      | some _ => Except.error SaveError.duplicateKey
      | none => Except.ok (ledger ++ [t])

/-! ## POST /api/games/:id/join-with-wallet -/

/-- Responses of `join-with-wallet`. -/
inductive JoinWalletResponse
  /-- 404 Game not found. -/
  | gameNotFound
  /-- 400 No spots available in this game. -/
  | noSpots
  /-- 400 You are already part of this game. -/
  | alreadyJoined
  /-- 400 Game price not set. -/
  | priceNotSet
  /-- 400 Invalid game price. -/
  | invalidPrice
  /-- 404 User not found. -/
  | userNotFound
  /-- 400 Insufficient wallet balance. -/
  | insufficientBalance (required currentBalance shortfall : ℚ)
  /-- 200 Joined game using wallet. -/
  | joined (walletBalance amountDeducted : ℚ) (players : Nat) (availableSpots : ℚ)
  /-- 500 Failed to join game. -/
  | serverError
  deriving DecidableEq

/-- The ledger entry `join-with-wallet` builds. -/
def gameJoinEntry (userId : UserId) (gameId : GameId) (teamName : String)
    (perPlayerPrice : ℚ) (now : Nat) : WalletTransaction :=
  { user := userId
    type := TxType.DEBIT
    amount := perPlayerPrice
    razorpayPaymentId := none
    razorpayOrderId := none
    reason := TxReason.GAME_JOIN
    game := some gameId
    description := "Payment for joining game: " ++ teamName
    createdAt := now }

/-- The `perPlayerPrice` of `join-with-wallet`:
`Number((game.turfPrice / game.teamSize).toFixed(2))`. -/
def perPlayerPrice (game : Game) : ℚ :=
  numberToFixed2 (fdiv game.turfPrice game.teamSize)

/-- The handler of `POST /:id/join-with-wallet` (`routes/games.js`). -/
def joinWithWallet (s : Store) (userId : UserId) (gameId : GameId) (now : Nat) :
    Store × JoinWalletResponse :=
  match s.games gameId with
  | none => (s, JoinWalletResponse.gameNotFound)
  | some game =>
    if game.isOpen = false ∨ game.availableSpots ≤ 0 then (s, JoinWalletResponse.noSpots)
    else if userId ∈ game.players then (s, JoinWalletResponse.alreadyJoined)
    else if ¬ (game.turfPrice ≠ 0 ∧ game.turfPrice > 0) then (s, JoinWalletResponse.priceNotSet)
    else
      let perPlayerPrice := perPlayerPrice game
      if perPlayerPrice ≤ 0 then (s, JoinWalletResponse.invalidPrice)
      else
        match s.users userId with
        | none => (s, JoinWalletResponse.userNotFound)
        | some user =>
          let walletBalance := user.walletBalance
          if walletBalance < perPlayerPrice then
            (s, JoinWalletResponse.insufficientBalance perPlayerPrice walletBalance
                  (toFixed2 (fsub perPlayerPrice walletBalance)))
          else
            let user1 := { user with walletBalance := fsub user.walletBalance perPlayerPrice }
            if ¬ user1.valid then (s, JoinWalletResponse.serverError)
            else
              match insertTransaction s.ledger
                  (gameJoinEntry userId gameId game.teamName perPlayerPrice now) with
              | Except.error _ => (s, JoinWalletResponse.serverError)
              | Except.ok ledger1 =>
                let game1 := { game with players := game.players ++ [userId] }
                let spots := game1.teamSize - (game1.players.length : ℚ)
                let game2 := { game1 with
                  availableSpots := spots
                  isOpen := decide (spots > 0) && decide (game1.status = GameStatus.upcoming) }
                let game3 := game2.preSave
                ({ s with
                    users := Function.update s.users userId (some user1)
                    games := Function.update s.games gameId (some game3)
                    ledger := ledger1 },
                 JoinWalletResponse.joined user1.walletBalance perPlayerPrice
                    game3.players.length game3.availableSpots)

/-! ## POST /api/wallet/verify-and-credit -/

/-- The process environment and the runtime primitives the handlers call.
A missing environment variable is `none`. -/
structure Env where
  RAZORPAY_KEY_ID : Option String
  RAZORPAY_KEY_SECRET : Option String
  /-- The hex digest `crypto.createHmac('sha256', secret).update(text).digest('hex')`,
  as a function of the secret and the text. -/
  hmacSha256Hex : String → String → String
  /-- The time value of `new Date(text)`, `none` for an invalid date. -/
  parseDate : String → Option Int
  /-- The text `id.toString()` of an `ObjectId`: its 24 lower-case hex digits. -/
  objectIdString : UserId → String
  /-- The cast of a text to an `ObjectId`, as `findById` does it; `none` when the
  cast throws. -/
  castObjectId : String → Option UserId

/-- Whether `config/razorpay.js` exports a client: both credentials are set and
non-empty. -/
def Env.razorpayConfigured (env : Env) : Prop :=
  (∃ k, env.RAZORPAY_KEY_ID = some k ∧ k ≠ "") ∧
  (∃ k, env.RAZORPAY_KEY_SECRET = some k ∧ k ≠ "")

instance (env : Env) : Decidable env.razorpayConfigured := by
  unfold Env.razorpayConfigured
  cases env.RAZORPAY_KEY_ID <;> cases env.RAZORPAY_KEY_SECRET <;> simp <;> infer_instance

/-- The secret handed to `createHmac`. -/
def Env.keySecret (env : Env) : String := env.RAZORPAY_KEY_SECRET.getD ""

/-- A payment as `razorpay.payments.fetch` returns it (the fields the handler
reads). -/
structure GatewayPayment where
  status : String
  order_id : String
  amount : ℚ
  deriving DecidableEq

/-- An order as `razorpay.orders.fetch` returns it. -/
structure GatewayOrder where
  id : String
  amount : ℚ
  currency : String
  receipt : String
  notesUserId : String
  notesType : String
  deriving DecidableEq

/-- The payment gateway as seen by one request: what each fetch answers, `none`
when the call throws (network error, timeout, unknown id). -/
structure Gateway where
  paymentsFetch : String → Option GatewayPayment
  ordersFetch : String → Option GatewayOrder

/-- Calls made to the gateway, in order. -/
inductive GatewayCall
  | paymentsFetch (paymentId : String)
  | ordersFetch (orderId : String)
  deriving DecidableEq, Repr

/-- Responses of `verify-and-credit`. -/
inductive VerifyResponse
  /-- 503 Wallet top-up is temporarily unavailable. -/
  | gatewayUnavailable
  /-- 400 Missing Razorpay payment details. -/
  | missingDetails
  /-- 400 Invalid payment signature. -/
  | invalidSignature
  /-- 400 Payment not captured. Status: ... -/
  | paymentNotCaptured (status : String)
  /-- 400 Order ID mismatch. -/
  | orderMismatch
  /-- 400 Could not verify payment amount. -/
  | couldNotVerifyAmount
  /-- 200 Payment already processed. -/
  | alreadyProcessed (walletBalance amountCredited : ℚ)
  /-- 404 User not found. -/
  | userNotFound
  /-- 200 Wallet credited successfully. -/
  | credited (walletBalance amountCredited : ℚ)
  /-- An exception reached the outer `catch`: 500 Failed to credit wallet (no
  `amountCredited` is returned). -/
  | serverError
  deriving DecidableEq

/-- The fallback of `verify-and-credit` when no payment amount is at hand:
`razorpay.orders.fetch(orderId)` and `order.amount / 100` (a binary64
division). -/
def orderAmount (gw : Gateway) (orderId : String) (calls : List GatewayCall) :
    Except VerifyResponse ℚ × List GatewayCall :=
  match gw.ordersFetch orderId with
  | some order =>
    (Except.ok (fdiv order.amount 100), calls ++ [GatewayCall.ordersFetch orderId])
  | none =>
    (Except.error VerifyResponse.couldNotVerifyAmount,
      calls ++ [GatewayCall.ordersFetch orderId])

/-- The gateway part of `verify-and-credit`: fetch the payment, check status and
order, and settle `finalAmount`.  A failed payment fetch is caught and logged,
`payment` stays undefined and the amount comes from the order. -/
def gatewayAmount (gw : Gateway) (orderId paymentId : String) :
    Except VerifyResponse ℚ × List GatewayCall :=
  match gw.paymentsFetch paymentId with
  | some payment =>
    if payment.status ≠ "captured" then
      (Except.error (VerifyResponse.paymentNotCaptured payment.status),
        [GatewayCall.paymentsFetch paymentId])
    else if payment.order_id ≠ orderId then
      (Except.error VerifyResponse.orderMismatch, [GatewayCall.paymentsFetch paymentId])
    else if payment.amount ≠ 0 then
      (Except.ok (fdiv payment.amount 100), [GatewayCall.paymentsFetch paymentId])
    else orderAmount gw orderId [GatewayCall.paymentsFetch paymentId]
  | none => orderAmount gw orderId [GatewayCall.paymentsFetch paymentId]

/-- The ledger entry `verify-and-credit` builds. -/
def addMoneyEntry (userId : UserId) (orderId paymentId : String) (finalAmount : ℚ)
    (now : Nat) : WalletTransaction :=
  { user := userId
    type := TxType.CREDIT
    amount := finalAmount
    razorpayPaymentId := some paymentId
    razorpayOrderId := some orderId
    reason := TxReason.ADD_MONEY
    game := none
    description := "Wallet top-up via Razorpay - Order: " ++ orderId
    createdAt := now }

/-- The handler of `POST /verify-and-credit` (`routes/walletRoutes.js`).  An
absent body field is the empty string. -/
def verifyAndCredit (env : Env) (gw : Gateway) (s : Store) (userId : UserId)
    (orderId paymentId signature : String) (now : Nat) :
    Store × VerifyResponse × List GatewayCall :=
  if ¬ env.razorpayConfigured then (s, VerifyResponse.gatewayUnavailable, [])
  else if orderId = "" ∨ paymentId = "" ∨ signature = "" then
    (s, VerifyResponse.missingDetails, [])
  else if env.hmacSha256Hex env.keySecret (orderId ++ "|" ++ paymentId) ≠ signature then
    (s, VerifyResponse.invalidSignature, [])
  else
    match gatewayAmount gw orderId paymentId with
    | (Except.error r, calls) => (s, r, calls)
    | (Except.ok finalAmount, calls) =>
      match findByPaymentId s.ledger paymentId with
      | some existingTransaction =>
        match s.users userId with
        | none => (s, VerifyResponse.serverError, calls)
        | some user =>
          (s, VerifyResponse.alreadyProcessed user.walletBalance existingTransaction.amount,
            calls)
      | none =>
        match s.users userId with
        | none => (s, VerifyResponse.userNotFound, calls)
        | some user =>
          let user1 := { user with walletBalance := fadd user.walletBalance finalAmount }
          match insertTransaction s.ledger
              (addMoneyEntry userId orderId paymentId finalAmount now) with
          | Except.error SaveError.duplicateKey =>
            (s, VerifyResponse.alreadyProcessed user.walletBalance
                  (((findByPaymentId s.ledger paymentId).map (fun e => e.amount)).getD 0),
              calls)
          | Except.error SaveError.validation => (s, VerifyResponse.serverError, calls)
          | Except.ok ledger1 =>
            if ¬ user1.valid then (s, VerifyResponse.serverError, calls)
            else
              ({ s with
                  users := Function.update s.users userId (some user1)
                  ledger := ledger1 },
               VerifyResponse.credited user1.walletBalance finalAmount, calls)

/-! ## The embedded wallet of `routes/wallet.js` -/

/-- A wallet as `Wallet.create` makes it: the schema defaults. -/
def emptyWallet : Wallet := { balance := 0, transactions := [], payments := [] }

/-- `getOrCreateWallet` of `routes/wallet.js`. -/
def getOrCreateWallet (s : Store) (userId : UserId) : Store × Wallet :=
  match s.wallets userId with
  | some wallet => (s, wallet)
  | none => ({ s with wallets := Function.update s.wallets userId (some emptyWallet) },
             emptyWallet)

/-- Responses of the embedded-wallet `topup`. -/
inductive TopupResponse
  /-- 400 Amount must be greater than zero. -/
  | invalidAmount
  /-- 200 Wallet funded successfully. -/
  | funded (balance : ℚ)
  /-- 500 Failed to top-up wallet. -/
  | serverError
  deriving DecidableEq

/-- The handler of `POST /topup` (`routes/wallet.js`).  `wallet.save()` runs the
`min: 0` validators of the balance and of the pushed transaction. -/
def topup (s : Store) (userId : UserId) (amount : ℚ) (now : Nat) : Store × TopupResponse :=
  if amount = 0 ∨ amount ≤ 0 then (s, TopupResponse.invalidAmount)
  else
    let created := getOrCreateWallet s userId
    let s1 := created.1
    let wallet := created.2
    let wallet1 : Wallet :=
      { wallet with
        balance := fadd wallet.balance amount
        transactions := wallet.transactions ++
          [{ type := LegacyTxType.topup, amount := amount, description := "Wallet top-up",
             game := none, status := LegacyTxStatus.completed, createdAt := now }] }
    if wallet1.balance < 0 ∨ amount < 0 then (s1, TopupResponse.serverError)
    else
      ({ s1 with wallets := Function.update s1.wallets userId (some wallet1) },
       TopupResponse.funded wallet1.balance)

/-- Responses of `pay-game`. -/
inductive PayGameResponse
  /-- 400 gameId is required. -/
  | gameIdRequired
  /-- 404 Game not found. -/
  | gameNotFound
  /-- 403 You are not part of this game. -/
  | notParticipant
  /-- 400 No players in this game yet. -/
  | noPlayers
  /-- 400 totalPrice is required the first time payments are made for this game. -/
  | priceRequired
  /-- 200 You have already paid for this game. -/
  | alreadyPaid (share : ℚ)
  /-- 400 Insufficient wallet balance. -/
  | insufficientBalance (required balance : ℚ)
  /-- 200 Payment successful. -/
  | paid (share balance : ℚ)
  /-- 500 Failed to process payment. -/
  | serverError
  deriving DecidableEq

/-- The player list after `populate('players', ...)`: references to users that
do not exist are dropped from a populated array. -/
def populatedPlayers (s : Store) (game : Game) : List UserId :=
  game.players.filter (fun p => (s.users p).isSome)

/-- The first payment record of the game, as `wallet.payments.find` returns it. -/
def findPayment (payments : List GamePayment) (gameId : GameId) : Option GamePayment :=
  payments.find? (fun p => decide (p.game = gameId))

/-- The in-place update of the record `findPayment` returned. -/
def markPaid (payments : List GamePayment) (gameId : GameId) (share : ℚ) (now : Nat) :
    List GamePayment :=
  match payments with
  | [] => []
  | p :: rest =>
    if p.game = gameId then
      { p with status := PaymentStatus.paid, amount := share, paidAt := some now } :: rest
    else p :: markPaid rest gameId share now

/-- The price step of `pay-game`: when the game has no positive price the
override is required, written to the game and saved at once.  The save runs the
`pre('save')` hook on the populated document. -/
def payGamePrice (s : Store) (gameId : GameId) (game : Game) (totalPrice : Option ℚ) :
    Option (Store × ℚ) :=
  if game.turfPrice = 0 ∨ game.turfPrice ≤ 0 then
    match totalPrice with
    | none => none
    | some tp =>
      if tp = 0 ∨ tp ≤ 0 then none
      else
        let spots := game.teamSize - ((populatedPlayers s game).length : ℚ)
        let game1 : Game :=
          { game with
            turfPrice := tp
            availableSpots := spots
            isOpen := decide (spots > 0) && decide (game.status = GameStatus.upcoming) }
        some ({ s with games := Function.update s.games gameId (some game1) }, tp)
  else some (s, game.turfPrice)

/-- The handler of `POST /pay-game` (`routes/wallet.js`). -/
def payGame (s : Store) (userId : UserId) (gameId : Option GameId) (totalPrice : Option ℚ)
    (now : Nat) : Store × PayGameResponse :=
  match gameId with
  | none => (s, PayGameResponse.gameIdRequired)
  | some gid =>
    match s.games gid with
    | none => (s, PayGameResponse.gameNotFound)
    | some game =>
      let players := populatedPlayers s game
      if userId ∉ players then (s, PayGameResponse.notParticipant)
      else if players.length = 0 then (s, PayGameResponse.noPlayers)
      else
        match payGamePrice s gid game totalPrice with
        | none => (s, PayGameResponse.priceRequired)
        | some (s1, turfPrice) =>
          let share := numberToFixed2 (fdiv turfPrice (players.length : ℚ))
          let created := getOrCreateWallet s1 userId
          let s2 := created.1
          let wallet := created.2
          let existingPayment := findPayment wallet.payments gid
          if (∃ p, existingPayment = some p ∧ p.status = PaymentStatus.paid) then
            (s2, PayGameResponse.alreadyPaid share)
          else if wallet.balance < share then
            (s2, PayGameResponse.insufficientBalance share wallet.balance)
          else
            let wallet1 : Wallet :=
              { balance := fsub wallet.balance share
                transactions := wallet.transactions ++
                  [{ type := LegacyTxType.payment, amount := share,
                     description := "Payment for " ++ game.teamName, game := some gid,
                     status := LegacyTxStatus.completed, createdAt := now }]
                payments :=
                  if existingPayment.isSome then markPaid wallet.payments gid share now
                  else wallet.payments ++
                    [{ game := gid, amount := share, status := PaymentStatus.paid,
                       paidAt := some now }] }
            if wallet1.balance < 0 ∨ share < 0 then (s2, PayGameResponse.serverError)
            else
              ({ s2 with wallets := Function.update s2.wallets userId (some wallet1) },
               PayGameResponse.paid share wallet1.balance)

/-! ## Roster routes of `routes/games.js` -/

/-- The body of `POST /api/games`.  An absent string field is the empty string,
an absent or unparsable `turfPrice` is `none`. -/
structure CreateGameRequest where
  teamName : String
  teamSize : ℚ
  gameType : String
  turfLocation : String
  turfDateTime : String
  turfPrice : Option ℚ
  geoLocation : Option (List ℚ)

/-- Responses of `POST /api/games`. -/
inductive CreateGameResponse
  /-- 400 Missing fields. -/
  | missingFields
  /-- 201 with the created game. -/
  | created (id : GameId) (game : Game)
  /-- 500 Server error (`Game.create` refused the document). -/
  | serverError
  deriving DecidableEq

/-- The handler of `POST /` (`routes/games.js`).  `newId` is the `_id` Mongo
assigns.  `Game.create` trims the strings, runs the `required` and `min`
validators, fills the defaults and runs the `pre('save')` hook. -/
def createGame (env : Env) (s : Store) (userId : UserId) (req : CreateGameRequest)
    (newId : GameId) : Store × CreateGameResponse :=
  if req.teamName = "" ∨ req.teamSize = 0 ∨ req.gameType = "" ∨ req.turfLocation = "" ∨
      req.turfDateTime = "" then (s, CreateGameResponse.missingFields)
  else
    match env.parseDate req.turfDateTime with
    | none => (s, CreateGameResponse.serverError)
    | some date =>
      if trim req.teamName = "" ∨ trim req.gameType = "" ∨ trim req.turfLocation = "" ∨
          req.teamSize < 1 ∨ (s.games newId).isSome then (s, CreateGameResponse.serverError)
      else
        let game : Game :=
          Game.preSave
            { teamName := trim req.teamName
              teamSize := req.teamSize
              gameType := trim req.gameType
              turfLocation := trim req.turfLocation
              turfDateTime := date
              turfPrice :=
                match req.turfPrice with
                | some price => if price ≥ 0 then price else 0
                | none => 0
              geoLocation :=
                match req.geoLocation with
                | some [lng, lat] => some (lng, lat)
                | _ => none
              players := [userId]
              captain := some userId
              availableSpots := req.teamSize - 1
              isOpen := true
              status := GameStatus.upcoming
              createdBy := userId }
        ({ s with games := Function.update s.games newId (some game) },
         CreateGameResponse.created newId game)

/-- Responses of the roster routes `join`, `leave`, `kick` and `add-player`. -/
inductive RosterResponse
  /-- 400 userId is required. -/
  | userIdRequired
  /-- 404 Game not found. -/
  | gameNotFound
  /-- 403 Not allowed to add or kick players. -/
  | notAllowed
  /-- 400 Cannot remove the game creator. -/
  | cannotRemoveCreator
  /-- 400 No spots available / No spots left. -/
  | noSpots
  /-- 400 Already joined / User already in this game. -/
  | alreadyJoined
  /-- 400 You are not in this game / Player not in this game. -/
  | notInGame
  /-- 404 User not found. -/
  | userNotFound
  /-- 200 with the saved game. -/
  | ok (game : Game)
  /-- 500 Server error. -/
  | serverError
  deriving DecidableEq

/-- The handler of `POST /:id/join`. -/
def joinGame (s : Store) (userId : UserId) (gameId : GameId) : Store × RosterResponse :=
  match s.games gameId with
  | none => (s, RosterResponse.gameNotFound)
  | some game =>
    if game.isOpen = false ∨ game.availableSpots ≤ 0 then (s, RosterResponse.noSpots)
    else if userId ∈ game.players then (s, RosterResponse.alreadyJoined)
    else
      let game1 := Game.preSave { game with players := game.players ++ [userId] }
      ({ s with games := Function.update s.games gameId (some game1) },
       RosterResponse.ok game1)

/-- The handler of `POST /:id/leave`. -/
def leaveGame (s : Store) (userId : UserId) (gameId : GameId) : Store × RosterResponse :=
  match s.games gameId with
  | none => (s, RosterResponse.gameNotFound)
  | some game =>
    let players1 := game.players.filter (fun p => decide (p ≠ userId))
    if players1.length = game.players.length then (s, RosterResponse.notInGame)
    else
      let captain1 := if game.captain = some userId then none else game.captain
      let game1 := Game.preSave { game with players := players1, captain := captain1 }
      ({ s with games := Function.update s.games gameId (some game1) },
       RosterResponse.ok game1)

/-- The handler of `POST /:id/kick/:playerId`. -/
def kickPlayer (s : Store) (userId : UserId) (gameId : GameId) (playerId : UserId) :
    Store × RosterResponse :=
  match s.games gameId with
  | none => (s, RosterResponse.gameNotFound)
  | some game =>
    if ¬ (game.createdBy = userId) ∧ ¬ (game.captain = some userId) then
      (s, RosterResponse.notAllowed)
    else if playerId = game.createdBy then (s, RosterResponse.cannotRemoveCreator)
    else
      let players1 := game.players.filter (fun p => decide (p ≠ playerId))
      if players1.length = game.players.length then (s, RosterResponse.notInGame)
      else
        let captain1 := if game.captain = some playerId then none else game.captain
        let game1 := Game.preSave { game with players := players1, captain := captain1 }
        ({ s with games := Function.update s.games gameId (some game1) },
         RosterResponse.ok game1)

/-- The handler of `POST /:id/add-player`; `target` is the `userId` text of the
body, `none` when it is absent.  The membership test compares the text of each
player id with the text of the body; `User.findById` then casts the text of the
body, and the id of the user found is pushed. -/
def addPlayer (env : Env) (s : Store) (userId : UserId) (gameId : GameId)
    (target : Option String) : Store × RosterResponse :=
  match target with
  | none => (s, RosterResponse.userIdRequired)
  | some raw =>
    if raw = "" then (s, RosterResponse.userIdRequired)
    else
      match s.games gameId with
      | none => (s, RosterResponse.gameNotFound)
      | some game =>
        if ¬ (game.createdBy = userId) ∧ ¬ (game.captain = some userId) then
          (s, RosterResponse.notAllowed)
        else if game.players.any (fun p => decide (env.objectIdString p = raw)) then
          (s, RosterResponse.alreadyJoined)
        else if game.availableSpots ≤ 0 then (s, RosterResponse.noSpots)
        else
          match env.castObjectId raw with
          | none => (s, RosterResponse.serverError)
          | some playerId =>
            match s.users playerId with
            | none => (s, RosterResponse.userNotFound)
            | some _ =>
              let game1 := Game.preSave { game with players := game.players ++ [playerId] }
              ({ s with games := Function.update s.games gameId (some game1) },
               RosterResponse.ok game1)

/-! ## POST /api/games/auto-join -/

/-- The query of `auto-join`: an open upcoming game with a free spot that the
caller has not joined; the optional filters of the body (`gameType`, `location`,
`date`) are a predicate on games. -/
def autoJoinQuery (userId : UserId) (filters : Game → Bool) (game : Game) : Prop :=
  game.isOpen = true ∧ game.status = GameStatus.upcoming ∧ 0 < game.availableSpots ∧
    userId ∉ game.players ∧ filters game = true

instance (userId : UserId) (filters : Game → Bool) (game : Game) :
    Decidable (autoJoinQuery userId filters game) := by
  unfold autoJoinQuery; infer_instance

/-- Responses of `auto-join`. -/
inductive AutoJoinResponse
  /-- 404 No suitable game found to auto-join. -/
  | noGameFound
  /-- 200 Auto-joined a game successfully. -/
  | joined (id : GameId) (game : Game)
  deriving DecidableEq

/-- The handler of `POST /auto-join`.  `found` is the id of the document
`Game.findOne(query).sort(...)` returns, `none` when it returns null; which of
the matching games comes first is left to the caller, and an answer that does
not satisfy the query counts as no answer. -/
def autoJoin (s : Store) (userId : UserId) (filters : Game → Bool) (found : Option GameId) :
    Store × AutoJoinResponse :=
  match found with
  | none => (s, AutoJoinResponse.noGameFound)
  | some gameId =>
    match s.games gameId with
    | none => (s, AutoJoinResponse.noGameFound)
    | some game =>
      if autoJoinQuery userId filters game then
        let game1 := Game.preSave { game with players := game.players ++ [userId] }
        ({ s with games := Function.update s.games gameId (some game1) },
         AutoJoinResponse.joined gameId game1)
      else (s, AutoJoinResponse.noGameFound)

/-! ## Sequences of requests -/

/-- One request to the server, with what the outside world answers during it. -/
inductive Op
  | createGame (userId : UserId) (req : CreateGameRequest) (newId : GameId)
  | joinGame (userId : UserId) (gameId : GameId)
  | leaveGame (userId : UserId) (gameId : GameId)
  | kickPlayer (userId : UserId) (gameId : GameId) (playerId : UserId)
  | addPlayer (userId : UserId) (gameId : GameId) (target : Option String)
  | autoJoin (userId : UserId) (filters : Game → Bool) (found : Option GameId)
  | joinWithWallet (userId : UserId) (gameId : GameId) (now : Nat)
  | verifyAndCredit (gw : Gateway) (userId : UserId) (orderId paymentId signature : String)
      (now : Nat)
  | topup (userId : UserId) (amount : ℚ) (now : Nat)
  | payGame (userId : UserId) (gameId : Option GameId) (totalPrice : Option ℚ) (now : Nat)

/-- The store after one request. -/
def step (env : Env) (s : Store) : Op → Store
  | Op.createGame userId req newId => (createGame env s userId req newId).1
  | Op.joinGame userId gameId => (joinGame s userId gameId).1
  | Op.leaveGame userId gameId => (leaveGame s userId gameId).1
  | Op.kickPlayer userId gameId playerId => (kickPlayer s userId gameId playerId).1
  | Op.addPlayer userId gameId target => (addPlayer env s userId gameId target).1
  | Op.autoJoin userId filters found => (autoJoin s userId filters found).1
  | Op.joinWithWallet userId gameId now => (joinWithWallet s userId gameId now).1
  | Op.verifyAndCredit gw userId orderId paymentId signature now =>
    (verifyAndCredit env gw s userId orderId paymentId signature now).1
  | Op.topup userId amount now => (topup s userId amount now).1
  | Op.payGame userId gameId totalPrice now => (payGame s userId gameId totalPrice now).1

/-- The store after a sequence of requests, served one after the other. -/
def run (env : Env) (s : Store) (ops : List Op) : Store :=
  ops.foldl (step env) s

/-! ## Vocabulary of the properties -/

/-- The store `join-with-wallet` commits for a game and a user it accepted. -/
def joinedStore (s : Store) (userId : UserId) (gameId : GameId) (now : Nat)
    (game : Game) (user : User) : Store :=
  let price := perPlayerPrice game
  { s with
    users := Function.update s.users userId
      (some { user with walletBalance := fsub user.walletBalance price })
    games := Function.update s.games gameId
      (some (Game.preSave { game with players := game.players ++ [userId] }))
    ledger := s.ledger ++ [gameJoinEntry userId gameId game.teamName price now] }

/-- The store `verify-and-credit` commits when it credits `amount`. -/
def creditedStore (s : Store) (userId : UserId) (orderId paymentId : String) (amount : ℚ)
    (now : Nat) (user : User) : Store :=
  { s with
    users := Function.update s.users userId
      (some { user with walletBalance := fadd user.walletBalance amount })
    ledger := s.ledger ++ [addMoneyEntry userId orderId paymentId amount now] }

/-- Every `User.walletBalance` and every `Wallet.balance` is at least zero. -/
def BalancesNonneg (s : Store) : Prop :=
  (∀ u user, s.users u = some user → 0 ≤ user.walletBalance) ∧
  (∀ u wallet, s.wallets u = some wallet → 0 ≤ wallet.balance)

/-- The sum of the amounts of the user's ledger entries of one type. -/
def ledgerTotal (ty : TxType) (u : UserId) (ledger : List WalletTransaction) : ℚ :=
  ((ledger.filter (fun e => decide (e.user = u ∧ e.type = ty))).map (fun e => e.amount)).sum

/-- The change of balance a ledger entry records. -/
def signedAmount (e : WalletTransaction) : ℚ :=
  match e.type with
  | TxType.CREDIT => e.amount
  | TxType.DEBIT => -e.amount

/-- The balance that results from `b0` when the entries of the user are applied
in ledger order, each with the addition or subtraction on Numbers. -/
def ledgerBalance (b0 : ℚ) (u : UserId) (ledger : List WalletTransaction) : ℚ :=
  (ledger.filter (fun e => decide (e.user = u))).foldl
    (fun b e => fl (b + signedAmount e)) b0

/-- The external payment identifiers in the ledger, in order. -/
def paymentIds (ledger : List WalletTransaction) : List String :=
  ledger.filterMap (fun e => e.razorpayPaymentId)

/-- The number of DEBIT / GAME_JOIN entries of a user for a game. -/
def gameJoinDebits (u : UserId) (g : GameId) (ledger : List WalletTransaction) : Nat :=
  (ledger.filter (fun e => decide (e.user = u ∧ e.type = TxType.DEBIT ∧
    e.reason = TxReason.GAME_JOIN ∧ e.game = some g))).length

/-- Every (user, game) pair has no DEBIT / GAME_JOIN entry, or exactly one and
the user is then on the roster of the game. -/
def DebitsMatchRoster (s : Store) : Prop :=
  ∀ u g, gameJoinDebits u g s.ledger = 0 ∨
    (gameJoinDebits u g s.ledger = 1 ∧ ∃ game, s.games g = some game ∧ u ∈ game.players)

/-- Requests that remove a player from a roster: `leave` and `kick`. -/
def Op.removesPlayer : Op → Bool
  | Op.leaveGame _ _ => true
  | Op.kickPlayer _ _ _ => true
  | _ => false

/-! ## Example data -/

/-- A user document with the given balance. -/
def exampleUser (balance : ℚ) : User :=
  { name := "Asha", email := "asha@example.com", walletBalance := balance }

/-- A game for two with a turf price of 50, as `POST /api/games` leaves it: the
creator (user 1) is the only player. -/
def exampleGame : Game :=
  { teamName := "Kickers"
    teamSize := 2
    gameType := "football"
    turfLocation := "Indiranagar"
    turfDateTime := 1767225600000
    turfPrice := 50
    geoLocation := none
    players := [1]
    captain := some 1
    availableSpots := 1
    isOpen := true
    status := GameStatus.upcoming
    createdBy := 1 }

/-- Users 1 (balance 0) and 2 (balance 100), no game, empty ledger. -/
def emptyStore : Store :=
  { users := fun u =>
      if u = 1 then some (exampleUser 0) else if u = 2 then some (exampleUser 100) else none
    games := fun _ => none
    ledger := []
    wallets := fun _ => none }

/-- The store `emptyStore` with `exampleGame` under id 7. -/
def exampleStore : Store :=
  { emptyStore with games := fun g => if g = 7 then some exampleGame else none }

/-- The value of a hex digit of either case. -/
def hexValue (c : Char) : Option Nat :=
  "0123456789abcdef".data.indexOf? c.toLower

/-- The number a text of hex digits of either case denotes, `none` when a
character is not a hex digit. -/
def hexNumber (digits : List Char) : Option Nat :=
  digits.foldl
    (fun acc c =>
      match acc, hexValue c with
      | some n, some d => some (16 * n + d)
      | _, _ => none)
    (some 0)

/-- The lower-case hex digits of a number, the given count of them. -/
def hexDigits : Nat → Nat → List Char
  | 0, _ => []
  | k + 1, n => hexDigits k (n / 16) ++ ["0123456789abcdef".data.getD (n % 16) '0']

/-- An environment with credentials; the digest is a stand-in that joins secret
and text; an `ObjectId` prints as 24 lower-case hex digits and a text of 24 hex
digits of either case casts to the `ObjectId` it denotes. -/
def exampleEnv : Env :=
  { RAZORPAY_KEY_ID := some "rzp_test_key"
    RAZORPAY_KEY_SECRET := some "secret"
    hmacSha256Hex := fun secret text => secret ++ "#" ++ text
    parseDate := fun text => if text = "2026-01-01" then some 1767225600000 else none
    objectIdString := fun id => String.mk (hexDigits 24 id)
    castObjectId := fun text => if text.length = 24 then hexNumber text.data else none }

/-- The body of a `POST /api/games` that creates `exampleGame`. -/
def exampleRequest : CreateGameRequest :=
  { teamName := "Kickers"
    teamSize := 2
    gameType := "football"
    turfLocation := "Indiranagar"
    turfDateTime := "2026-01-01"
    turfPrice := some 50
    geoLocation := none }

/-- A gateway that knows one captured payment of 5000 paise for `order_1`. -/
def exampleGateway : Gateway :=
  { paymentsFetch := fun id =>
      if id = "pay_1" then
        some { status := "captured", order_id := "order_1", amount := 5000 }
      else none
    ordersFetch := fun id =>
      if id = "order_1" then
        some { id := "order_1", amount := 5000, currency := "INR", receipt := "wallet_2_0",
               notesUserId := "2", notesType := "WALLET_TOPUP" }
      else none }

/-- The signature `exampleEnv` expects for `order_1` and `pay_1`. -/
def exampleSignature : String := "secret#order_1|pay_1"

/-- One request of each money-moving kind. -/
def exampleOps : List Op :=
  [Op.joinWithWallet 2 7 0,
   Op.verifyAndCredit exampleGateway 2 "order_1" "pay_1" exampleSignature 1,
   Op.topup 2 30 2,
   Op.payGame 1 (some 7) none 3]

/-- User 1 creates a game, user 2 joins with the wallet, leaves, and joins with
the wallet again. -/
def rejoinOps : List Op :=
  [Op.createGame 1 exampleRequest 7,
   Op.joinWithWallet 2 7 10,
   Op.leaveGame 2 7,
   Op.joinWithWallet 2 7 20]

/-- A gateway whose payment `pay_1` failed. -/
def failedGateway : Gateway :=
  { paymentsFetch := fun id =>
      if id = "pay_1" then some { status := "failed", order_id := "order_1", amount := 5000 }
      else none
    ordersFetch := exampleGateway.ordersFetch }

/-- A gateway whose payment fetch throws while its order fetch answers. -/
def orderOnlyGateway : Gateway :=
  { paymentsFetch := fun _ => none
    ordersFetch := exampleGateway.ordersFetch }

/-- A gateway that answers nothing. -/
def downGateway : Gateway :=
  { paymentsFetch := fun _ => none
    ordersFetch := fun _ => none }

/-- The store `exampleStore` after payment `pay_1` of user 2 was credited. -/
def replayStore : Store :=
  { exampleStore with ledger := [addMoneyEntry 2 "order_1" "pay_1" 50 1] }

/-! ## POST /api/wallet/create-order -/

/-- The options `create-order` hands to `razorpay.orders.create`. -/
structure OrderOptions where
  amount : ℤ
  currency : String
  receipt : String
  notesUserId : String
  notesType : String
  deriving DecidableEq

/-- Responses of `create-order`. -/
inductive CreateOrderResponse
  /-- 503 Wallet top-up is temporarily unavailable. -/
  | gatewayUnavailable
  /-- 400 with the message: Amount must be a positive number, or Minimum amount
  is 1 rupee. -/
  | invalidAmount (message : String)
  /-- 200 with the order. -/
  | created (orderId : String) (amount : ℚ) (currency : String) (keyId : Option String)
      (receipt : String)
  /-- 500 Failed to create payment order. -/
  | serverError
  deriving DecidableEq

/-- The options `create-order` builds for a user, an amount in rupees and the
value of `Date.now()`: the amount in paise is `Math.round(amount * 100)`, the
receipt is `wallet_<userId>_<now>` cut to 40 characters. -/
def orderOptions (env : Env) (userId : UserId) (amount : ℚ) (now : Nat) : OrderOptions :=
  { amount := mathRound (fmul amount 100)
    currency := "INR"
    receipt :=
      String.mk
        (("wallet_" ++ env.objectIdString userId ++ "_" ++ toString now).data.take 40)
    notesUserId := env.objectIdString userId
    notesType := "WALLET_TOPUP" }

/-- The handler of `POST /create-order` (`routes/walletRoutes.js`).  The amount
of the body is `none` when it is absent or not a number; `ordersCreate` is the
answer of the gateway, `none` when the call throws.  The second component is
the order request sent to the gateway, if any. -/
def createOrder (env : Env) (ordersCreate : OrderOptions → Option GatewayOrder)
    (userId : UserId) (amount : Option ℚ) (now : Nat) :
    CreateOrderResponse × Option OrderOptions :=
  if ¬ env.razorpayConfigured then (CreateOrderResponse.gatewayUnavailable, none)
  else
    match amount with
    | none => (CreateOrderResponse.invalidAmount "Amount must be a positive number", none)
    | some a =>
      if a = 0 ∨ a ≤ 0 then
        (CreateOrderResponse.invalidAmount "Amount must be a positive number", none)
      else if a < 1 then (CreateOrderResponse.invalidAmount "Minimum amount is ₹1", none)
      else
        let options := orderOptions env userId a now
        match ordersCreate options with
        | none => (CreateOrderResponse.serverError, some options)
        | some order =>
          (CreateOrderResponse.created order.id a order.currency env.RAZORPAY_KEY_ID
            order.receipt, some options)

/-- The store `exampleStore` with a user 3 whose balance is 1/1024 of a rupee
(0.0009765625, a binary64 value). -/
def thinStore : Store :=
  { exampleStore with
    users := fun u => if u = 3 then some (exampleUser (1 / 1024)) else exampleStore.users u }

/-- The derived fields of a game agree with its roster and status:
`availableSpots = teamSize - |players|` and
`isOpen = (availableSpots > 0 && status === 'upcoming')`. -/
def Game.derived (g : Game) : Prop :=
  g.availableSpots = g.teamSize - (g.players.length : ℚ) ∧
  g.isOpen = (decide (g.availableSpots > 0) && decide (g.status = GameStatus.upcoming))

/-- The body of a `POST /api/games` for two players without a turf price. -/
def unpricedRequest : CreateGameRequest :=
  { exampleRequest with turfPrice := none }

/-- User 1 creates an unpriced game for two, a caller 9 without a user document
joins it, and user 1 pays with a price of 50. -/
def danglingOps : List Op :=
  [Op.createGame 1 unpricedRequest 7,
   Op.joinGame 9 7,
   Op.payGame 1 (some 7) (some 50) 30]

/-- The game document `pay-game` saves when it sets the price `tp`. -/
def pricedGame (s : Store) (game : Game) (tp : ℚ) : Game :=
  let spots := game.teamSize - ((populatedPlayers s game).length : ℚ)
  { game with
    turfPrice := tp
    availableSpots := spots
    isOpen := decide (spots > 0) && decide (game.status = GameStatus.upcoming) }

/-- The share `pay-game` computes for a price: the price over the number of
players on the populated roster, as
`Number((game.turfPrice / game.players.length).toFixed(2))`. -/
def payShare (s : Store) (game : Game) (price : ℚ) : ℚ :=
  numberToFixed2 (fdiv price ((populatedPlayers s game).length : ℚ))

/-- The wallet `pay-game` saves after a payment of `share` for the game. -/
def paidWallet (wallet : Wallet) (gameId : GameId) (teamName : String) (share : ℚ)
    (now : Nat) : Wallet :=
  { balance := fsub wallet.balance share
    transactions := wallet.transactions ++
      [{ type := LegacyTxType.payment, amount := share,
         description := "Payment for " ++ teamName, game := some gameId,
         status := LegacyTxStatus.completed, createdAt := now }]
    payments :=
      if (findPayment wallet.payments gameId).isSome then
        markPaid wallet.payments gameId share now
      else wallet.payments ++
        [{ game := gameId, amount := share, status := PaymentStatus.paid, paidAt := some now }] }

/-- The game of `danglingOps` once caller 9 has joined: unpriced, full, closed. -/
def fullGame : Game :=
  { exampleGame with turfPrice := 0, players := [1, 9], availableSpots := 0, isOpen := false }

/-- A wallet with one paid record, of the given amount, for game 7. -/
def walletWithPaid (balance amount : ℚ) : Wallet :=
  { balance := balance
    transactions := []
    payments := [{ game := 7, amount := amount, status := PaymentStatus.paid, paidAt := some 5 }] }

/-- The store `exampleStore` where users 1 and 2 each hold a paid record for
game 7; user 2 is not on the roster (any more). -/
def paidStore : Store :=
  { exampleStore with
    wallets := fun u =>
      if u = 1 then some (walletWithPaid 20 50)
      else if u = 2 then some (walletWithPaid 10 25) else none }

/-- The game `exampleGame` after user 2 joined: full and closed. -/
def grownGame : Game :=
  { exampleGame with players := [1, 2], availableSpots := 0, isOpen := false }

/-- The store `paidStore` after user 2 joined game 7. -/
def grownStore : Store :=
  { paidStore with games := fun g => if g = 7 then some grownGame else none }

/-- The game `exampleGame` before any price was set. -/
def unpricedGame : Game := { exampleGame with turfPrice := 0 }

/-- The store `exampleStore` with game 7 still unpriced. -/
def unpricedStore : Store :=
  { exampleStore with games := fun g => if g = 7 then some unpricedGame else none }

/-- The game `exampleGame` after its creator left: nobody on the roster. -/
def vacantGame : Game :=
  { exampleGame with players := [], captain := none, availableSpots := 2 }

/-- The store `exampleStore` with game 7 vacated. -/
def vacantStore : Store :=
  { exampleStore with games := fun g => if g = 7 then some vacantGame else none }

/-- The store `exampleStore` where user 1 holds a wallet of 80 without records. -/
def fundedStore : Store :=
  { exampleStore with
    wallets := fun u =>
      if u = 1 then some { balance := 80, transactions := [], payments := [] } else none }

/-- An environment without gateway credentials. -/
def bareEnv : Env :=
  { exampleEnv with RAZORPAY_KEY_ID := none, RAZORPAY_KEY_SECRET := none }

/-- A gateway that accepts every order and names it `order_1`. -/
def exampleOrdersCreate : OrderOptions → Option GatewayOrder :=
  fun options =>
    some { id := "order_1", amount := (options.amount : ℚ), currency := options.currency,
           receipt := options.receipt, notesUserId := options.notesUserId,
           notesType := options.notesType }

/-! ## GET /api/wallet/transactions -/

/-- The value of `parseInt(text) || fallback`; `parsed` is `none` when the
query parameter is absent or not a number. -/
def orDefault (parsed : Option Int) (fallback : Int) : Int :=
  match parsed with
  | some n => if n = 0 then fallback else n
  | none => fallback

/-- The page of the request: `parseInt(req.query.page) || 1`. -/
def effectivePage (page : Option Int) : Int := orDefault page 1

/-- The limit of the request: `Math.min(parseInt(req.query.limit) || 10, 50)`. -/
def effectiveLimit (limit : Option Int) : Int := min (orDefault limit 10) 50

/-- The order of the sort by `createdAt` descending: the first entry is at least
as new as the second. -/
def newerOrSame (a b : WalletTransaction) : Prop := b.createdAt ≤ a.createdAt

instance : DecidableRel newerOrSame := fun a b => by unfold newerOrSame; infer_instance

instance : IsTotal WalletTransaction newerOrSame :=
  ⟨fun a b => Nat.le_total b.createdAt a.createdAt⟩

instance : IsTrans WalletTransaction newerOrSame :=
  ⟨fun _ _ _ hab hbc => Nat.le_trans hbc hab⟩

/-- The ledger entries of a user, newest first; entries of the same instant
keep their insertion order. -/
def userTransactions (s : Store) (userId : UserId) : List WalletTransaction :=
  (s.ledger.filter (fun e => decide (e.user = userId))).insertionSort newerOrSame

/-- The `pagination` object of the response. -/
structure Pagination where
  page : Int
  limit : Int
  total : Nat
  totalPages : Int
  hasNextPage : Bool
  hasPrevPage : Bool
  deriving DecidableEq

/-- The `pagination` object for a page, a limit and a count of entries. -/
def pagination (page limit : Int) (total : Nat) : Pagination :=
  { page := page
    limit := limit
    total := total
    totalPages := ⌈(total : ℚ) / (limit : ℚ)⌉
    hasNextPage := decide (page * limit < (total : Int))
    hasPrevPage := decide (page > 1) }

/-- Responses of `GET /transactions`. -/
inductive TransactionsResponse
  /-- 200 with the page of entries and the pagination object. -/
  | ok (transactions : List WalletTransaction) (pagination : Pagination)
  /-- 500 Failed to fetch transactions. -/
  | serverError
  deriving DecidableEq

/-- The handler of `GET /transactions` (`routes/walletRoutes.js`).  Mongo refuses
a negative `skip`; a negative `limit` is sent as its absolute value.  The
populated `game` of an entry is not part of the model. -/
def getTransactions (s : Store) (userId : UserId) (page limit : Option Int) :
    TransactionsResponse :=
  let page := effectivePage page
  let limit := effectiveLimit limit
  let skip := (page - 1) * limit
  if skip < 0 then TransactionsResponse.serverError
  else
    let transactions := ((userTransactions s userId).drop skip.toNat).take limit.natAbs
    let total := (s.ledger.filter (fun e => decide (e.user = userId))).length
    TransactionsResponse.ok transactions (pagination page limit total)

/-! ## GET /api/wallet/game/:gameId/status -/

/-- One element of `players` in the status response. -/
structure PlayerStatus where
  userId : UserId
  name : String
  email : String
  status : PaymentStatus
  paidAt : Option Nat
  amount : ℚ
  deriving DecidableEq

/-- Responses of the ledger-based `GET /game/:gameId/status`. -/
inductive GameStatusResponse
  /-- 404 Game not found. -/
  | gameNotFound
  /-- 200 with the price, the amount per player and the status of the players. -/
  | ok (gameId : GameId) (totalPrice amountPerPlayer : ℚ) (players : List PlayerStatus)
  deriving DecidableEq

/-- The entries `WalletTransaction.find` returns for a game: DEBIT, GAME_JOIN. -/
def gameJoinTransactions (ledger : List WalletTransaction) (gameId : GameId) :
    List WalletTransaction :=
  ledger.filter (fun t => decide (t.game = some gameId ∧ t.type = TxType.DEBIT ∧
    t.reason = TxReason.GAME_JOIN))

/-- The value of `transactionMap[userId]`: the `reduce` keeps the last entry of
each user. -/
def transactionOf (transactions : List WalletTransaction) (userId : UserId) :
    Option WalletTransaction :=
  (transactions.filter (fun t => decide (t.user = userId))).getLast?

/-- The handler of `GET /game/:gameId/status` (`routes/walletRoutes.js`).  The
roster is the populated one. -/
def ledgerGameStatus (s : Store) (gameId : GameId) : GameStatusResponse :=
  match s.games gameId with
  | none => GameStatusResponse.gameNotFound
  | some game =>
    let transactions := gameJoinTransactions s.ledger gameId
    let amountPerPlayer :=
      if game.turfPrice ≠ 0 ∧ game.teamSize ≠ 0 then
        toFixed2 (fdiv game.turfPrice game.teamSize)
      else 0
    let playersStatus := (populatedPlayers s game).map (fun player =>
      let isPaid := transactions.any (fun t => decide (t.user = player))
      let transaction := transactionOf transactions player
      { userId := player
        name := ((s.users player).map (fun x => x.name)).getD ""
        email := ((s.users player).map (fun x => x.email)).getD ""
        status := if isPaid then PaymentStatus.paid else PaymentStatus.pending
        paidAt := transaction.map (fun t => t.createdAt)
        amount := (transaction.map (fun t => t.amount)).getD 0 })
    GameStatusResponse.ok gameId game.turfPrice amountPerPlayer playersStatus

/-- The store `emptyStore` with the full game of `danglingOps` under id 7: its
player 9 has no user document. -/
def danglingStore : Store :=
  { emptyStore with games := fun g => if g = 7 then some fullGame else none }

/-- Requests of `pay-game`. -/
def Op.isPayGame : Op → Bool
  | Op.payGame _ _ _ _ => true
  | _ => false

/-- The store `exampleStore` with three credits of user 2, written at instants
1, 3 and 2, and one of user 1. -/
def busyStore : Store :=
  { exampleStore with
    ledger :=
      [addMoneyEntry 2 "order_1" "pay_1" 50 1,
       addMoneyEntry 2 "order_3" "pay_3" 30 3,
       addMoneyEntry 1 "order_4" "pay_4" 10 4,
       addMoneyEntry 2 "order_2" "pay_2" 20 2] }

/-- The payments list of a wallet has at most one record per game. -/
def Wallet.onePerGame (w : Wallet) : Prop :=
  ∀ g : GameId, w.payments.countP (fun p => decide (p.game = g)) ≤ 1

/-- Requests on `paidStore`: pay-game by a holder of a paid record, by the same
user for an unknown game and by a user who left the game, then a top-up. -/
def payOps : List Op :=
  [Op.payGame 1 (some 7) none 3, Op.payGame 1 (some 8) (some 40) 4,
   Op.payGame 2 (some 7) none 5, Op.topup 1 30 6]

/-- Game `b` is game `a` except, at most, for `players`, `captain`,
`availableSpots` and `isOpen`. -/
def Game.sameButRoster (a b : Game) : Prop :=
  { b with
    players := a.players
    captain := a.captain
    availableSpots := a.availableSpots
    isOpen := a.isOpen } = a

/-- Store `s1` is store `s` except, at most, for the roster fields of game
`gameId`: users, ledger and wallets are the same, every other game is the same,
and the game is still there with at most its roster fields changed. -/
def Store.rosterChangeOnly (s s1 : Store) (gameId : GameId) : Prop :=
  s1.users = s.users ∧ s1.ledger = s.ledger ∧ s1.wallets = s.wallets ∧
  (∀ g, g ≠ gameId → s1.games g = s.games g) ∧
  (s1.games gameId = s.games gameId ∨
    ∃ game game1, s.games gameId = some game ∧ s1.games gameId = some game1 ∧
      game.sameButRoster game1)

/-- An order with the user it was created for (`notes.userId`) blanked. -/
def GatewayOrder.withoutOwner (o : GatewayOrder) : GatewayOrder :=
  { o with notesUserId := "" }

/-- Two gateways that differ at most in the user each order was created for. -/
def Gateway.sameButOwner (gw1 gw2 : Gateway) : Prop :=
  gw1.paymentsFetch = gw2.paymentsFetch ∧
  ∀ id, (gw1.ordersFetch id).map GatewayOrder.withoutOwner =
    (gw2.ordersFetch id).map GatewayOrder.withoutOwner

/-- The gateway `orderOnlyGateway` had its orders been created for user 9. -/
def strangerGateway : Gateway :=
  { paymentsFetch := fun _ => none
    ordersFetch := fun id =>
      (orderOnlyGateway.ordersFetch id).map (fun o => { o with notesUserId := "9" }) }

/-- The binary64 value nearest to 0.1. -/
def tenth : ℚ := 3602879701896397 / 36028797018963968

/-- The binary64 value nearest to 0.2. -/
def fifth : ℚ := 3602879701896397 / 18014398509481984

/-- The store `exampleStore` with a user 3 whose balance is 0.1. -/
def tenthStore : Store :=
  { exampleStore with
    users := fun u => if u = 3 then some (exampleUser tenth) else exampleStore.users u }

/-- The binary64 value nearest to 0.3. -/
def threeTenths : ℚ := 5404319552844595 / 18014398509481984

/-- A gateway that knows two captured payments: 20 paise for `order_1` and 30
paise for `order_2`. -/
def smallGateway : Gateway :=
  { paymentsFetch := fun id =>
      if id = "pay_1" then some { status := "captured", order_id := "order_1", amount := 20 }
      else if id = "pay_2" then
        some { status := "captured", order_id := "order_2", amount := 30 }
      else none
    ordersFetch := fun _ => none }

/-- Two top-ups of user 3, of 20 paise and then of 30 paise. -/
def twoCredits : List Op :=
  [Op.verifyAndCredit smallGateway 3 "order_1" "pay_1" exampleSignature 1,
   Op.verifyAndCredit smallGateway 3 "order_2" "pay_2" "secret#order_2|pay_2" 2]

/-- The binary64 value nearest to 1.4649999999999999, a little below it. -/
def rupees1465 : ℚ := 412360840881111 / 281474976710656

/-- Requests of `add-player`. -/
def Op.isAddPlayer : Op → Bool
  | Op.addPlayer _ _ _ => true
  | _ => false

/-- The text of `ObjectId` 10 in upper case: not the text `toString()` prints,
which is lower case, yet a text that casts to `ObjectId` 10. -/
def upperCaseId : String := "00000000000000000000000A"

/-- The body of a `POST /api/games` for a team of three. -/
def trioRequest : CreateGameRequest :=
  { exampleRequest with teamSize := 3 }

/-- The store `emptyStore` with a further user 10. -/
def clubStore : Store :=
  { emptyStore with
    users := fun u => if u = 10 then some (exampleUser 0) else emptyStore.users u }

/-- User 1 creates a game for three, user 10 joins it, and user 1 adds a player
by the upper-case text of the id of user 10. -/
def trioOps : List Op :=
  [Op.createGame 1 trioRequest 7,
   Op.joinGame 10 7,
   Op.addPlayer 1 7 (some upperCaseId)]

/-- The game `trioRequest` creates: a team of three, the creator alone. -/
def trioGame : Game := { exampleGame with teamSize := 3, availableSpots := 2 }

/-- The game `trioGame` once user 10 has joined. -/
def pairGame : Game := { trioGame with players := [1, 10], availableSpots := 1 }

/-- The store `clubStore` with `pairGame` under id 7. -/
def pairStore : Store :=
  { clubStore with games := fun g => if g = 7 then some pairGame else none }

/-- A game for forty with a turf price of 1201: the exact share is 30.025. -/
def fortyGame : Game :=
  { exampleGame with teamSize := 40, turfPrice := 1201, availableSpots := 39 }

/-- The store with `fortyGame` under id 7 and a user 2 whose balance is the
Number 30.02. -/
def fortyStore : Store :=
  { emptyStore with
    games := fun g => if g = 7 then some fortyGame else none
    users := fun u =>
      if u = 2 then some (exampleUser (8449878800853893 / 281474976710656)) else none }

/-! ## Rounding -/

/-- The spacing of binary64 values is positive. -/
theorem ulp_pos (x : ℚ) : 0 < ulp x := by
  unfold ulp
  positivity

/-- Rounding a number that is at least zero gives an integer that is at least
zero. -/
theorem roundHalfEven_nonneg (q : ℚ) (h : 0 ≤ q) : 0 ≤ roundHalfEven q := by
  have hf : 0 ≤ ⌊q⌋ := Int.floor_nonneg.mpr h
  unfold roundHalfEven
  split_ifs <;> omega

/-- An integer rounds to itself. -/
theorem roundHalfEven_intCast (n : ℤ) : roundHalfEven (n : ℚ) = n := by
  unfold roundHalfEven
  simp

/-- A number strictly within a half of an integer rounds to that integer. -/
theorem roundHalfEven_of_near (q : ℚ) (n : ℤ) (h1 : (n : ℚ) - 1 / 2 < q)
    (h2 : q < (n : ℚ) + 1 / 2) : roundHalfEven q = n := by
  unfold roundHalfEven
  by_cases hq : (n : ℚ) ≤ q
  · have hf : ⌊q⌋ = n := Int.floor_eq_iff.mpr ⟨hq, by linarith⟩
    rw [hf, if_pos (by linarith)]
  · have hf : ⌊q⌋ = n - 1 :=
      Int.floor_eq_iff.mpr ⟨by push_cast; linarith, by push_cast; linarith⟩
    rw [hf]
    push_cast
    rw [if_neg (by linarith), if_pos (by linarith)]
    ring

/-- A tie rounds to the even neighbour. -/
theorem roundHalfEven_tie (n : ℤ) :
    roundHalfEven ((n : ℚ) + 1 / 2) = if n % 2 = 0 then n else n + 1 := by
  unfold roundHalfEven
  have hf : ⌊(n : ℚ) + 1 / 2⌋ = n := Int.floor_eq_iff.mpr ⟨by linarith, by linarith⟩
  rw [hf]
  rw [if_neg (by linarith), if_neg (by linarith)]

/-- The rounded integer is within a half of the number. -/
theorem roundHalfEven_error (q : ℚ) : |(roundHalfEven q : ℚ) - q| ≤ 1 / 2 := by
  have h1 := Int.floor_le q
  have h2 := Int.lt_floor_add_one q
  unfold roundHalfEven
  rw [abs_le]
  split_ifs with a b c
  · constructor <;> linarith
  · push_cast; constructor <;> linarith
  · constructor <;> linarith
  · push_cast; constructor <;> linarith

/-- Rounding to binary64 keeps a number at or above zero there. -/
theorem fl_nonneg (x : ℚ) (h : 0 ≤ x) : 0 ≤ fl x := by
  unfold fl
  have hu := ulp_pos x
  have hq : 0 ≤ x / ulp x := div_nonneg h hu.le
  have h2 : (0 : ℚ) ≤ (roundHalfEven (x / ulp x) : ℚ) := by
    exact_mod_cast roundHalfEven_nonneg _ hq
  positivity

/-- Zero is a binary64 value. -/
theorem fl_zero : fl 0 = 0 := by
  unfold fl
  rw [zero_div]
  have : roundHalfEven 0 = 0 := by simpa using roundHalfEven_intCast 0
  rw [this]
  simp

/-- The binary64 value is within half a spacing of the number. -/
theorem fl_error (x : ℚ) : |fl x - x| ≤ ulp x / 2 := by
  have hu := ulp_pos x
  have h := roundHalfEven_error (x / ulp x)
  unfold fl
  have e : (roundHalfEven (x / ulp x) : ℚ) * ulp x - x =
      ((roundHalfEven (x / ulp x) : ℚ) - x / ulp x) * ulp x := by
    field_simp
  rw [e, abs_mul, abs_of_pos hu]
  calc |(roundHalfEven (x / ulp x) : ℚ) - x / ulp x| * ulp x ≤ 1 / 2 * ulp x :=
        mul_le_mul_of_nonneg_right h hu.le
    _ = ulp x / 2 := by ring

/-- The binade of a number from the two powers of two that enclose it. -/
theorem binade_eq (x : ℚ) (e : ℤ) (he : -1022 ≤ e) (h1 : (2 : ℚ) ^ e ≤ |x|)
    (h2 : |x| < (2 : ℚ) ^ (e + 1)) : binade x = e := by
  have hpos : 0 < |x| := lt_of_lt_of_le (by positivity) h1
  have hlog : Int.log 2 |x| = e := by
    apply le_antisymm
    · have := (Int.lt_zpow_iff_log_lt (by norm_num : 1 < 2) hpos).mp h2
      omega
    · exact (Int.zpow_le_iff_le_log (by norm_num : 1 < 2) hpos).mp h1
  unfold binade
  rw [hlog]
  exact max_eq_left he

/-- The binary64 value of a positive number from its binade and the rounded
significand. -/
theorem fl_of (x : ℚ) (e m : ℤ) (he : -1022 ≤ e) (h1 : (2 : ℚ) ^ e ≤ x)
    (h2 : x < (2 : ℚ) ^ (e + 1))
    (hm : roundHalfEven (x / (2 : ℚ) ^ (e - 52)) = m) :
    fl x = (m : ℚ) * (2 : ℚ) ^ (e - 52) := by
  have hx : 0 ≤ x := le_trans (by positivity) h1
  unfold fl ulp
  rw [binade_eq x e he (by rw [abs_of_nonneg hx]; exact h1)
    (by rw [abs_of_nonneg hx]; exact h2), hm]

/-- A positive number whose significand is an integer is a binary64 value. -/
theorem fl_exact (x : ℚ) (e m : ℤ) (he : -1022 ≤ e) (h1 : (2 : ℚ) ^ e ≤ x)
    (h2 : x < (2 : ℚ) ^ (e + 1)) (hm : x / (2 : ℚ) ^ (e - 52) = (m : ℚ)) : fl x = x := by
  rw [fl_of x e m he h1 h2 (by rw [hm]; exact roundHalfEven_intCast m), ← hm]
  have hp : (2 : ℚ) ^ (e - 52) ≠ 0 := by positivity
  field_simp

/-- A natural number below `2^53` is a binary64 value. -/
theorem fl_natCast (n : ℕ) (h : n < 2 ^ 53) : fl (n : ℚ) = (n : ℚ) := by
  rcases Nat.eq_zero_or_pos n with h0 | hpos
  · subst h0; simpa using fl_zero
  · have hlog : Nat.log 2 n < 53 := Nat.log_lt_of_lt_pow (by omega) h
    have h1 : (2 : ℚ) ^ ((Nat.log 2 n : ℕ) : ℤ) ≤ (n : ℚ) := by
      rw [zpow_natCast]
      exact_mod_cast Nat.pow_log_le_self 2 (by omega)
    have h2 : (n : ℚ) < (2 : ℚ) ^ (((Nat.log 2 n : ℕ) : ℤ) + 1) := by
      have : n < 2 ^ (Nat.log 2 n + 1) := Nat.lt_pow_succ_log_self (by norm_num) n
      have h3 : (((Nat.log 2 n : ℕ) : ℤ) + 1) = ((Nat.log 2 n + 1 : ℕ) : ℤ) := by push_cast; ring
      rw [h3, zpow_natCast]
      exact_mod_cast this
    apply fl_exact (n : ℚ) (Nat.log 2 n : ℤ) ((n : ℤ) * 2 ^ (52 - Nat.log 2 n)) (by omega) h1 h2
    have h4 : ((Nat.log 2 n : ℕ) : ℤ) - 52 = -((52 - Nat.log 2 n : ℕ) : ℤ) := by omega
    rw [h4, zpow_neg, zpow_natCast]
    push_cast
    field_simp

/-! ## Decimal rounding -/

/-- The value of `toFixed2` from the two bounds that pin the rounded integer. -/
theorem toFixed2_of_bounds (x : ℚ) (n : ℤ) (hx : 0 ≤ x)
    (h1 : (n : ℚ) ≤ x * 100 + 1 / 2) (h2 : x * 100 + 1 / 2 < (n : ℚ) + 1) :
    toFixed2 x = (n : ℚ) / 100 := by
  unfold toFixed2
  rw [if_pos hx]
  have hfloor : ⌊x * 100 + 1 / 2⌋ = n := Int.floor_eq_iff.mpr ⟨h1, h2⟩
  rw [hfloor]

/-- A turf price of 50 split over a team of 2 is 25.00. -/
theorem toFixed2_fifty_by_two : toFixed2 ((50 : ℚ) / 2) = 25 := by
  rw [toFixed2_of_bounds (50 / 2) 2500 (by norm_num) (by norm_num) (by norm_num)]
  norm_num

/-- An amount that is a whole number of rupees is its own rounding. -/
theorem toFixed2_twentyfive : toFixed2 25 = 25 := by
  rw [toFixed2_of_bounds 25 2500 (by norm_num) (by norm_num) (by norm_num)]
  norm_num

/-- A whole number of hundredths is its own rounding. -/
theorem toFixed2_hundredths (n : ℤ) : toFixed2 ((n : ℚ) / 100) = (n : ℚ) / 100 := by
  by_cases hn : 0 ≤ (n : ℚ) / 100
  · apply toFixed2_of_bounds _ n hn
    · rw [div_mul_cancel₀ _ (by norm_num : (100 : ℚ) ≠ 0)]; linarith
    · rw [div_mul_cancel₀ _ (by norm_num : (100 : ℚ) ≠ 0)]; linarith
  · unfold toFixed2
    rw [if_neg hn]
    have h : -((n : ℚ) / 100) * 100 + 1 / 2 = ((-n : ℤ) : ℚ) + 1 / 2 := by
      push_cast; ring
    have hfloor : ⌊-((n : ℚ) / 100) * 100 + 1 / 2⌋ = -n := by
      rw [h, Int.floor_eq_iff]
      constructor
      · linarith
      · linarith
    rw [hfloor]
    push_cast
    ring

/-- The rounding is a whole number of hundredths. -/
theorem toFixed2_is_hundredths (x : ℚ) : ∃ n : ℤ, toFixed2 x = (n : ℚ) / 100 := by
  unfold toFixed2
  split
  · exact ⟨_, rfl⟩
  · exact ⟨-⌊-x * 100 + 1 / 2⌋, by push_cast; ring⟩

/-- Rounding keeps an amount at or above zero there. -/
theorem toFixed2_nonneg (x : ℚ) (hx : 0 ≤ x) : 0 ≤ toFixed2 x := by
  unfold toFixed2
  rw [if_pos hx]
  apply div_nonneg _ (by norm_num)
  have : (0 : ℤ) ≤ ⌊x * 100 + 1 / 2⌋ := by
    apply Int.floor_nonneg.mpr
    have : 0 ≤ x * 100 := mul_nonneg hx (by norm_num)
    linarith
  exact_mod_cast this

/-- The decimal `x.toFixed(2)` is within half a hundredth of `x`. -/
theorem toFixed2_error (x : ℚ) : |toFixed2 x - x| ≤ 1 / 200 := by
  unfold toFixed2
  by_cases hx : 0 ≤ x
  · rw [if_pos hx]
    have h1 := Int.floor_le (x * 100 + 1 / 2)
    have h2 := Int.lt_floor_add_one (x * 100 + 1 / 2)
    rw [abs_le]
    constructor <;> linarith
  · rw [if_neg hx]
    have h1 := Int.floor_le (-x * 100 + 1 / 2)
    have h2 := Int.lt_floor_add_one (-x * 100 + 1 / 2)
    rw [abs_le]
    constructor <;> linarith

/-- A tie goes to the larger magnitude: an eighth prints as 0.13. -/
theorem toFixed2_eighth : toFixed2 ((1 : ℚ) / 8) = 13 / 100 := by
  rw [toFixed2_of_bounds (1 / 8) 13 (by norm_num) (by norm_num) (by norm_num)]
  norm_num

/-- The value `Number(x.toFixed(2))` is the binary64 value nearest to a decimal
`m / 100`, the one `x.toFixed(2)` denotes, within half a hundredth of `x`. -/
theorem numberToFixed2_spec (x : ℚ) :
    ∃ m : ℤ, numberToFixed2 x = fl ((m : ℚ) / 100) ∧ |(m : ℚ) / 100 - x| ≤ 1 / 200 := by
  obtain ⟨m, hm⟩ := toFixed2_is_hundredths x
  refine ⟨m, ?_, ?_⟩
  · unfold numberToFixed2; rw [hm]
  · rw [← hm]; exact toFixed2_error x

/-- The integer 25 is a binary64 value. -/
theorem fl_twentyfive : fl 25 = 25 := by simpa using fl_natCast 25 (by norm_num)

/-- The integer 50 is a binary64 value. -/
theorem fl_fifty : fl 50 = 50 := by simpa using fl_natCast 50 (by norm_num)

/-- The integer 75 is a binary64 value. -/
theorem fl_seventyfive : fl 75 = 75 := by simpa using fl_natCast 75 (by norm_num)

/-- The integer 150 is a binary64 value. -/
theorem fl_hundredfifty : fl 150 = 150 := by simpa using fl_natCast 150 (by norm_num)

/-- The value 0.1 as a Number. -/
theorem fl_tenth : fl (1 / 10) = tenth := by
  rw [fl_of (1 / 10) (-4) 7205759403792794 (by norm_num) (by norm_num) (by norm_num)
    (by apply roundHalfEven_of_near <;> norm_num)]
  unfold tenth
  norm_num

/-- Twenty paise in rupees: 0.2 as a Number. -/
theorem fdiv_twenty_paise : fdiv 20 100 = fifth := by
  unfold fdiv
  rw [fl_of (20 / 100) (-3) 7205759403792794 (by norm_num) (by norm_num) (by norm_num)
    (by apply roundHalfEven_of_near <;> norm_num)]
  unfold fifth
  norm_num

/-- The sum `0.1 + 0.2` on Numbers is 0.30000000000000004: the exact sum lies
halfway between two binary64 values and goes to the even one. -/
theorem fadd_tenth_fifth : fadd tenth fifth = 1351079888211149 / 4503599627370496 := by
  unfold fadd tenth fifth
  rw [fl_of _ (-2) 5404319552844596 (by norm_num) (by norm_num) (by norm_num)
    (by
      have h : (3602879701896397 / 36028797018963968 +
          3602879701896397 / 18014398509481984 : ℚ) /
          (2 : ℚ) ^ ((-2 : ℤ) - 52) = ((5404319552844595 : ℤ) : ℚ) + 1 / 2 := by norm_num
      rw [h, roundHalfEven_tie]
      norm_num)]
  norm_num

/-- Five thousand paise are 50 rupees. -/
theorem fdiv_paise : fdiv 5000 100 = 50 := by
  unfold fdiv
  norm_num
  exact fl_fifty

/-- One hundred and 50 are 150, exactly. -/
theorem fadd_hundred_fifty : fadd 100 50 = 150 := by
  unfold fadd
  norm_num
  exact fl_hundredfifty

/-- The `perPlayerPrice` of `exampleGame`: 50 over 2 is 25. -/
theorem perPlayerPrice_example : perPlayerPrice exampleGame = 25 := by
  have h : exampleGame.turfPrice / exampleGame.teamSize = 25 := by
    simp only [exampleGame]; norm_num
  have h2 : toFixed2 25 = 25 := by
    rw [toFixed2_of_bounds 25 2500 (by norm_num) (by norm_num) (by norm_num)]
    norm_num
  unfold perPlayerPrice numberToFixed2 fdiv
  rw [h, fl_twentyfive, h2, fl_twentyfive]

/-! ## join-with-wallet -/

/-- Either `join-with-wallet` answers with a failure and the store is the one it
started from, or every guard passed and it commits `joinedStore`. -/
theorem joinWithWallet_cases (s : Store) (u : UserId) (g : GameId) (now : Nat) :
    ((joinWithWallet s u g now).1 = s ∧
        ∀ b a n k, (joinWithWallet s u g now).2 ≠ JoinWalletResponse.joined b a n k) ∨
    ∃ game user, s.games g = some game ∧ s.users u = some user ∧
      game.isOpen = true ∧ 0 < game.availableSpots ∧ u ∉ game.players ∧
      0 < perPlayerPrice game ∧
      perPlayerPrice game ≤ user.walletBalance ∧
      joinWithWallet s u g now =
        (joinedStore s u g now game user,
          JoinWalletResponse.joined
            (fsub user.walletBalance (perPlayerPrice game))
            (perPlayerPrice game)
            (game.players.length + 1)
            (game.teamSize - ((game.players.length + 1 : ℕ) : ℚ))) := by
  unfold joinWithWallet
  cases hg : s.games g with
  | none => left; simp
  | some game =>
    simp only []
    by_cases h1 : game.isOpen = false ∨ game.availableSpots ≤ 0
    · left; simp [h1]
    by_cases h2 : u ∈ game.players
    · left; simp [h1, h2]
    by_cases h3 : ¬ (game.turfPrice ≠ 0 ∧ game.turfPrice > 0)
    · left; rw [if_neg h1, if_neg h2, if_pos h3]; simp
    by_cases h4 : perPlayerPrice game ≤ 0
    · left; rw [if_neg h1, if_neg h2, if_neg h3]; simp [h4]
    cases hu : s.users u with
    | none => left; rw [if_neg h1, if_neg h2, if_neg h3]; simp [h4]
    | some user =>
      by_cases h5 : user.walletBalance < perPlayerPrice game
      · left; rw [if_neg h1, if_neg h2, if_neg h3]; simp [h4, h5]
      right
      refine ⟨game, user, rfl, rfl, ?_, ?_, h2, lt_of_not_le h4, le_of_not_lt h5, ?_⟩
      · simpa using (not_or.mp h1).1
      · exact lt_of_not_le (not_or.mp h1).2
      · rw [if_neg h1, if_neg h2, if_neg h3]
        have hv : (0:ℚ) ≤ fsub user.walletBalance (perPlayerPrice game) :=
          fl_nonneg _ (by linarith [le_of_not_lt h5])
        have ha : ¬ (perPlayerPrice game < 0) := by
          intro h; exact h4 (le_of_lt h)
        simp [h4, h5, User.valid, hv, insertTransaction, gameJoinEntry, ha, joinedStore,
          Game.preSave]

/-- When every guard of `join-with-wallet` passes, it commits `joinedStore` and
answers with success. -/
theorem joinWithWallet_of_guards (s : Store) (u : UserId) (g : GameId) (now : Nat)
    (game : Game) (user : User) (hg : s.games g = some game) (hu : s.users u = some user)
    (ho : game.isOpen = true) (hs : 0 < game.availableSpots) (hn : u ∉ game.players)
    (ht : 0 < game.turfPrice) (hp : 0 < perPlayerPrice game)
    (hb : perPlayerPrice game ≤ user.walletBalance) :
    joinWithWallet s u g now =
      (joinedStore s u g now game user,
        JoinWalletResponse.joined
          (fsub user.walletBalance (perPlayerPrice game))
          (perPlayerPrice game)
          (game.players.length + 1)
          (game.teamSize - ((game.players.length + 1 : ℕ) : ℚ))) := by
  rcases joinWithWallet_cases s u g now with ⟨_, hne⟩ |
    ⟨game1, user1, hg1, hu1, _, _, _, _, _, heq⟩
  · exfalso
    unfold joinWithWallet at hne
    rw [hg] at hne
    simp only [] at hne
    have h1 : ¬ (game.isOpen = false ∨ game.availableSpots ≤ 0) := by
      intro h
      rcases h with h | h
      · rw [ho] at h; exact Bool.noConfusion h
      · exact absurd hs (not_lt.mpr h)
    have h3 : ¬ ¬ (game.turfPrice ≠ 0 ∧ game.turfPrice > 0) :=
      not_not.mpr ⟨ne_of_gt ht, ht⟩
    rw [if_neg h1, if_neg hn, if_neg h3, if_neg (not_le.mpr hp), hu] at hne
    simp only [] at hne
    rw [if_neg (not_lt.mpr hb)] at hne
    have hv : (0:ℚ) ≤ fsub user.walletBalance (perPlayerPrice game) :=
      fl_nonneg _ (by linarith)
    have ha : ¬ (perPlayerPrice game < 0) := not_lt.mpr (le_of_lt hp)
    simp [User.valid, hv, insertTransaction, gameJoinEntry, ha] at hne
    exact hne _ _ _ _ rfl rfl rfl rfl
  · rw [hg] at hg1
    rw [hu] at hu1
    simp only [Option.some.injEq] at hg1 hu1
    subst hg1; subst hu1
    exact heq

/-- One hundred less 25 is 75, exactly. -/
theorem fsub_hundred_twentyfive : fsub 100 25 = 75 := by
  unfold fsub
  norm_num
  exact fl_seventyfive

/-- On `exampleStore` user 2 joins game 7: 25.00 is deducted and 75.00 is left. -/
theorem example_join_response :
    (joinWithWallet exampleStore 2 7 0).2 = JoinWalletResponse.joined 75 25 2 0 := by
  have h25 := perPlayerPrice_example
  rw [joinWithWallet_of_guards exampleStore 2 7 0 exampleGame (exampleUser 100)
    (by simp [exampleStore]) (by simp [exampleStore, emptyStore]) rfl
    (by simp [exampleGame]) (by simp [exampleGame]) (by simp [exampleGame])
    (by rw [h25]; norm_num) (by rw [h25]; simp [exampleUser]; norm_num)]
  simp only [h25, exampleUser, fsub_hundred_twentyfive]
  simp [exampleGame]

/-- C1: whenever `join-with-wallet` answers with success for user `u` and game
`g`, the amount deducted is `perPlayerPrice`, that is
`Number((turfPrice / teamSize).toFixed(2))`: the binary64 value of a decimal
`m / 100` that lies within half a hundredth of the quotient the handler
computed.  The balance of `u` afterwards is the old balance minus that amount,
as the subtraction on Numbers gives it (and is the balance reported), the ledger
is the old ledger followed by exactly one entry (user `u`, DEBIT, GAME_JOIN, that
amount, game `g`), and the players of `g` are the old players followed by `u`. -/
theorem joinWithWallet_success (s : Store) (u : UserId) (g : GameId) (now : Nat)
    (bal amt : ℚ) (n : Nat) (k : ℚ)
    (h : (joinWithWallet s u g now).2 = JoinWalletResponse.joined bal amt n k) :
    ∃ game user, s.games g = some game ∧ s.users u = some user ∧
      amt = perPlayerPrice game ∧
      (∃ m : ℤ, amt = fl ((m : ℚ) / 100) ∧
        |(m : ℚ) / 100 - fdiv game.turfPrice game.teamSize| ≤ 1 / 200) ∧
      bal = fsub user.walletBalance amt ∧
      ((joinWithWallet s u g now).1.users u).map (fun x => x.walletBalance) =
        some (fsub user.walletBalance amt) ∧
      (∃ e, (joinWithWallet s u g now).1.ledger = s.ledger ++ [e] ∧ e.user = u ∧
        e.type = TxType.DEBIT ∧ e.reason = TxReason.GAME_JOIN ∧ e.amount = amt ∧
        e.game = some g) ∧
      (∃ game1, (joinWithWallet s u g now).1.games g = some game1 ∧
        game1.players = game.players ++ [u]) := by
  rcases joinWithWallet_cases s u g now with ⟨_, hne⟩ | ⟨game, user, hg, hu, _, _, _, _, _, heq⟩
  · exact absurd h (hne bal amt n k)
  · rw [heq] at h ⊢
    simp only [JoinWalletResponse.joined.injEq] at h
    obtain ⟨hb, ha, _, _⟩ := h
    refine ⟨game, user, hg, hu, ha.symm, ?_, ?_, ?_, ?_, ?_⟩
    · rw [← ha]
      exact numberToFixed2_spec _
    · rw [← hb, ← ha]
    · simp [joinedStore, ha]
    · exact ⟨gameJoinEntry u g game.teamName amt now, by simp [joinedStore, ha],
        rfl, rfl, rfl, rfl, rfl⟩
    · refine ⟨Game.preSave { game with players := game.players ++ [u] }, ?_, ?_⟩
      · simp [joinedStore]
      · simp [Game.preSave]

/-- C1 at the scenario of the specification: balance 100, `turfPrice` 50,
`teamSize` 2; the response reports 25 deducted and a balance of 75. -/
theorem joinWithWallet_success_witness :
    (joinWithWallet exampleStore 2 7 0).2 = JoinWalletResponse.joined 75 25 2 0 ∧
    ∃ game user, exampleStore.games 7 = some game ∧ exampleStore.users 2 = some user ∧
      (25 : ℚ) = perPlayerPrice game ∧
      (∃ m : ℤ, (25 : ℚ) = fl ((m : ℚ) / 100) ∧
        |(m : ℚ) / 100 - fdiv game.turfPrice game.teamSize| ≤ 1 / 200) ∧
      (75 : ℚ) = fsub user.walletBalance 25 ∧
      ((joinWithWallet exampleStore 2 7 0).1.users 2).map (fun x => x.walletBalance) =
        some (fsub user.walletBalance 25) ∧
      (∃ e, (joinWithWallet exampleStore 2 7 0).1.ledger = exampleStore.ledger ++ [e] ∧
        e.user = 2 ∧ e.type = TxType.DEBIT ∧ e.reason = TxReason.GAME_JOIN ∧
        e.amount = 25 ∧ e.game = some 7) ∧
      (∃ game1, (joinWithWallet exampleStore 2 7 0).1.games 7 = some game1 ∧
        game1.players = game.players ++ [2]) :=
  ⟨example_join_response,
    joinWithWallet_success exampleStore 2 7 0 75 25 2 0 example_join_response⟩

/-! ## verify-and-credit -/

/-- A failure of the gateway part is one of its three 400 responses. -/
theorem gatewayAmount_error (gw : Gateway) (o p : String) (r : VerifyResponse)
    (calls : List GatewayCall) (h : gatewayAmount gw o p = (Except.error r, calls)) :
    (∃ st, r = VerifyResponse.paymentNotCaptured st) ∨ r = VerifyResponse.orderMismatch ∨
      r = VerifyResponse.couldNotVerifyAmount := by
  unfold gatewayAmount orderAmount at h
  cases hp : gw.paymentsFetch p with
  | none =>
    rw [hp] at h
    cases ho : gw.ordersFetch o with
    | none => rw [ho] at h; simp at h; exact Or.inr (Or.inr h.1.symm)
    | some order => rw [ho] at h; simp at h
  | some payment =>
    rw [hp] at h
    simp only [] at h
    split_ifs at h with h1 h2 h3
    · simp at h; exact Or.inl ⟨_, h.1.symm⟩
    · simp at h; exact Or.inr (Or.inl h.1.symm)
    · simp at h
    · cases ho : gw.ordersFetch o with
      | none => rw [ho] at h; simp at h; exact Or.inr (Or.inr h.1.symm)
      | some order => rw [ho] at h; simp at h

/-- Either `verify-and-credit` leaves the store as it found it and does not answer
`credited`, or the gateway part settled an amount, no entry carries the payment
id, the caller exists and it commits `creditedStore`. -/
theorem verifyAndCredit_cases (env : Env) (gw : Gateway) (s : Store) (u : UserId)
    (o p sig : String) (now : Nat) :
    ((verifyAndCredit env gw s u o p sig now).1 = s ∧
        ∀ b a, (verifyAndCredit env gw s u o p sig now).2.1 ≠ VerifyResponse.credited b a) ∨
    ∃ user amount calls, s.users u = some user ∧ findByPaymentId s.ledger p = none ∧
      gatewayAmount gw o p = (Except.ok amount, calls) ∧
      0 ≤ amount ∧ 0 ≤ fadd user.walletBalance amount ∧
      verifyAndCredit env gw s u o p sig now =
        (creditedStore s u o p amount now user,
          VerifyResponse.credited (fadd user.walletBalance amount) amount, calls) := by
  unfold verifyAndCredit
  by_cases h1 : ¬ env.razorpayConfigured
  · left; rw [if_pos h1]; simp
  by_cases h2 : o = "" ∨ p = "" ∨ sig = ""
  · left; rw [if_neg h1, if_pos h2]; simp
  by_cases h3 : env.hmacSha256Hex env.keySecret (o ++ "|" ++ p) ≠ sig
  · left; rw [if_neg h1, if_neg h2, if_pos h3]; simp
  rw [if_neg h1, if_neg h2, if_neg h3]
  rcases hga : gatewayAmount gw o p with ⟨r, calls⟩
  cases r with
  | error r =>
    left
    refine ⟨rfl, ?_⟩
    intro b a
    rcases gatewayAmount_error gw o p r calls hga with ⟨st, h⟩ | h | h <;> simp [h]
  | ok amount =>
    simp only []
    cases hf : findByPaymentId s.ledger p with
    | some e =>
      left
      cases hu : s.users u <;> simp
    | none =>
      cases hu : s.users u with
      | none => left; simp
      | some user =>
        simp only []
        by_cases ha : amount < 0
        · left; simp [insertTransaction, addMoneyEntry, ha]
        by_cases hv : 0 ≤ fadd user.walletBalance amount
        · right
          refine ⟨user, amount, calls, rfl, trivial, rfl, le_of_not_lt ha, hv, ?_⟩
          simp [insertTransaction, addMoneyEntry, ha, hf, User.valid, hv, creditedStore]
        · left
          simp [insertTransaction, addMoneyEntry, ha, hf, User.valid, hv]

/-! ## Frames: what each handler leaves alone -/

theorem createGame_frame (env : Env) (s : Store) (u : UserId) (req : CreateGameRequest)
    (newId : GameId) :
    ∃ games, (createGame env s u req newId).1 = { s with games := games } := by
  unfold createGame
  split
  · exact ⟨_, rfl⟩
  · split
    · exact ⟨_, rfl⟩
    · split <;> exact ⟨_, rfl⟩

theorem joinGame_frame (s : Store) (u : UserId) (g : GameId) :
    ∃ games, (joinGame s u g).1 = { s with games := games } := by
  unfold joinGame
  split
  · exact ⟨_, rfl⟩
  · split
    · exact ⟨_, rfl⟩
    · split <;> exact ⟨_, rfl⟩

theorem leaveGame_frame (s : Store) (u : UserId) (g : GameId) :
    ∃ games, (leaveGame s u g).1 = { s with games := games } := by
  unfold leaveGame
  split
  · exact ⟨_, rfl⟩
  · simp only []
    split <;> exact ⟨_, rfl⟩

theorem kickPlayer_frame (s : Store) (u : UserId) (g : GameId) (q : UserId) :
    ∃ games, (kickPlayer s u g q).1 = { s with games := games } := by
  unfold kickPlayer
  split
  · exact ⟨_, rfl⟩
  · split
    · exact ⟨_, rfl⟩
    · split
      · exact ⟨_, rfl⟩
      · simp only []
        split <;> exact ⟨_, rfl⟩

theorem addPlayer_frame (env : Env) (s : Store) (u : UserId) (g : GameId)
    (t : Option String) :
    ∃ games, (addPlayer env s u g t).1 = { s with games := games } := by
  unfold addPlayer
  split
  · exact ⟨_, rfl⟩
  · split
    · exact ⟨_, rfl⟩
    · split
      · exact ⟨_, rfl⟩
      · split
        · exact ⟨_, rfl⟩
        · split
          · exact ⟨_, rfl⟩
          · split
            · exact ⟨_, rfl⟩
            · split
              · exact ⟨_, rfl⟩
              · split <;> exact ⟨_, rfl⟩

theorem autoJoin_frame (s : Store) (u : UserId) (filters : Game → Bool)
    (found : Option GameId) :
    ∃ games, (autoJoin s u filters found).1 = { s with games := games } := by
  unfold autoJoin
  split
  · exact ⟨_, rfl⟩
  · split
    · exact ⟨_, rfl⟩
    · split <;> exact ⟨_, rfl⟩

theorem getOrCreateWallet_frame (s : Store) (u : UserId) :
    ∃ wallets, (getOrCreateWallet s u).1 = { s with wallets := wallets } := by
  unfold getOrCreateWallet
  split <;> exact ⟨_, rfl⟩

theorem topup_frame (s : Store) (u : UserId) (a : ℚ) (now : Nat) :
    ∃ wallets, (topup s u a now).1 = { s with wallets := wallets } := by
  obtain ⟨w, hw⟩ := getOrCreateWallet_frame s u
  unfold topup
  split
  · exact ⟨_, rfl⟩
  · simp only []
    split
    · exact ⟨w, hw⟩
    · rw [hw]; exact ⟨_, rfl⟩

theorem payGamePrice_frame (s : Store) (g : GameId) (game : Game) (tp : Option ℚ)
    (s1 : Store) (price : ℚ) (h : payGamePrice s g game tp = some (s1, price)) :
    ∃ games, s1 = { s with games := games } := by
  unfold payGamePrice at h
  split at h
  · split at h
    · simp at h
    · split at h
      · simp at h
      · simp only [Option.some.injEq, Prod.mk.injEq] at h
        exact ⟨_, h.1.symm⟩
  · simp only [Option.some.injEq, Prod.mk.injEq] at h
    exact ⟨_, h.1.symm⟩

theorem payGame_frame (s : Store) (u : UserId) (g : Option GameId) (tp : Option ℚ)
    (now : Nat) :
    ∃ games wallets, (payGame s u g tp now).1 = { s with games := games, wallets := wallets } := by
  unfold payGame
  split
  · exact ⟨_, _, rfl⟩
  · split
    · exact ⟨_, _, rfl⟩
    · simp only []
      split
      · exact ⟨_, _, rfl⟩
      · split
        · exact ⟨_, _, rfl⟩
        · split
          · exact ⟨_, _, rfl⟩
          · rename_i s1 price hp
            obtain ⟨gs, hgs⟩ := payGamePrice_frame s _ _ tp s1 price hp
            obtain ⟨w, hw⟩ := getOrCreateWallet_frame s1 u
            have h2 : (getOrCreateWallet s1 u).1 = { s with games := gs, wallets := w } := by
              rw [hw, hgs]
            split
            · exact ⟨_, _, h2⟩
            · split
              · exact ⟨_, _, h2⟩
              · split
                · exact ⟨_, _, h2⟩
                · rw [h2]; exact ⟨_, _, rfl⟩

/-! ## Effect of one request on users and ledger -/

/-- One request either leaves users and ledger alone, or is an accepted
`join-with-wallet`, or is a crediting `verify-and-credit`. -/
theorem step_cases (env : Env) (s : Store) (op : Op) :
    (∃ games wallets, step env s op = { s with games := games, wallets := wallets }) ∨
    (∃ u g now game user, op = Op.joinWithWallet u g now ∧
      s.games g = some game ∧ s.users u = some user ∧ u ∉ game.players ∧
      0 < perPlayerPrice game ∧
      perPlayerPrice game ≤ user.walletBalance ∧
      step env s op = joinedStore s u g now game user) ∨
    (∃ gw u o p sig now user amount, op = Op.verifyAndCredit gw u o p sig now ∧
      s.users u = some user ∧ findByPaymentId s.ledger p = none ∧
      0 ≤ amount ∧ 0 ≤ fadd user.walletBalance amount ∧
      step env s op = creditedStore s u o p amount now user) := by
  cases op with
  | createGame u req newId =>
    obtain ⟨gs, h⟩ := createGame_frame env s u req newId
    exact Or.inl ⟨gs, s.wallets, h⟩
  | joinGame u g =>
    obtain ⟨gs, h⟩ := joinGame_frame s u g
    exact Or.inl ⟨gs, s.wallets, h⟩
  | leaveGame u g =>
    obtain ⟨gs, h⟩ := leaveGame_frame s u g
    exact Or.inl ⟨gs, s.wallets, h⟩
  | kickPlayer u g q =>
    obtain ⟨gs, h⟩ := kickPlayer_frame s u g q
    exact Or.inl ⟨gs, s.wallets, h⟩
  | addPlayer u g t =>
    obtain ⟨gs, h⟩ := addPlayer_frame env s u g t
    exact Or.inl ⟨gs, s.wallets, h⟩
  | autoJoin u filters found =>
    obtain ⟨gs, h⟩ := autoJoin_frame s u filters found
    exact Or.inl ⟨gs, s.wallets, h⟩
  | joinWithWallet u g now =>
    rcases joinWithWallet_cases s u g now with ⟨h, _⟩ | ⟨game, user, hg, hu, _, _, hn, hp, hb, heq⟩
    · exact Or.inl ⟨s.games, s.wallets, h⟩
    · refine Or.inr (Or.inl ⟨u, g, now, game, user, rfl, hg, hu, hn, hp, hb, ?_⟩)
      simp only [step, heq]
  | verifyAndCredit gw u o p sig now =>
    rcases verifyAndCredit_cases env gw s u o p sig now with
      ⟨h, _⟩ | ⟨user, amount, calls, hu, hf, _, ha, hv, heq⟩
    · exact Or.inl ⟨s.games, s.wallets, h⟩
    · refine Or.inr (Or.inr ⟨gw, u, o, p, sig, now, user, amount, rfl, hu, hf, ha, hv, ?_⟩)
      simp only [step, heq]
  | topup u a now =>
    obtain ⟨w, h⟩ := topup_frame s u a now
    exact Or.inl ⟨s.games, w, h⟩
  | payGame u g tp now =>
    obtain ⟨gs, w, h⟩ := payGame_frame s u g tp now
    exact Or.inl ⟨gs, w, h⟩

/-- Serving a request keeps every `User.walletBalance` at or above zero. -/
theorem step_users_nonneg (env : Env) (s : Store) (op : Op)
    (h : ∀ u user, s.users u = some user → 0 ≤ user.walletBalance) :
    ∀ u user, (step env s op).users u = some user → 0 ≤ user.walletBalance := by
  intro v x hx
  rcases step_cases env s op with ⟨gs, w, heq⟩ |
    ⟨u, g, now, game, user, _, _, hu, _, _, hb, heq⟩ |
    ⟨gw, u, o, p, sig, now, user, amount, _, hu, _, _, hv, heq⟩
  · rw [heq] at hx
    exact h v x hx
  · rw [heq] at hx
    simp only [joinedStore] at hx
    by_cases hvu : v = u
    · subst hvu
      simp only [Function.update_same, Option.some.injEq] at hx
      rw [← hx]
      simp only []
      exact fl_nonneg _ (by linarith)
    · rw [Function.update_noteq hvu] at hx
      exact h v x hx
  · rw [heq] at hx
    simp only [creditedStore] at hx
    by_cases hvu : v = u
    · subst hvu
      simp only [Function.update_same, Option.some.injEq] at hx
      rw [← hx]
      exact hv
    · rw [Function.update_noteq hvu] at hx
      exact h v x hx

/-! ## Balances stay at or above zero -/

/-- `getOrCreateWallet` keeps wallet balances at or above zero, returns a wallet
with such a balance, and stores the wallet it returns. -/
theorem getOrCreateWallet_nonneg (s : Store) (u : UserId)
    (h : ∀ v w, s.wallets v = some w → 0 ≤ w.balance) :
    (∀ v w, (getOrCreateWallet s u).1.wallets v = some w → 0 ≤ w.balance) ∧
    0 ≤ (getOrCreateWallet s u).2.balance := by
  unfold getOrCreateWallet
  cases hw : s.wallets u with
  | some wallet => exact ⟨h, h u wallet hw⟩
  | none =>
    refine ⟨?_, by simp [emptyWallet]⟩
    intro v w hv
    simp only [] at hv
    by_cases hvu : v = u
    · subst hvu
      simp only [Function.update_same, Option.some.injEq] at hv
      rw [← hv]; simp [emptyWallet]
    · rw [Function.update_noteq hvu] at hv
      exact h v w hv

/-- Writing a wallet with a balance at or above zero keeps the invariant. -/
theorem update_wallets_nonneg (wallets : UserId → Option Wallet) (u : UserId) (w1 : Wallet)
    (h : ∀ v w, wallets v = some w → 0 ≤ w.balance) (h1 : 0 ≤ w1.balance) :
    ∀ v w, Function.update wallets u (some w1) v = some w → 0 ≤ w.balance := by
  intro v w hv
  by_cases hvu : v = u
  · subst hvu
    simp only [Function.update_same, Option.some.injEq] at hv
    rw [← hv]; exact h1
  · rw [Function.update_noteq hvu] at hv
    exact h v w hv

theorem topup_wallets_nonneg (s : Store) (u : UserId) (a : ℚ) (now : Nat)
    (h : ∀ v w, s.wallets v = some w → 0 ≤ w.balance) :
    ∀ v w, (topup s u a now).1.wallets v = some w → 0 ≤ w.balance := by
  have hg := getOrCreateWallet_nonneg s u h
  unfold topup
  split
  · exact h
  · simp only []
    split
    · exact hg.1
    · rename_i hne hok
      apply update_wallets_nonneg _ _ _ hg.1
      simp only []
      exact le_of_not_lt (fun hlt => hok (Or.inl hlt))

theorem payGame_wallets_nonneg (s : Store) (u : UserId) (g : Option GameId) (tp : Option ℚ)
    (now : Nat) (h : ∀ v w, s.wallets v = some w → 0 ≤ w.balance) :
    ∀ v w, (payGame s u g tp now).1.wallets v = some w → 0 ≤ w.balance := by
  unfold payGame
  split
  · exact h
  · split
    · exact h
    · simp only []
      split
      · exact h
      · split
        · exact h
        · split
          · exact h
          · rename_i s1 price hp
            obtain ⟨gs, hgs⟩ := payGamePrice_frame s _ _ tp s1 price hp
            have h1 : ∀ v w, s1.wallets v = some w → 0 ≤ w.balance := by
              rw [hgs]; exact h
            have hg := getOrCreateWallet_nonneg s1 u h1
            split
            · exact hg.1
            · split
              · exact hg.1
              · split
                · exact hg.1
                · rename_i hok
                  apply update_wallets_nonneg _ _ _ hg.1
                  exact le_of_not_lt (fun hlt => hok (Or.inl hlt))

/-- Serving a request keeps every `Wallet.balance` at or above zero. -/
theorem step_wallets_nonneg (env : Env) (s : Store) (op : Op)
    (h : ∀ v w, s.wallets v = some w → 0 ≤ w.balance) :
    ∀ v w, (step env s op).wallets v = some w → 0 ≤ w.balance := by
  cases op with
  | createGame u req newId =>
    obtain ⟨gs, he⟩ := createGame_frame env s u req newId
    simp only [step, he]; exact h
  | joinGame u g =>
    obtain ⟨gs, he⟩ := joinGame_frame s u g
    simp only [step, he]; exact h
  | leaveGame u g =>
    obtain ⟨gs, he⟩ := leaveGame_frame s u g
    simp only [step, he]; exact h
  | kickPlayer u g q =>
    obtain ⟨gs, he⟩ := kickPlayer_frame s u g q
    simp only [step, he]; exact h
  | addPlayer u g t =>
    obtain ⟨gs, he⟩ := addPlayer_frame env s u g t
    simp only [step, he]; exact h
  | autoJoin u filters found =>
    obtain ⟨gs, he⟩ := autoJoin_frame s u filters found
    simp only [step, he]; exact h
  | joinWithWallet u g now =>
    rcases joinWithWallet_cases s u g now with ⟨he, _⟩ | ⟨game, user, _, _, _, _, _, _, _, heq⟩
    · simp only [step, he]; exact h
    · simp only [step, heq, joinedStore]; exact h
  | verifyAndCredit gw u o p sig now =>
    rcases verifyAndCredit_cases env gw s u o p sig now with
      ⟨he, _⟩ | ⟨user, amount, calls, _, _, _, _, _, heq⟩
    · simp only [step, he]; exact h
    · simp only [step, heq, creditedStore]; exact h
  | topup u a now => exact topup_wallets_nonneg s u a now h
  | payGame u g tp now => exact payGame_wallets_nonneg s u g tp now h

/-- Serving a request keeps `BalancesNonneg`. -/
theorem step_balancesNonneg (env : Env) (s : Store) (op : Op) (h : BalancesNonneg s) :
    BalancesNonneg (step env s op) :=
  ⟨step_users_nonneg env s op h.1, step_wallets_nonneg env s op h.2⟩

/-- Serving a sequence of requests keeps `BalancesNonneg`. -/
theorem run_balancesNonneg (env : Env) (ops : List Op) :
    ∀ s, BalancesNonneg s → BalancesNonneg (run env s ops) := by
  induction ops with
  | nil => intro s h; exact h
  | cons op rest ih =>
    intro s h
    exact ih (step env s op) (step_balancesNonneg env s op h)

/-! ## Balance and ledger move together -/

/-- The total of a type after one more entry. -/
theorem ledgerTotal_append (ty : TxType) (u : UserId) (l : List WalletTransaction)
    (e : WalletTransaction) :
    ledgerTotal ty u (l ++ [e]) =
      ledgerTotal ty u l + (if e.user = u ∧ e.type = ty then e.amount else 0) := by
  unfold ledgerTotal
  by_cases h : e.user = u ∧ e.type = ty
  · simp [List.filter_append, List.filter_cons, h]
  · simp [List.filter_append, List.filter_cons, h]

/-- A request changes balance and ledger together: either neither changes, or
exactly one entry is appended and exactly the balance of its user moves, to the
binary64 sum of the old balance and the signed amount of the entry. -/
theorem step_moves_together (env : Env) (s : Store) (op : Op) :
    ((step env s op).users = s.users ∧ (step env s op).ledger = s.ledger) ∨
    ∃ e user, s.users e.user = some user ∧
      (step env s op).ledger = s.ledger ++ [e] ∧
      (step env s op).users = Function.update s.users e.user
        (some { user with walletBalance := fl (user.walletBalance + signedAmount e) }) := by
  rcases step_cases env s op with ⟨gs, w, heq⟩ |
    ⟨u, g, now, game, usr, _, _, hu, _, _, _, heq⟩ |
    ⟨gw, u, o, p, sig, now, usr, amount, _, hu, _, _, _, heq⟩
  · left; rw [heq]; exact ⟨rfl, rfl⟩
  · right
    refine ⟨gameJoinEntry u g game.teamName (perPlayerPrice game) now,
      usr, hu, by rw [heq]; rfl, ?_⟩
    rw [heq]
    simp [joinedStore, gameJoinEntry, signedAmount, sub_eq_add_neg, fsub]
  · right
    refine ⟨addMoneyEntry u o p amount now, usr, hu, by rw [heq]; rfl, ?_⟩
    rw [heq]
    simp [creditedStore, addMoneyEntry, signedAmount, fadd]

/-- The replayed balance after one more entry. -/
theorem ledgerBalance_append (b0 : ℚ) (u : UserId) (l : List WalletTransaction)
    (e : WalletTransaction) :
    ledgerBalance b0 u (l ++ [e]) =
      if e.user = u then fl (ledgerBalance b0 u l + signedAmount e)
      else ledgerBalance b0 u l := by
  unfold ledgerBalance
  by_cases h : e.user = u
  · simp [List.filter_append, List.filter_cons, h, List.foldl_append]
  · simp [List.filter_append, List.filter_cons, h]

/-- Serving a request keeps the balance of a user equal to the replay of the
ledger. -/
theorem step_ledgerBalance (env : Env) (s : Store) (op : Op) (b0 : ℚ) (v : UserId)
    (user : User) (hv : s.users v = some user)
    (hb : user.walletBalance = ledgerBalance b0 v s.ledger) :
    ∃ user1, (step env s op).users v = some user1 ∧
      user1.walletBalance = ledgerBalance b0 v (step env s op).ledger := by
  rcases step_moves_together env s op with ⟨hu, hl⟩ | ⟨e, usr, hu, hl, hus⟩
  · rw [hu, hl]; exact ⟨user, hv, hb⟩
  · rw [hl, hus, ledgerBalance_append]
    by_cases hev : e.user = v
    · rw [hev] at hu
      rw [hv] at hu
      simp only [Option.some.injEq] at hu
      subst hu
      rw [if_pos hev, hev, ← hb]
      exact ⟨_, Function.update_same _ _ _, rfl⟩
    · rw [if_neg hev]
      refine ⟨user, ?_, hb⟩
      rw [Function.update_noteq (fun h => hev h.symm)]
      exact hv

/-- Serving a sequence of requests keeps the balance of a user equal to the
replay of the ledger. -/
theorem run_ledgerBalance (env : Env) (ops : List Op) (b0 : ℚ) (v : UserId) :
    ∀ (s : Store) (user : User), s.users v = some user →
      user.walletBalance = ledgerBalance b0 v s.ledger →
      ∃ user1, (run env s ops).users v = some user1 ∧
        user1.walletBalance = ledgerBalance b0 v (run env s ops).ledger := by
  induction ops with
  | nil => intro s user hv hb; exact ⟨user, hv, hb⟩
  | cons op rest ih =>
    intro s user hv hb
    obtain ⟨user1, h1, e1⟩ := step_ledgerBalance env s op b0 v user hv hb
    exact ih (step env s op) user1 h1 e1

/-! ## Payment ids stay distinct -/

/-- `findByPaymentId` finds nothing exactly when the id is not in the ledger. -/
theorem findByPaymentId_eq_none (l : List WalletTransaction) (p : String) :
    findByPaymentId l p = none ↔ p ∉ paymentIds l := by
  unfold findByPaymentId paymentIds
  simp [List.find?_eq_none, List.mem_filterMap]

/-- The entry `findByPaymentId` returns is in the ledger and carries the id. -/
theorem findByPaymentId_some (l : List WalletTransaction) (p : String)
    (e : WalletTransaction) (h : findByPaymentId l p = some e) :
    e ∈ l ∧ e.razorpayPaymentId = some p := by
  unfold findByPaymentId at h
  have h1 := List.mem_of_find?_eq_some h
  have h2 := List.find?_some h
  exact ⟨h1, by simpa using h2⟩

/-- Serving a request keeps the payment ids of the ledger pairwise distinct. -/
theorem step_paymentIds_nodup (env : Env) (s : Store) (op : Op)
    (h : (paymentIds s.ledger).Nodup) : (paymentIds (step env s op).ledger).Nodup := by
  rcases step_cases env s op with ⟨gs, w, heq⟩ |
    ⟨u, g, now, game, usr, _, _, _, _, _, _, heq⟩ |
    ⟨gw, u, o, p, sig, now, usr, amount, _, _, hf, _, _, heq⟩
  · rw [heq]; exact h
  · rw [heq]
    simpa [joinedStore, paymentIds, gameJoinEntry, List.filterMap_append] using h
  · rw [heq]
    have hp : p ∉ paymentIds s.ledger := (findByPaymentId_eq_none s.ledger p).mp hf
    simp only [creditedStore, paymentIds, addMoneyEntry, List.filterMap_append,
      List.filterMap_cons, List.filterMap_nil]
    rw [List.nodup_append]
    refine ⟨h, List.nodup_singleton p, ?_⟩
    intro a ha hb
    rw [List.mem_singleton] at hb
    subst hb
    exact hp ha

/-- Serving a sequence of requests keeps the payment ids pairwise distinct. -/
theorem run_paymentIds_nodup (env : Env) (ops : List Op) :
    ∀ s, (paymentIds s.ledger).Nodup → (paymentIds (run env s ops).ledger).Nodup := by
  induction ops with
  | nil => intro s h; exact h
  | cons op rest ih =>
    intro s h
    exact ih (step env s op) (step_paymentIds_nodup env s op h)

/-! ## Rosters only grow without leave and kick -/

/-- Replacing a game by one with at least its players keeps every roster at
least as large. -/
theorem update_players_mono (games : GameId → Option Game) (g : GameId) (game game1 : Game)
    (hg : games g = some game) (hsub : game.players ⊆ game1.players) :
    ∀ g2 x, games g2 = some x →
      ∃ x1, Function.update games g (some game1) g2 = some x1 ∧ x.players ⊆ x1.players := by
  intro g2 x hx
  by_cases h : g2 = g
  · subst h
    rw [hg] at hx
    simp only [Option.some.injEq] at hx
    subst hx
    exact ⟨game1, by simp, hsub⟩
  · exact ⟨x, by rw [Function.update_noteq h]; exact hx, fun _ h => h⟩

/-- A store with the same games keeps every roster. -/
theorem same_games_mono (s : Store) :
    ∀ g2 x, s.games g2 = some x → ∃ x1, s.games g2 = some x1 ∧ x.players ⊆ x1.players :=
  fun _ x hx => ⟨x, hx, fun _ h => h⟩

theorem createGame_players_mono (env : Env) (s : Store) (u : UserId) (req : CreateGameRequest)
    (newId : GameId) :
    ∀ g2 x, s.games g2 = some x →
      ∃ x1, (createGame env s u req newId).1.games g2 = some x1 ∧ x.players ⊆ x1.players := by
  unfold createGame
  split
  · exact same_games_mono s
  · split
    · exact same_games_mono s
    · split
      · exact same_games_mono s
      · rename_i hfree
        intro g2 x hx
        have hne : g2 ≠ newId := by
          intro h
          subst h
          apply hfree
          simp [hx]
        exact ⟨x, by simp only []; rw [Function.update_noteq hne]; exact hx, fun _ h => h⟩

theorem joinGame_players_mono (s : Store) (u : UserId) (g : GameId) :
    ∀ g2 x, s.games g2 = some x →
      ∃ x1, (joinGame s u g).1.games g2 = some x1 ∧ x.players ⊆ x1.players := by
  unfold joinGame
  split
  · exact same_games_mono s
  · rename_i game hg
    split
    · exact same_games_mono s
    · split
      · exact same_games_mono s
      · exact update_players_mono s.games g game _ hg (by simp [Game.preSave])

theorem addPlayer_players_mono (env : Env) (s : Store) (u : UserId) (g : GameId)
    (t : Option String) :
    ∀ g2 x, s.games g2 = some x →
      ∃ x1, (addPlayer env s u g t).1.games g2 = some x1 ∧ x.players ⊆ x1.players := by
  unfold addPlayer
  split
  · exact same_games_mono s
  · split
    · exact same_games_mono s
    · split
      · exact same_games_mono s
      · rename_i game hg
        split
        · exact same_games_mono s
        · split
          · exact same_games_mono s
          · split
            · exact same_games_mono s
            · split
              · exact same_games_mono s
              · split
                · exact same_games_mono s
                · exact update_players_mono s.games g game _ hg (by simp [Game.preSave])

theorem payGamePrice_players_mono (s : Store) (g : GameId) (game : Game) (tp : Option ℚ)
    (s1 : Store) (price : ℚ) (hg : s.games g = some game)
    (h : payGamePrice s g game tp = some (s1, price)) :
    ∀ g2 x, s.games g2 = some x → ∃ x1, s1.games g2 = some x1 ∧ x.players ⊆ x1.players := by
  unfold payGamePrice at h
  split at h
  · split at h
    · simp at h
    · split at h
      · simp at h
      · simp only [Option.some.injEq, Prod.mk.injEq] at h
        rw [← h.1]
        exact update_players_mono s.games g game _ hg (fun _ h => h)
  · simp only [Option.some.injEq, Prod.mk.injEq] at h
    rw [← h.1]
    exact same_games_mono s

theorem payGame_players_mono (s : Store) (u : UserId) (g : Option GameId) (tp : Option ℚ)
    (now : Nat) :
    ∀ g2 x, s.games g2 = some x →
      ∃ x1, (payGame s u g tp now).1.games g2 = some x1 ∧ x.players ⊆ x1.players := by
  unfold payGame
  split
  · exact same_games_mono s
  · split
    · exact same_games_mono s
    · rename_i gid _ game hg
      simp only []
      split
      · exact same_games_mono s
      · split
        · exact same_games_mono s
        · split
          · exact same_games_mono s
          · rename_i s1 price hp
            have h1 := payGamePrice_players_mono s gid game tp s1 price hg hp
            obtain ⟨w, hw⟩ := getOrCreateWallet_frame s1 u
            have h2 : (getOrCreateWallet s1 u).1.games = s1.games := by rw [hw]
            split
            · rw [h2]; exact h1
            · split
              · rw [h2]; exact h1
              · split
                · rw [h2]; exact h1
                · simp only [h2]; exact h1

theorem autoJoin_players_mono (s : Store) (u : UserId) (filters : Game → Bool)
    (found : Option GameId) :
    ∀ g2 x, s.games g2 = some x →
      ∃ x1, (autoJoin s u filters found).1.games g2 = some x1 ∧ x.players ⊆ x1.players := by
  unfold autoJoin
  split
  · exact same_games_mono s
  · split
    · exact same_games_mono s
    · rename_i gid _ game hg
      split
      · exact update_players_mono s.games gid game _ hg (by simp [Game.preSave])
      · exact same_games_mono s

/-- A request other than `leave` and `kick` removes nobody from a roster. -/
theorem step_players_mono (env : Env) (s : Store) (op : Op) (hop : op.removesPlayer = false) :
    ∀ g2 x, s.games g2 = some x →
      ∃ x1, (step env s op).games g2 = some x1 ∧ x.players ⊆ x1.players := by
  cases op with
  | createGame u req newId => exact createGame_players_mono env s u req newId
  | joinGame u g => exact joinGame_players_mono s u g
  | leaveGame u g => simp [Op.removesPlayer] at hop
  | kickPlayer u g q => simp [Op.removesPlayer] at hop
  | addPlayer u g t => exact addPlayer_players_mono env s u g t
  | autoJoin u filters found => exact autoJoin_players_mono s u filters found
  | joinWithWallet u g now =>
    rcases joinWithWallet_cases s u g now with ⟨he, _⟩ | ⟨game, user, hg, _, _, _, _, _, _, heq⟩
    · simp only [step, he]; exact same_games_mono s
    · simp only [step, heq, joinedStore]
      exact update_players_mono s.games g game _ hg (by simp [Game.preSave])
  | verifyAndCredit gw u o p sig now =>
    rcases verifyAndCredit_cases env gw s u o p sig now with
      ⟨he, _⟩ | ⟨user, amount, calls, _, _, _, _, _, heq⟩
    · simp only [step, he]; exact same_games_mono s
    · simp only [step, heq, creditedStore]; exact same_games_mono s
  | topup u a now =>
    obtain ⟨w, he⟩ := topup_frame s u a now
    simp only [step, he]; exact same_games_mono s
  | payGame u g tp now => exact payGame_players_mono s u g tp now

/-! ## At most one join debit while nobody leaves -/

/-- The number of DEBIT / GAME_JOIN entries after one more entry. -/
theorem gameJoinDebits_append (u : UserId) (g : GameId) (l : List WalletTransaction)
    (e : WalletTransaction) :
    gameJoinDebits u g (l ++ [e]) =
      gameJoinDebits u g l +
        (if e.user = u ∧ e.type = TxType.DEBIT ∧ e.reason = TxReason.GAME_JOIN ∧
            e.game = some g then 1 else 0) := by
  unfold gameJoinDebits
  by_cases h : e.user = u ∧ e.type = TxType.DEBIT ∧ e.reason = TxReason.GAME_JOIN ∧
      e.game = some g
  · simp [List.filter_append, List.filter_cons, h]
  · simp only [List.filter_append, List.length_append, if_neg h, add_zero]
    have : List.filter (fun e => decide (e.user = u ∧ e.type = TxType.DEBIT ∧
        e.reason = TxReason.GAME_JOIN ∧ e.game = some g)) [e] = [] := by
      simp [List.filter_cons, h]
    rw [this]; simp

/-- A request other than `leave` and `kick` keeps `DebitsMatchRoster`. -/
theorem step_debitsMatchRoster (env : Env) (s : Store) (op : Op)
    (hop : op.removesPlayer = false) (h : DebitsMatchRoster s) :
    DebitsMatchRoster (step env s op) := by
  have hmono := step_players_mono env s op hop
  intro v g2
  rcases step_cases env s op with ⟨gs, w, heq⟩ |
    ⟨u, g, now, game, usr, _, hg, _, hn, _, _, heq⟩ |
    ⟨gw, u, o, p, sig, now, usr, amount, _, _, _, _, _, heq⟩
  · have hl : (step env s op).ledger = s.ledger := by rw [heq]
    rw [hl]
    rcases h v g2 with h0 | ⟨h1, x, hx, hv⟩
    · exact Or.inl h0
    · obtain ⟨x1, hx1, hsub⟩ := hmono g2 x hx
      exact Or.inr ⟨h1, x1, hx1, hsub hv⟩
  · have hl : (step env s op).ledger =
        s.ledger ++ [gameJoinEntry u g game.teamName
          (perPlayerPrice game) now] := by rw [heq]; rfl
    rw [hl, gameJoinDebits_append]
    by_cases hvg : u = v ∧ g = g2
    · obtain ⟨huv, hgg⟩ := hvg
      subst huv; subst hgg
      have h0 : gameJoinDebits u g s.ledger = 0 := by
        rcases h u g with h0 | ⟨_, x, hx, hv⟩
        · exact h0
        · rw [hg] at hx
          simp only [Option.some.injEq] at hx
          subst hx
          exact absurd hv hn
      right
      refine ⟨by simp [gameJoinEntry, h0], ?_⟩
      have hgm : (step env s op).games g =
          some (Game.preSave { game with players := game.players ++ [u] }) := by
        rw [heq]; simp [joinedStore]
      exact ⟨_, hgm, by simp [Game.preSave]⟩
    · have hif : ¬ ((gameJoinEntry u g game.teamName
            (perPlayerPrice game) now).user = v ∧
          (gameJoinEntry u g game.teamName
            (perPlayerPrice game) now).type = TxType.DEBIT ∧
          (gameJoinEntry u g game.teamName
            (perPlayerPrice game) now).reason = TxReason.GAME_JOIN ∧
          (gameJoinEntry u g game.teamName
            (perPlayerPrice game) now).game = some g2) := by
        intro hc
        apply hvg
        simp only [gameJoinEntry, Option.some.injEq] at hc
        exact ⟨hc.1, hc.2.2.2⟩
      rw [if_neg hif, add_zero]
      rcases h v g2 with h0 | ⟨h1, x, hx, hv⟩
      · exact Or.inl h0
      · obtain ⟨x1, hx1, hsub⟩ := hmono g2 x hx
        exact Or.inr ⟨h1, x1, hx1, hsub hv⟩
  · have hl : (step env s op).ledger =
        s.ledger ++ [addMoneyEntry u o p amount now] := by rw [heq]; rfl
    rw [hl, gameJoinDebits_append]
    have hif : ¬ ((addMoneyEntry u o p amount now).user = v ∧
        (addMoneyEntry u o p amount now).type = TxType.DEBIT ∧
        (addMoneyEntry u o p amount now).reason = TxReason.GAME_JOIN ∧
        (addMoneyEntry u o p amount now).game = some g2) := by
      intro hc
      simp [addMoneyEntry] at hc
    rw [if_neg hif, add_zero]
    rcases h v g2 with h0 | ⟨h1, x, hx, hv⟩
    · exact Or.inl h0
    · obtain ⟨x1, hx1, hsub⟩ := hmono g2 x hx
      exact Or.inr ⟨h1, x1, hx1, hsub hv⟩

/-- A sequence of requests without `leave` and `kick` keeps `DebitsMatchRoster`. -/
theorem run_debitsMatchRoster (env : Env) (ops : List Op) :
    ∀ s, (∀ op ∈ ops, op.removesPlayer = false) → DebitsMatchRoster s →
      DebitsMatchRoster (run env s ops) := by
  induction ops with
  | nil => intro s _ h; exact h
  | cons op rest ih =>
    intro s hops h
    exact ih (step env s op) (fun o ho => hops o (List.mem_cons_of_mem _ ho))
      (step_debitsMatchRoster env s op (hops op (List.mem_cons_self _ _)) h)

/-! ## The rejoin sequence, request by request -/

/-- Creating `exampleRequest` on `emptyStore` under id 7 gives `exampleStore`. -/
theorem createGame_example :
    (createGame exampleEnv emptyStore 1 exampleRequest 7).1 = exampleStore := by
  have t1 : trim "Kickers" = "Kickers" := by decide
  have t2 : trim "football" = "football" := by decide
  have t3 : trim "Indiranagar" = "Indiranagar" := by decide
  simp [createGame, exampleEnv, emptyStore, exampleRequest, exampleStore, exampleGame,
    Game.preSave, t1, t2, t3]
  funext g
  by_cases h : g = 7
  · subst h; simp; norm_num
  · simp [Function.update_noteq h, h]

/-- The first paid join of `rejoinOps` is accepted. -/
theorem rejoin_first :
    (joinWithWallet exampleStore 2 7 10).1 =
      joinedStore exampleStore 2 7 10 exampleGame (exampleUser 100) := by
  have h25 : perPlayerPrice exampleGame = 25 := perPlayerPrice_example
  rw [joinWithWallet_of_guards exampleStore 2 7 10 exampleGame (exampleUser 100)
    (by simp [exampleStore]) (by simp [exampleStore, emptyStore]) rfl
    (by simp [exampleGame]) (by simp [exampleGame]) (by simp [exampleGame])
    (by rw [h25]; norm_num) (by rw [h25]; simp [exampleUser]; norm_num)]

/-- Leaving after the first paid join restores the roster and keeps balance and
ledger as the join left them. -/
theorem rejoin_leave :
    (leaveGame (joinedStore exampleStore 2 7 10 exampleGame (exampleUser 100)) 2 7).1 =
      { joinedStore exampleStore 2 7 10 exampleGame (exampleUser 100) with
        games := exampleStore.games } := by
  simp [leaveGame, joinedStore, exampleGame, Game.preSave, exampleStore]
  norm_num

/-- The second paid join of `rejoinOps` is accepted as well. -/
theorem rejoin_second :
    (joinWithWallet
        { joinedStore exampleStore 2 7 10 exampleGame (exampleUser 100) with
          games := exampleStore.games } 2 7 20).1.ledger =
      [gameJoinEntry 2 7 "Kickers" 25 10, gameJoinEntry 2 7 "Kickers" 25 20] := by
  have h25 : perPlayerPrice exampleGame = 25 := perPlayerPrice_example
  rw [joinWithWallet_of_guards _ 2 7 20 exampleGame (exampleUser 75)
    (by simp [exampleStore])
    (by simp [joinedStore, exampleUser, h25, fsub_hundred_twentyfive]) rfl
    (by simp [exampleGame]) (by simp [exampleGame]) (by simp [exampleGame])
    (by rw [h25]; norm_num) (by rw [h25]; simp [exampleUser]; norm_num)]
  simp only [joinedStore, h25]
  simp [exampleStore, emptyStore, exampleGame]

/-- The ledger after `rejoinOps`: two join debits of user 2 for game 7. -/
theorem rejoin_ledger :
    (run exampleEnv emptyStore rejoinOps).ledger =
      [gameJoinEntry 2 7 "Kickers" 25 10, gameJoinEntry 2 7 "Kickers" 25 20] := by
  simp only [run, rejoinOps, List.foldl, step]
  rw [createGame_example, rejoin_first, rejoin_leave, rejoin_second]

/-! ## Claims on sequences of requests -/

/-- In `exampleStore` every balance is at or above zero. -/
theorem exampleStore_balancesNonneg : BalancesNonneg exampleStore := by
  constructor
  · intro u user h
    simp only [exampleStore, emptyStore] at h
    split_ifs at h
    · simp only [Option.some.injEq] at h; rw [← h]; simp [exampleUser]
    · simp only [Option.some.injEq] at h; rw [← h]; simp [exampleUser]
  · intro u w h
    simp [exampleStore, emptyStore] at h

/-- C2: balance non-negativity is an invariant.  From any store in which every
`User.walletBalance` and every `Wallet.balance` is at least zero, after any
sequence of requests (join-with-wallet, verify-and-credit, the embedded-wallet
top-up and pay-game, and the roster routes as well) every balance is still at
least zero.  Nothing has to be assumed of the gateway amounts: the `min: 0`
validators refuse a negative credit. -/
theorem balances_nonneg_invariant (env : Env) (s : Store) (ops : List Op)
    (h : BalancesNonneg s) : BalancesNonneg (run env s ops) :=
  run_balancesNonneg env ops s h

/-- C2 on `exampleStore` and one request of each money-moving kind. -/
theorem balances_nonneg_invariant_witness :
    BalancesNonneg exampleStore ∧ BalancesNonneg (run exampleEnv exampleStore exampleOps) :=
  ⟨exampleStore_balancesNonneg,
    balances_nonneg_invariant exampleEnv exampleStore exampleOps exampleStore_balancesNonneg⟩

/-- C4: uniqueness of the external payment identifier is an invariant of the
ledger.  From a ledger in which no payment id occurs twice, after any sequence
of requests no payment id occurs twice (entries without a payment id are not
counted). -/
theorem paymentIds_unique_invariant (env : Env) (s : Store) (ops : List Op)
    (h : (paymentIds s.ledger).Nodup) : (paymentIds (run env s ops).ledger).Nodup :=
  run_paymentIds_nodup env ops s h

/-- C4 on `exampleStore`, whose ledger is empty. -/
theorem paymentIds_unique_invariant_witness :
    (paymentIds exampleStore.ledger).Nodup ∧
    (paymentIds (run exampleEnv exampleStore exampleOps).ledger).Nodup :=
  ⟨List.nodup_nil,
    paymentIds_unique_invariant exampleEnv exampleStore exampleOps List.nodup_nil⟩

/-- C10 as stated fails: after create, join-with-wallet, leave and
join-with-wallet again the ledger holds two DEBIT / GAME_JOIN entries of user 2
for game 7. -/
theorem rejoin_debits_twice :
    gameJoinDebits 2 7 (run exampleEnv emptyStore rejoinOps).ledger = 2 := by
  rw [rejoin_ledger]
  simp [gameJoinDebits, gameJoinEntry]

/-- C10, amended: from a store with an empty ledger, after any sequence of
requests without `leave` and `kick` the ledger holds at most one DEBIT /
GAME_JOIN entry per (user, game) pair. -/
theorem one_join_debit_without_leave (env : Env) (s : Store) (ops : List Op)
    (hl : s.ledger = []) (hops : ∀ op ∈ ops, op.removesPlayer = false)
    (u : UserId) (g : GameId) :
    gameJoinDebits u g (run env s ops).ledger ≤ 1 := by
  have h0 : DebitsMatchRoster s := by
    intro v g2
    left
    rw [hl]
    rfl
  rcases run_debitsMatchRoster env ops s hops h0 u g with h | ⟨h, _⟩
  · rw [h]; exact Nat.zero_le 1
  · rw [h]

/-- C10, amended, on the create and two join-with-wallet requests of `rejoinOps`. -/
theorem one_join_debit_without_leave_witness :
    emptyStore.ledger = [] ∧
    (∀ op ∈ [Op.createGame 1 exampleRequest 7, Op.joinWithWallet 2 7 10,
      Op.joinWithWallet 2 7 20], op.removesPlayer = false) ∧
    gameJoinDebits 2 7 (run exampleEnv emptyStore
      [Op.createGame 1 exampleRequest 7, Op.joinWithWallet 2 7 10,
        Op.joinWithWallet 2 7 20]).ledger ≤ 1 :=
  ⟨rfl, by simp [Op.removesPlayer],
    one_join_debit_without_leave exampleEnv emptyStore _ rfl (by simp [Op.removesPlayer]) 2 7⟩

/-! ## Claims on verify-and-credit -/

/-- `exampleEnv` has both credentials. -/
theorem exampleEnv_configured : exampleEnv.razorpayConfigured := by
  simp [Env.razorpayConfigured, exampleEnv]

/-- The stand-in digest of `order_1|pay_1` is `exampleSignature`. -/
theorem exampleSignature_valid :
    exampleEnv.hmacSha256Hex exampleEnv.keySecret ("order_1" ++ "|" ++ "pay_1") =
      exampleSignature := by
  decide

/-- With credentials, all three fields and the right signature, the three entry
checks of `verify-and-credit` pass. -/
theorem verifyAndCredit_entry (env : Env) (o p sig : String)
    (hc : env.razorpayConfigured) (ho : o ≠ "") (hp : p ≠ "") (hs : sig ≠ "")
    (hsig : env.hmacSha256Hex env.keySecret (o ++ "|" ++ p) = sig) :
    ¬ ¬ env.razorpayConfigured ∧ ¬ (o = "" ∨ p = "" ∨ sig = "") ∧
      ¬ (env.hmacSha256Hex env.keySecret (o ++ "|" ++ p) ≠ sig) := by
  refine ⟨not_not.mpr hc, ?_, not_not.mpr hsig⟩
  intro h
  rcases h with h | h | h
  · exact ho h
  · exact hp h
  · exact hs h

/-- A wrong signature, a missing field or missing credentials stop
`verify-and-credit` before any gateway call, with the store untouched. -/
theorem verifyAndCredit_rejected_early (env : Env) (gw : Gateway) (s : Store) (u : UserId)
    (o p sig : String) (now : Nat)
    (h : ¬ env.razorpayConfigured ∨ (o = "" ∨ p = "" ∨ sig = "") ∨
      env.hmacSha256Hex env.keySecret (o ++ "|" ++ p) ≠ sig) :
    (verifyAndCredit env gw s u o p sig now).1 = s ∧
    (verifyAndCredit env gw s u o p sig now).2.2 = [] := by
  unfold verifyAndCredit
  by_cases h1 : ¬ env.razorpayConfigured
  · rw [if_pos h1]; exact ⟨rfl, rfl⟩
  by_cases h2 : o = "" ∨ p = "" ∨ sig = ""
  · rw [if_neg h1, if_pos h2]; exact ⟨rfl, rfl⟩
  by_cases h3 : env.hmacSha256Hex env.keySecret (o ++ "|" ++ p) ≠ sig
  · rw [if_neg h1, if_neg h2, if_pos h3]; exact ⟨rfl, rfl⟩
  · rcases h with h | h | h
    · exact absurd h h1
    · exact absurd h h2
    · exact absurd h h3

/-- C6 as stated fails: with the signature field empty (hence different from
the digest) the answer is 400 Missing Razorpay payment details, not Invalid
payment signature. -/
theorem empty_signature_not_mismatch :
    exampleEnv.hmacSha256Hex exampleEnv.keySecret ("order_1" ++ "|" ++ "pay_1") ≠ "" ∧
    (verifyAndCredit exampleEnv exampleGateway exampleStore 2 "order_1" "pay_1" "" 0).2.1 =
      VerifyResponse.missingDetails := by
  constructor
  · decide
  · unfold verifyAndCredit
    rw [if_neg (not_not.mpr exampleEnv_configured), if_pos (Or.inr (Or.inr rfl))]

/-- C6, amended: whenever the supplied signature differs from the hex
HMAC-SHA256 of `orderId|paymentId` under the secret, `verify-and-credit` makes no
gateway call and leaves the store (every balance, the ledger) unchanged; when
moreover the credentials are configured and the three fields are non-empty, the
answer is 400 Invalid payment signature. -/
theorem signature_mismatch_rejected (env : Env) (gw : Gateway) (s : Store) (u : UserId)
    (o p sig : String) (now : Nat)
    (hsig : env.hmacSha256Hex env.keySecret (o ++ "|" ++ p) ≠ sig) :
    (verifyAndCredit env gw s u o p sig now).1 = s ∧
    (verifyAndCredit env gw s u o p sig now).2.2 = [] ∧
    (env.razorpayConfigured → o ≠ "" → p ≠ "" → sig ≠ "" →
      (verifyAndCredit env gw s u o p sig now).2.1 = VerifyResponse.invalidSignature) := by
  obtain ⟨h1, h2⟩ := verifyAndCredit_rejected_early env gw s u o p sig now (Or.inr (Or.inr hsig))
  refine ⟨h1, h2, ?_⟩
  intro hc ho hp hs
  unfold verifyAndCredit
  have hf : ¬ (o = "" ∨ p = "" ∨ sig = "") := by
    intro h
    rcases h with h | h | h
    · exact ho h
    · exact hp h
    · exact hs h
  rw [if_neg (not_not.mpr hc), if_neg hf, if_pos hsig]

/-- C6, amended, for a forged signature on `exampleStore`. -/
theorem signature_mismatch_rejected_witness :
    exampleEnv.hmacSha256Hex exampleEnv.keySecret ("order_1" ++ "|" ++ "pay_1") ≠ "forged" ∧
    (verifyAndCredit exampleEnv exampleGateway exampleStore 2 "order_1" "pay_1" "forged" 0).1 =
      exampleStore ∧
    (verifyAndCredit exampleEnv exampleGateway exampleStore 2 "order_1" "pay_1" "forged" 0).2.2 =
      [] ∧
    (exampleEnv.razorpayConfigured → "order_1" ≠ "" → "pay_1" ≠ "" → "forged" ≠ "" →
      (verifyAndCredit exampleEnv exampleGateway exampleStore 2 "order_1" "pay_1" "forged"
        0).2.1 = VerifyResponse.invalidSignature) :=
  ⟨by decide,
    signature_mismatch_rejected exampleEnv exampleGateway exampleStore 2 "order_1" "pay_1"
      "forged" 0 (by decide)⟩

/-- The gateway part on a payment that is not captured. -/
theorem gatewayAmount_not_captured (gw : Gateway) (o p : String) (payment : GatewayPayment)
    (hf : gw.paymentsFetch p = some payment) (hst : payment.status ≠ "captured") :
    gatewayAmount gw o p =
      (Except.error (VerifyResponse.paymentNotCaptured payment.status),
        [GatewayCall.paymentsFetch p]) := by
  unfold gatewayAmount
  rw [hf]
  simp only []
  rw [if_pos hst]

/-- The gateway part on a captured payment of another order. -/
theorem gatewayAmount_order_mismatch (gw : Gateway) (o p : String) (payment : GatewayPayment)
    (hf : gw.paymentsFetch p = some payment) (hst : payment.status = "captured")
    (ho : payment.order_id ≠ o) :
    gatewayAmount gw o p =
      (Except.error VerifyResponse.orderMismatch, [GatewayCall.paymentsFetch p]) := by
  unfold gatewayAmount
  rw [hf]
  simp only []
  rw [if_neg (not_not.mpr hst), if_pos ho]

/-- The gateway part when the payment fetch throws: the order decides. -/
theorem gatewayAmount_fetch_failed (gw : Gateway) (o p : String)
    (hf : gw.paymentsFetch p = none) :
    gatewayAmount gw o p = orderAmount gw o [GatewayCall.paymentsFetch p] := by
  unfold gatewayAmount
  rw [hf]

/-- When the gateway part settles an amount from a payment with a non-zero
amount, the payment is captured, belongs to the order, and the amount is the
payment amount over 100. -/
theorem gatewayAmount_ok_of_payment (gw : Gateway) (o p : String) (payment : GatewayPayment)
    (a : ℚ) (calls : List GatewayCall) (hf : gw.paymentsFetch p = some payment)
    (hne : payment.amount ≠ 0) (h : gatewayAmount gw o p = (Except.ok a, calls)) :
    a = fdiv payment.amount 100 ∧ calls = [GatewayCall.paymentsFetch p] ∧
      payment.status = "captured" ∧ payment.order_id = o := by
  unfold gatewayAmount at h
  rw [hf] at h
  simp only [] at h
  by_cases h1 : payment.status ≠ "captured"
  · rw [if_pos h1] at h; simp at h
  by_cases h2 : payment.order_id ≠ o
  · rw [if_neg h1, if_pos h2] at h; simp at h
  rw [if_neg h1, if_neg h2, if_pos hne] at h
  simp only [Prod.mk.injEq, Except.ok.injEq] at h
  exact ⟨h.1.symm, h.2.symm, not_not.mp h1, not_not.mp h2⟩

/-- C7: for a correctly signed call for which the gateway returns a payment,
`verify-and-credit` answers Payment not captured when the status of the payment
is not `captured`, and Order ID mismatch when the payment is captured and its
`order_id` differs from the supplied order id; in both cases the store (every
balance, the ledger) is unchanged and the payment fetch was the only gateway
call. -/
theorem uncaptured_or_mismatched_rejected (env : Env) (gw : Gateway) (s : Store)
    (u : UserId) (o p sig : String) (now : Nat) (payment : GatewayPayment)
    (hc : env.razorpayConfigured) (ho : o ≠ "") (hp : p ≠ "") (hs : sig ≠ "")
    (hsig : env.hmacSha256Hex env.keySecret (o ++ "|" ++ p) = sig)
    (hf : gw.paymentsFetch p = some payment) :
    (payment.status ≠ "captured" →
      verifyAndCredit env gw s u o p sig now =
        (s, VerifyResponse.paymentNotCaptured payment.status,
          [GatewayCall.paymentsFetch p])) ∧
    (payment.status = "captured" → payment.order_id ≠ o →
      verifyAndCredit env gw s u o p sig now =
        (s, VerifyResponse.orderMismatch, [GatewayCall.paymentsFetch p])) := by
  obtain ⟨e1, e2, e3⟩ := verifyAndCredit_entry env o p sig hc ho hp hs hsig
  constructor
  · intro hst
    unfold verifyAndCredit
    rw [if_neg e1, if_neg e2, if_neg e3, gatewayAmount_not_captured gw o p payment hf hst]
  · intro hst hom
    unfold verifyAndCredit
    rw [if_neg e1, if_neg e2, if_neg e3, gatewayAmount_order_mismatch gw o p payment hf hst hom]

/-- C7 on a failed payment: the call is correctly signed, the gateway returns
the payment, and the wallet of user 2 is left alone. -/
theorem uncaptured_or_mismatched_rejected_witness :
    exampleEnv.razorpayConfigured ∧ "order_1" ≠ "" ∧ "pay_1" ≠ "" ∧ exampleSignature ≠ "" ∧
    exampleEnv.hmacSha256Hex exampleEnv.keySecret ("order_1" ++ "|" ++ "pay_1") =
      exampleSignature ∧
    failedGateway.paymentsFetch "pay_1" =
      some { status := "failed", order_id := "order_1", amount := 5000 } ∧
    (("failed" : String) ≠ "captured" →
      verifyAndCredit exampleEnv failedGateway exampleStore 2 "order_1" "pay_1"
          exampleSignature 0 =
        (exampleStore, VerifyResponse.paymentNotCaptured "failed",
          [GatewayCall.paymentsFetch "pay_1"])) ∧
    (("failed" : String) = "captured" → ("order_1" : String) ≠ "order_1" →
      verifyAndCredit exampleEnv failedGateway exampleStore 2 "order_1" "pay_1"
          exampleSignature 0 =
        (exampleStore, VerifyResponse.orderMismatch, [GatewayCall.paymentsFetch "pay_1"])) :=
  ⟨exampleEnv_configured, by decide, by decide, by decide, exampleSignature_valid,
    by simp [failedGateway],
    uncaptured_or_mismatched_rejected exampleEnv failedGateway exampleStore 2 "order_1" "pay_1"
      exampleSignature 0 { status := "failed", order_id := "order_1", amount := 5000 }
      exampleEnv_configured (by decide) (by decide) (by decide) exampleSignature_valid
      (by simp [failedGateway])⟩

/-- When the entry checks pass, the gateway part settles an amount at or above
zero, no entry carries the payment id and the caller exists with a balance that
stays at or above zero, `verify-and-credit` commits `creditedStore`. -/
theorem verifyAndCredit_credits (env : Env) (gw : Gateway) (s : Store) (u : UserId)
    (o p sig : String) (now : Nat) (user : User) (a : ℚ) (calls : List GatewayCall)
    (hc : env.razorpayConfigured) (ho : o ≠ "") (hp : p ≠ "") (hs : sig ≠ "")
    (hsig : env.hmacSha256Hex env.keySecret (o ++ "|" ++ p) = sig)
    (hga : gatewayAmount gw o p = (Except.ok a, calls))
    (hnew : findByPaymentId s.ledger p = none) (hu : s.users u = some user)
    (ha : 0 ≤ a) (hb : 0 ≤ fadd user.walletBalance a) :
    verifyAndCredit env gw s u o p sig now =
      (creditedStore s u o p a now user,
        VerifyResponse.credited (fadd user.walletBalance a) a, calls) := by
  obtain ⟨e1, e2, e3⟩ := verifyAndCredit_entry env o p sig hc ho hp hs hsig
  unfold verifyAndCredit
  rw [if_neg e1, if_neg e2, if_neg e3, hga]
  simp only []
  rw [hnew, hu]
  simp [insertTransaction, addMoneyEntry, not_lt.mpr ha, hnew, User.valid, hb, creditedStore]

/-- Thirty paise in rupees: 0.3 as a Number. -/
theorem fdiv_thirty_paise : fdiv 30 100 = threeTenths := by
  unfold fdiv
  rw [fl_of (30 / 100) (-2) 5404319552844595 (by norm_num) (by norm_num) (by norm_num)
    (by apply roundHalfEven_of_near <;> norm_num)]
  unfold threeTenths
  norm_num

/-- The sum `0.30000000000000004 + 0.3` on Numbers is 0.6000000000000001: the
exact sum lies halfway between two binary64 values and goes to the even one. -/
theorem fadd_second_credit :
    fadd (1351079888211149 / 4503599627370496) threeTenths =
      1351079888211149 / 2251799813685248 := by
  unfold fadd threeTenths
  rw [fl_of _ (-1) 5404319552844596 (by norm_num) (by norm_num) (by norm_num)
    (by
      have h : (1351079888211149 / 4503599627370496 +
          5404319552844595 / 18014398509481984 : ℚ) /
          (2 : ℚ) ^ ((-1 : ℤ) - 52) = ((5404319552844595 : ℤ) : ℚ) + 1 / 2 := by norm_num
      rw [h, roundHalfEven_tie]
      norm_num)]
  norm_num

/-- The sum `0.1 + (0.2 + 0.3)` on Numbers is 0.6. -/
theorem fadd_credits_first :
    fsub (fadd tenth (fadd fifth threeTenths)) 0 = 5404319552844595 / 9007199254740992 := by
  have h1 : fadd fifth threeTenths = 1 / 2 := by
    unfold fadd fifth threeTenths
    have h : (3602879701896397 / 18014398509481984 +
        5404319552844595 / 18014398509481984 : ℚ) = 1 / 2 := by norm_num
    rw [h]
    exact fl_exact _ (-1) (2 ^ 52) (by norm_num) (by norm_num) (by norm_num) (by norm_num)
  have h2 : fadd tenth (1 / 2) = 5404319552844595 / 9007199254740992 := by
    unfold fadd tenth
    rw [fl_of _ (-1) 5404319552844595 (by norm_num) (by norm_num) (by norm_num)
      (by apply roundHalfEven_of_near <;> norm_num)]
    norm_num
  rw [h1, h2]
  unfold fsub
  rw [sub_zero]
  exact fl_exact _ (-1) 5404319552844595 (by norm_num) (by norm_num) (by norm_num)
    (by norm_num)

/-- C3 as stated fails: user 3 holds 0.1, the ledger is empty, and two captured
payments of 20 and of 30 paise are credited one after the other.  The ledger
gains the CREDIT entries 0.2 and 0.3 and the balance becomes
0.6000000000000001.  That is not the old balance plus the sum of the CREDIT
amounts, neither in exact arithmetic nor when that expression is evaluated on
Numbers (0.6). -/
theorem credit_sum_is_rounded :
    tenthStore.users 3 = some (exampleUser tenth) ∧ tenthStore.ledger = [] ∧
    fl (1 / 10) = tenth ∧
    ∃ user e1 e2,
      (run exampleEnv tenthStore twoCredits).users 3 = some user ∧
      (run exampleEnv tenthStore twoCredits).ledger = [e1, e2] ∧
      e1.user = 3 ∧ e1.type = TxType.CREDIT ∧ e1.amount = fifth ∧
      e2.user = 3 ∧ e2.type = TxType.CREDIT ∧ e2.amount = threeTenths ∧
      user.walletBalance = 1351079888211149 / 2251799813685248 ∧
      user.walletBalance ≠
        tenth + ledgerTotal TxType.CREDIT 3 (run exampleEnv tenthStore twoCredits).ledger -
          ledgerTotal TxType.DEBIT 3 (run exampleEnv tenthStore twoCredits).ledger ∧
      user.walletBalance ≠ fsub (fadd tenth (fadd fifth threeTenths)) 0 := by
  have hu : tenthStore.users 3 = some (exampleUser tenth) := by simp [tenthStore]
  have hga : gatewayAmount smallGateway "order_1" "pay_1" =
      (Except.ok fifth, [GatewayCall.paymentsFetch "pay_1"]) := by
    simp [gatewayAmount, smallGateway, fdiv_twenty_paise]
  have hgb : gatewayAmount smallGateway "order_2" "pay_2" =
      (Except.ok threeTenths, [GatewayCall.paymentsFetch "pay_2"]) := by
    simp [gatewayAmount, smallGateway, fdiv_thirty_paise]
  have hsum : fadd (exampleUser tenth).walletBalance fifth =
      1351079888211149 / 4503599627370496 := fadd_tenth_fifth
  have h1 := verifyAndCredit_credits exampleEnv smallGateway tenthStore 3 "order_1"
    "pay_1" exampleSignature 1 (exampleUser tenth) fifth _ exampleEnv_configured (by decide)
    (by decide) (by decide) exampleSignature_valid hga rfl hu
    (by unfold fifth; norm_num) (by rw [hsum]; norm_num)
  have hu1 : (creditedStore tenthStore 3 "order_1" "pay_1" fifth 1 (exampleUser tenth)).users 3 =
      some { exampleUser tenth with walletBalance := 1351079888211149 / 4503599627370496 } := by
    simp [creditedStore, hsum]
  have hl1 : (creditedStore tenthStore 3 "order_1" "pay_1" fifth 1 (exampleUser tenth)).ledger =
      [addMoneyEntry 3 "order_1" "pay_1" fifth 1] := by
    simp [creditedStore, tenthStore, exampleStore, emptyStore]
  have h2 := verifyAndCredit_credits exampleEnv smallGateway
    (creditedStore tenthStore 3 "order_1" "pay_1" fifth 1 (exampleUser tenth)) 3 "order_2"
    "pay_2" "secret#order_2|pay_2" 2
    { exampleUser tenth with walletBalance := 1351079888211149 / 4503599627370496 }
    threeTenths _ exampleEnv_configured (by decide)
    (by decide) (by decide) (by decide) hgb
    (by rw [hl1]; simp [findByPaymentId, addMoneyEntry]) hu1
    (by unfold threeTenths; norm_num)
    (by simp only []; rw [fadd_second_credit]; norm_num)
  have hrun : run exampleEnv tenthStore twoCredits =
      creditedStore
        (creditedStore tenthStore 3 "order_1" "pay_1" fifth 1 (exampleUser tenth)) 3
        "order_2" "pay_2" threeTenths 2
        { exampleUser tenth with walletBalance := 1351079888211149 / 4503599627370496 } := by
    simp only [run, twoCredits, List.foldl, step]
    rw [h1]
    simp only []
    rw [h2]
  have hl2 : (run exampleEnv tenthStore twoCredits).ledger =
      [addMoneyEntry 3 "order_1" "pay_1" fifth 1,
        addMoneyEntry 3 "order_2" "pay_2" threeTenths 2] := by
    rw [hrun]
    simp only [creditedStore] at hl1 ⊢
    rw [hl1]
    rfl
  refine ⟨hu, rfl, fl_tenth,
    { exampleUser tenth with walletBalance := 1351079888211149 / 2251799813685248 },
    addMoneyEntry 3 "order_1" "pay_1" fifth 1,
    addMoneyEntry 3 "order_2" "pay_2" threeTenths 2, ?_, hl2, rfl, rfl, rfl, rfl, rfl, rfl,
    rfl, ?_, ?_⟩
  · rw [hrun]
    simp [creditedStore, fadd_second_credit]
  · rw [hl2]
    simp [ledgerTotal, addMoneyEntry, tenth, fifth, threeTenths]
    norm_num
  · rw [fadd_credits_first]
    norm_num

/-- C3, amended: balance and ledger move together, with the arithmetic of
Numbers.  One request either changes neither users nor ledger, or appends
exactly one entry and moves exactly the balance of the user of that entry, to the
binary64 sum of the old balance and the signed amount of the entry; so no
request changes a balance without appending the matching entry.  For a user with
balance `b0` in a store with an empty ledger, after any sequence of requests
(successful or failed) the balance is what results from `b0` when the CREDIT
amounts of the user are added and the DEBIT amounts subtracted one after the
other in ledger order, each result rounded to binary64. -/
theorem balance_ledger_together (env : Env) (s : Store) (u : UserId) (user0 : User)
    (ops : List Op) (hu : s.users u = some user0) (hl : s.ledger = []) :
    (∃ user, (run env s ops).users u = some user ∧
      user.walletBalance = ledgerBalance user0.walletBalance u (run env s ops).ledger) ∧
    (∀ (t : Store) (op : Op),
      ((step env t op).users = t.users ∧ (step env t op).ledger = t.ledger) ∨
      ∃ e user, t.users e.user = some user ∧
        (step env t op).ledger = t.ledger ++ [e] ∧
        (step env t op).users = Function.update t.users e.user
          (some { user with
            walletBalance := fl (user.walletBalance + signedAmount e) })) := by
  refine ⟨?_, fun t op => step_moves_together env t op⟩
  exact run_ledgerBalance env ops user0.walletBalance u s user0 hu (by rw [hl]; rfl)

/-- C3, amended, for user 2 of `exampleStore` (balance 100, empty ledger). -/
theorem balance_ledger_together_witness :
    exampleStore.users 2 = some (exampleUser 100) ∧ exampleStore.ledger = [] ∧
    (∃ user, (run exampleEnv exampleStore exampleOps).users 2 = some user ∧
      user.walletBalance =
        ledgerBalance (exampleUser 100).walletBalance 2
          (run exampleEnv exampleStore exampleOps).ledger) :=
  ⟨by simp [exampleStore, emptyStore], rfl,
    (balance_ledger_together exampleEnv exampleStore 2 (exampleUser 100) exampleOps
      (by simp [exampleStore, emptyStore]) rfl).1⟩

/-- When the entry checks pass and the gateway part fails, `verify-and-credit`
answers with that failure and leaves the store alone. -/
theorem verifyAndCredit_gateway_error (env : Env) (gw : Gateway) (s : Store) (u : UserId)
    (o p sig : String) (now : Nat) (r : VerifyResponse) (calls : List GatewayCall)
    (hc : env.razorpayConfigured) (ho : o ≠ "") (hp : p ≠ "") (hs : sig ≠ "")
    (hsig : env.hmacSha256Hex env.keySecret (o ++ "|" ++ p) = sig)
    (hga : gatewayAmount gw o p = (Except.error r, calls)) :
    verifyAndCredit env gw s u o p sig now = (s, r, calls) := by
  obtain ⟨e1, e2, e3⟩ := verifyAndCredit_entry env o p sig hc ho hp hs hsig
  unfold verifyAndCredit
  rw [if_neg e1, if_neg e2, if_neg e3, hga]

/-- C8 as stated fails: the payment fetch throws, the order fetch answers 5000
paise, and user 2 is credited 50 without any confirmation that the payment was
captured. -/
theorem credited_without_payment_fetch :
    orderOnlyGateway.paymentsFetch "pay_1" = none ∧
    (verifyAndCredit exampleEnv orderOnlyGateway exampleStore 2 "order_1" "pay_1"
        exampleSignature 0).2.1 = VerifyResponse.credited 150 50 ∧
    ((verifyAndCredit exampleEnv orderOnlyGateway exampleStore 2 "order_1" "pay_1"
        exampleSignature 0).1.users 2).map (fun x => x.walletBalance) = some 150 := by
  have hga : gatewayAmount orderOnlyGateway "order_1" "pay_1" =
      (Except.ok 50, [GatewayCall.paymentsFetch "pay_1", GatewayCall.ordersFetch "order_1"]) := by
    simp [gatewayAmount, orderAmount, orderOnlyGateway, exampleGateway]
    exact fdiv_paise
  have h := verifyAndCredit_credits exampleEnv orderOnlyGateway exampleStore 2 "order_1"
    "pay_1" exampleSignature 0 (exampleUser 100) 50 _ exampleEnv_configured (by decide)
    (by decide) (by decide) exampleSignature_valid hga rfl
    (by simp [exampleStore, emptyStore]) (by norm_num)
    (by simp [exampleUser, fadd_hundred_fifty])
  refine ⟨rfl, ?_, ?_⟩
  · rw [h]; simp [exampleUser, fadd_hundred_fifty]
  · rw [h]; simp [creditedStore, exampleUser, fadd_hundred_fifty]

/-- C8, amended: when the payment fetch fails during a correctly signed
`verify-and-credit`, the handler turns to the order.  If the order fetch fails as
well it answers Could not verify payment amount and the store (every balance,
the ledger) is unchanged.  If the order fetch answers, the amount is the order
amount over 100 (`order.amount / 100` on Numbers): a first-time call of an
existing user is credited with it. -/
theorem payment_fetch_failure_falls_back (env : Env) (gw : Gateway) (s : Store)
    (u : UserId) (o p sig : String) (now : Nat)
    (hc : env.razorpayConfigured) (ho : o ≠ "") (hp : p ≠ "") (hs : sig ≠ "")
    (hsig : env.hmacSha256Hex env.keySecret (o ++ "|" ++ p) = sig)
    (hf : gw.paymentsFetch p = none) :
    (gw.ordersFetch o = none →
      verifyAndCredit env gw s u o p sig now =
        (s, VerifyResponse.couldNotVerifyAmount,
          [GatewayCall.paymentsFetch p, GatewayCall.ordersFetch o])) ∧
    (∀ order user, gw.ordersFetch o = some order → findByPaymentId s.ledger p = none →
      s.users u = some user → 0 ≤ order.amount → 0 ≤ user.walletBalance →
      verifyAndCredit env gw s u o p sig now =
        (creditedStore s u o p (fdiv order.amount 100) now user,
          VerifyResponse.credited (fadd user.walletBalance (fdiv order.amount 100))
            (fdiv order.amount 100),
          [GatewayCall.paymentsFetch p, GatewayCall.ordersFetch o])) := by
  constructor
  · intro hord
    apply verifyAndCredit_gateway_error env gw s u o p sig now _ _ hc ho hp hs hsig
    rw [gatewayAmount_fetch_failed gw o p hf]
    unfold orderAmount
    rw [hord]
    rfl
  · intro order user hord hnew hu ha hb
    have ha1 : 0 ≤ fdiv order.amount 100 := fl_nonneg _ (div_nonneg ha (by norm_num))
    apply verifyAndCredit_credits env gw s u o p sig now user _ _ hc ho hp hs hsig _ hnew hu
      ha1 (fl_nonneg _ (add_nonneg hb ha1))
    rw [gatewayAmount_fetch_failed gw o p hf]
    unfold orderAmount
    rw [hord]
    rfl

/-- C8, amended, on a gateway that answers nothing: no credit. -/
theorem payment_fetch_failure_falls_back_witness :
    exampleEnv.razorpayConfigured ∧ "order_1" ≠ "" ∧ "pay_1" ≠ "" ∧ exampleSignature ≠ "" ∧
    exampleEnv.hmacSha256Hex exampleEnv.keySecret ("order_1" ++ "|" ++ "pay_1") =
      exampleSignature ∧
    downGateway.paymentsFetch "pay_1" = none ∧
    (downGateway.ordersFetch "order_1" = none →
      verifyAndCredit exampleEnv downGateway exampleStore 2 "order_1" "pay_1"
          exampleSignature 0 =
        (exampleStore, VerifyResponse.couldNotVerifyAmount,
          [GatewayCall.paymentsFetch "pay_1", GatewayCall.ordersFetch "order_1"])) :=
  ⟨exampleEnv_configured, by decide, by decide, by decide, exampleSignature_valid, rfl,
    (payment_fetch_failure_falls_back exampleEnv downGateway exampleStore 2 "order_1" "pay_1"
      exampleSignature 0 exampleEnv_configured (by decide) (by decide) (by decide)
      exampleSignature_valid rfl).1⟩

/-- C9: on a successful first-time `verify-and-credit` for which the gateway
reports a payment of `a > 0` minor units, the amount credited is `a / 100`: the
balance of the caller grows by `a / 100` (and is the balance reported), exactly
one entry (CREDIT, ADD_MONEY, amount `a / 100`, the supplied payment and order
ids) is appended to the ledger, the payment is captured and belongs to the
order, and no entry carried the payment id before.  The amount is read from the
gateway payment alone.  The quotient and the sum are those of the handler, on
Numbers (`fdiv`, `fadd`). -/
theorem first_credit_is_gateway_amount (env : Env) (gw : Gateway) (s : Store) (u : UserId)
    (o p sig : String) (now : Nat) (payment : GatewayPayment) (bal amt : ℚ)
    (hf : gw.paymentsFetch p = some payment) (hpos : 0 < payment.amount)
    (hr : (verifyAndCredit env gw s u o p sig now).2.1 = VerifyResponse.credited bal amt) :
    amt = fdiv payment.amount 100 ∧
    ∃ user, s.users u = some user ∧ bal = fadd user.walletBalance (fdiv payment.amount 100) ∧
      ((verifyAndCredit env gw s u o p sig now).1.users u).map (fun x => x.walletBalance) =
        some (fadd user.walletBalance (fdiv payment.amount 100)) ∧
      (∃ e, (verifyAndCredit env gw s u o p sig now).1.ledger = s.ledger ++ [e] ∧
        e.user = u ∧ e.type = TxType.CREDIT ∧ e.reason = TxReason.ADD_MONEY ∧
        e.amount = fdiv payment.amount 100 ∧ e.razorpayPaymentId = some p ∧
        e.razorpayOrderId = some o) ∧
      payment.status = "captured" ∧ payment.order_id = o ∧
      findByPaymentId s.ledger p = none := by
  rcases verifyAndCredit_cases env gw s u o p sig now with
    ⟨_, hne⟩ | ⟨user, a, calls, hu, hnew, hga, _, _, heq⟩
  · exact absurd hr (hne bal amt)
  · obtain ⟨ha, _, hst, hord⟩ :=
      gatewayAmount_ok_of_payment gw o p payment a calls hf (ne_of_gt hpos) hga
    rw [heq] at hr ⊢
    simp only [VerifyResponse.credited.injEq] at hr
    obtain ⟨hb, hamt⟩ := hr
    subst ha
    refine ⟨hamt.symm, user, hu, hb.symm, ?_, ?_, hst, hord, hnew⟩
    · simp [creditedStore]
    · exact ⟨addMoneyEntry u o p (fdiv payment.amount 100) now, rfl, rfl, rfl, rfl, rfl, rfl, rfl⟩

/-- On `exampleStore` the captured payment of 5000 paise credits user 2 with 50. -/
theorem example_credit_response :
    (verifyAndCredit exampleEnv exampleGateway exampleStore 2 "order_1" "pay_1"
        exampleSignature 1).2.1 = VerifyResponse.credited 150 50 := by
  have hga : gatewayAmount exampleGateway "order_1" "pay_1" =
      (Except.ok 50, [GatewayCall.paymentsFetch "pay_1"]) := by
    simp [gatewayAmount, exampleGateway]
    exact fdiv_paise
  rw [verifyAndCredit_credits exampleEnv exampleGateway exampleStore 2 "order_1"
    "pay_1" exampleSignature 1 (exampleUser 100) 50 _ exampleEnv_configured (by decide)
    (by decide) (by decide) exampleSignature_valid hga rfl
    (by simp [exampleStore, emptyStore]) (by norm_num)
    (by simp [exampleUser, fadd_hundred_fifty])]
  simp [exampleUser, fadd_hundred_fifty]

/-- C9 on `exampleStore`: a captured payment of 5000 paise credits 50. -/
theorem first_credit_is_gateway_amount_witness :
    exampleGateway.paymentsFetch "pay_1" =
      some { status := "captured", order_id := "order_1", amount := 5000 } ∧
    (0 : ℚ) < 5000 ∧
    (verifyAndCredit exampleEnv exampleGateway exampleStore 2 "order_1" "pay_1"
        exampleSignature 1).2.1 = VerifyResponse.credited 150 50 ∧
    (50 : ℚ) = fdiv 5000 100 :=
  ⟨by simp [exampleGateway], by norm_num, example_credit_response,
    (first_credit_is_gateway_amount exampleEnv exampleGateway exampleStore 2 "order_1" "pay_1"
      exampleSignature 1 { status := "captured", order_id := "order_1", amount := 5000 }
      150 50 (by simp [exampleGateway]) (by norm_num) example_credit_response).1⟩

/-- A replay by an existing caller: when an entry already carries the payment
id and the entry checks and the gateway part pass, the store is unchanged, no
further entry is written and the answer is Payment already processed with the
amount of the first entry that carries the id. -/
theorem verifyAndCredit_replay (env : Env) (gw : Gateway) (s : Store) (u : UserId)
    (o p sig : String) (now : Nat) (user : User) (a : ℚ) (calls : List GatewayCall)
    (e : WalletTransaction)
    (hc : env.razorpayConfigured) (ho : o ≠ "") (hp : p ≠ "") (hs : sig ≠ "")
    (hsig : env.hmacSha256Hex env.keySecret (o ++ "|" ++ p) = sig)
    (hga : gatewayAmount gw o p = (Except.ok a, calls))
    (hold : findByPaymentId s.ledger p = some e) (hu : s.users u = some user) :
    verifyAndCredit env gw s u o p sig now =
      (s, VerifyResponse.alreadyProcessed user.walletBalance e.amount, calls) := by
  obtain ⟨e1, e2, e3⟩ := verifyAndCredit_entry env o p sig hc ho hp hs hsig
  unfold verifyAndCredit
  rw [if_neg e1, if_neg e2, if_neg e3, hga]
  simp only []
  rw [hold, hu]

/-- C5 fails for a caller without a user document: the ledger of `replayStore`
carries `pay_1`, the call of caller 9 passes the signature and gateway checks,
and the handler reads `walletBalance` of a missing user instead of answering
with the amount already credited. -/
theorem replay_unknown_caller :
    findByPaymentId replayStore.ledger "pay_1" = some (addMoneyEntry 2 "order_1" "pay_1" 50 1) ∧
    replayStore.users 9 = none ∧
    (verifyAndCredit exampleEnv exampleGateway replayStore 9 "order_1" "pay_1"
        exampleSignature 5).2.1 = VerifyResponse.serverError := by
  have hga : gatewayAmount exampleGateway "order_1" "pay_1" =
      (Except.ok 50, [GatewayCall.paymentsFetch "pay_1"]) := by
    simp [gatewayAmount, exampleGateway]
    exact fdiv_paise
  have hfind : findByPaymentId replayStore.ledger "pay_1" =
      some (addMoneyEntry 2 "order_1" "pay_1" 50 1) := by
    simp [findByPaymentId, replayStore, addMoneyEntry]
  have hnone : replayStore.users 9 = none := by
    simp [replayStore, exampleStore, emptyStore]
  refine ⟨hfind, hnone, ?_⟩
  obtain ⟨e1, e2, e3⟩ := verifyAndCredit_entry exampleEnv "order_1" "pay_1" exampleSignature
    exampleEnv_configured (by decide) (by decide) (by decide) exampleSignature_valid
  unfold verifyAndCredit
  rw [if_neg e1, if_neg e2, if_neg e3, hga]
  simp only []
  rw [hfind, hnone]

/-! ## Claims on join-with-wallet failures -/

/-- Every guard of `join-with-wallet` in order: a failing guard answers with its
failure and the store it started from. -/
theorem joinWithWallet_failures (s : Store) (u : UserId) (g : GameId) (now : Nat) :
    (s.games g = none → joinWithWallet s u g now = (s, JoinWalletResponse.gameNotFound)) ∧
    (∀ game, s.games g = some game →
      ((game.isOpen = false ∨ game.availableSpots ≤ 0) →
        joinWithWallet s u g now = (s, JoinWalletResponse.noSpots)) ∧
      (¬ (game.isOpen = false ∨ game.availableSpots ≤ 0) →
        (u ∈ game.players →
          joinWithWallet s u g now = (s, JoinWalletResponse.alreadyJoined)) ∧
        (u ∉ game.players →
          (game.turfPrice ≤ 0 →
            joinWithWallet s u g now = (s, JoinWalletResponse.priceNotSet)) ∧
          (0 < game.turfPrice →
            (perPlayerPrice game ≤ 0 →
              joinWithWallet s u g now = (s, JoinWalletResponse.invalidPrice)) ∧
            (0 < perPlayerPrice game →
              (s.users u = none →
                joinWithWallet s u g now = (s, JoinWalletResponse.userNotFound)) ∧
              (∀ user, s.users u = some user →
                user.walletBalance < perPlayerPrice game →
                joinWithWallet s u g now =
                  (s, JoinWalletResponse.insufficientBalance
                    (perPlayerPrice game) user.walletBalance
                    (toFixed2 (fsub (perPlayerPrice game)
                      user.walletBalance))))))))) := by
  constructor
  · intro hg
    unfold joinWithWallet
    rw [hg]
  · intro game hg
    constructor
    · intro h1
      unfold joinWithWallet
      rw [hg]
      simp only []
      rw [if_pos h1]
    · intro h1
      constructor
      · intro h2
        unfold joinWithWallet
        rw [hg]
        simp only []
        rw [if_neg h1, if_pos h2]
      · intro h2
        constructor
        · intro h3
          have h3' : ¬ (game.turfPrice ≠ 0 ∧ game.turfPrice > 0) :=
            fun h => absurd h.2 (not_lt.mpr h3)
          unfold joinWithWallet
          rw [hg]
          simp only []
          rw [if_neg h1, if_neg h2, if_pos h3']
        · intro h3
          have h3' : ¬ ¬ (game.turfPrice ≠ 0 ∧ game.turfPrice > 0) :=
            not_not.mpr ⟨ne_of_gt h3, h3⟩
          constructor
          · intro h4
            unfold joinWithWallet
            rw [hg]
            simp only []
            rw [if_neg h1, if_neg h2, if_neg h3', if_pos h4]
          · intro h4
            constructor
            · intro hu
              unfold joinWithWallet
              rw [hg]
              simp only []
              rw [if_neg h1, if_neg h2, if_neg h3', if_neg (not_le.mpr h4), hu]
            · intro user hu h5
              unfold joinWithWallet
              rw [hg]
              simp only []
              rw [if_neg h1, if_neg h2, if_neg h3', if_neg (not_le.mpr h4), hu]
              simp only []
              rw [if_pos h5]

/-- C11 as stated fails in the reported shortfall: for a balance of 0.0009765625
and a price of 25 the handler reports a shortfall of 25.00, not 24.9990234375. -/
theorem shortfall_is_rounded :
    (joinWithWallet thinStore 3 7 0).2 =
      JoinWalletResponse.insufficientBalance 25 (1 / 1024) 25 ∧
    (25 : ℚ) ≠ 25 - 1 / 1024 := by
  have h25 : perPlayerPrice exampleGame = 25 := perPlayerPrice_example
  have hsub : fsub 25 (1 / 1024) = 25 - 1 / 1024 := by
    unfold fsub
    exact fl_exact _ 4 (25599 * 2 ^ 38) (by norm_num) (by norm_num) (by norm_num)
      (by norm_num)
  have hsf : toFixed2 (fsub 25 (1 / 1024)) = 25 := by
    rw [hsub, toFixed2_of_bounds (25 - 1 / 1024) 2500 (by norm_num) (by norm_num)
      (by norm_num)]
    norm_num
  have hclosed : ¬ (exampleGame.isOpen = false ∨ exampleGame.availableSpots ≤ 0) := by
    simp [exampleGame]
  have hmem : (3 : UserId) ∉ exampleGame.players := by simp [exampleGame]
  have hprice : 0 < exampleGame.turfPrice := by simp [exampleGame]
  have h := ((((((joinWithWallet_failures thinStore 3 7 0).2 exampleGame
    (by simp [thinStore, exampleStore])).2 hclosed).2 hmem).2 hprice).2
      (by rw [h25]; norm_num)).2 (exampleUser (1 / 1024)) (by simp [thinStore])
      (by rw [h25]; simp [exampleUser]; norm_num)
  constructor
  · rw [h, h25]
    simp only [exampleUser, hsf]
  · norm_num

/-- C11, amended: `join-with-wallet` checks in this order and fails, with the
store (balance, ledger, game) unchanged, when the game does not exist
(GameNotFound); the game is not open or `availableSpots <= 0` (GameClosed); the
user is already in `players` (AlreadyJoined); `turfPrice` is unset (0) or `<= 0`
(PriceNotSet); `turfPrice / teamSize` rounded to 2 decimals is `<= 0`
(InvalidPrice); the user does not exist; `walletBalance < perPlayerPrice`
(InsufficientBalance, reporting required, currentBalance and the shortfall
`(required - currentBalance).toFixed(2)`: the difference on Numbers, printed
with 2 decimals).  In every other case it succeeds and commits `joinedStore`.
Here `perPlayerPrice` is `Number((turfPrice / teamSize).toFixed(2))`, and the
comparisons are those the handler makes on these Numbers. -/
theorem joinWithWallet_outcome (s : Store) (u : UserId) (g : GameId) (now : Nat) :
    (s.games g = none → joinWithWallet s u g now = (s, JoinWalletResponse.gameNotFound)) ∧
    (∀ game, s.games g = some game →
      ((game.isOpen = false ∨ game.availableSpots ≤ 0) →
        joinWithWallet s u g now = (s, JoinWalletResponse.noSpots)) ∧
      (¬ (game.isOpen = false ∨ game.availableSpots ≤ 0) → u ∈ game.players →
        joinWithWallet s u g now = (s, JoinWalletResponse.alreadyJoined)) ∧
      (¬ (game.isOpen = false ∨ game.availableSpots ≤ 0) → u ∉ game.players →
        game.turfPrice ≤ 0 →
        joinWithWallet s u g now = (s, JoinWalletResponse.priceNotSet)) ∧
      (¬ (game.isOpen = false ∨ game.availableSpots ≤ 0) → u ∉ game.players →
        0 < game.turfPrice → perPlayerPrice game ≤ 0 →
        joinWithWallet s u g now = (s, JoinWalletResponse.invalidPrice)) ∧
      (¬ (game.isOpen = false ∨ game.availableSpots ≤ 0) → u ∉ game.players →
        0 < game.turfPrice → 0 < perPlayerPrice game →
        s.users u = none →
        joinWithWallet s u g now = (s, JoinWalletResponse.userNotFound)) ∧
      (∀ user, ¬ (game.isOpen = false ∨ game.availableSpots ≤ 0) → u ∉ game.players →
        0 < game.turfPrice → 0 < perPlayerPrice game →
        s.users u = some user →
        (user.walletBalance < perPlayerPrice game →
          joinWithWallet s u g now =
            (s, JoinWalletResponse.insufficientBalance
              (perPlayerPrice game) user.walletBalance
              (toFixed2 (fsub (perPlayerPrice game) user.walletBalance))) ∧
          (∃ m : ℤ, toFixed2 (fsub (perPlayerPrice game) user.walletBalance) =
              (m : ℚ) / 100 ∧
            |(m : ℚ) / 100 - fsub (perPlayerPrice game) user.walletBalance| ≤ 1 / 200)) ∧
        (perPlayerPrice game ≤ user.walletBalance →
          joinWithWallet s u g now =
            (joinedStore s u g now game user,
              JoinWalletResponse.joined
                (fsub user.walletBalance (perPlayerPrice game))
                (perPlayerPrice game)
                (game.players.length + 1)
                (game.teamSize - ((game.players.length + 1 : ℕ) : ℚ)))))) := by
  have hf := joinWithWallet_failures s u g now
  refine ⟨hf.1, ?_⟩
  intro game hg
  have hgame := hf.2 game hg
  refine ⟨hgame.1, ?_, ?_, ?_, ?_, ?_⟩
  · intro h1 h2
    exact (hgame.2 h1).1 h2
  · intro h1 h2 h3
    exact (((hgame.2 h1).2 h2).1) h3
  · intro h1 h2 h3 h4
    exact ((((hgame.2 h1).2 h2).2 h3).1) h4
  · intro h1 h2 h3 h4 hu
    exact (((((hgame.2 h1).2 h2).2 h3).2 h4).1) hu
  · intro user h1 h2 h3 h4 hu
    constructor
    · intro h5
      refine ⟨(((((hgame.2 h1).2 h2).2 h3).2 h4).2) user hu h5, ?_⟩
      obtain ⟨m, hm⟩ := toFixed2_is_hundredths (fsub (perPlayerPrice game) user.walletBalance)
      refine ⟨m, hm, ?_⟩
      rw [← hm]
      exact toFixed2_error _
    · intro h5
      have ho : game.isOpen = true := by
        cases hopen : game.isOpen
        · exact absurd (Or.inl hopen) h1
        · rfl
      have hs : 0 < game.availableSpots := lt_of_not_le (fun h => h1 (Or.inr h))
      exact joinWithWallet_of_guards s u g now game user hg hu ho hs h2 h3 h4 h5

/-- C11, amended, on `exampleStore`: every guard passes for user 2 and game 7
and the join succeeds. -/
theorem joinWithWallet_outcome_witness :
    exampleStore.games 7 = some exampleGame ∧
    ¬ (exampleGame.isOpen = false ∨ exampleGame.availableSpots ≤ 0) ∧
    (2 : UserId) ∉ exampleGame.players ∧ 0 < exampleGame.turfPrice ∧
    0 < perPlayerPrice exampleGame ∧
    exampleStore.users 2 = some (exampleUser 100) ∧
    perPlayerPrice exampleGame ≤ (exampleUser 100).walletBalance ∧
    joinWithWallet exampleStore 2 7 0 =
      (joinedStore exampleStore 2 7 0 exampleGame (exampleUser 100),
        JoinWalletResponse.joined
          (fsub (exampleUser 100).walletBalance (perPlayerPrice exampleGame))
          (perPlayerPrice exampleGame)
          (exampleGame.players.length + 1)
          (exampleGame.teamSize - ((exampleGame.players.length + 1 : ℕ) : ℚ))) := by
  have h25 : perPlayerPrice exampleGame = 25 := perPlayerPrice_example
  have hg : exampleStore.games 7 = some exampleGame := by simp [exampleStore]
  have h1 : ¬ (exampleGame.isOpen = false ∨ exampleGame.availableSpots ≤ 0) := by
    simp [exampleGame]
  have h2 : (2 : UserId) ∉ exampleGame.players := by simp [exampleGame]
  have h3 : 0 < exampleGame.turfPrice := by simp [exampleGame]
  have h4 : 0 < perPlayerPrice exampleGame := by
    rw [h25]; norm_num
  have hu : exampleStore.users 2 = some (exampleUser 100) := by
    simp [exampleStore, emptyStore]
  have h5 : perPlayerPrice exampleGame ≤
      (exampleUser 100).walletBalance := by
    rw [h25]; simp [exampleUser]; norm_num
  exact ⟨hg, h1, h2, h3, h4, hu, h5,
    ((((joinWithWallet_outcome exampleStore 2 7 0).2 exampleGame hg).2.2.2.2.2
      (exampleUser 100) h1 h2 h3 h4 hu).2) h5⟩

/-! ## Claims on the derived fields of a game -/

/-- The `pre('save')` hook leaves the derived fields in agreement with roster
and status. -/
theorem preSave_derived (g : Game) : (Game.preSave g).derived := by
  simp [Game.derived, Game.preSave]

/-- A document that a write of `x` under `gid` changed is `x`. -/
theorem update_changed (games : GameId → Option Game) (gid g : GameId) (x y : Game)
    (h : Function.update games gid (some x) g = some y)
    (hne : Function.update games gid (some x) g ≠ games g) : y = x := by
  by_cases hg : g = gid
  · subst hg
    simp only [Function.update_same, Option.some.injEq] at h
    exact h.symm
  · rw [Function.update_noteq hg] at hne
    exact absurd rfl hne

/-- Every game document that `create`, `join`, `auto-join`, `add-player`, `kick`,
`leave` or `join-with-wallet` writes has its derived fields in agreement with
roster and status. -/
theorem roster_routes_derived (env : Env) (s : Store) (u : UserId) (g : GameId) (y : Game) :
    (∀ req newId, (createGame env s u req newId).1.games g = some y →
      (createGame env s u req newId).1.games g ≠ s.games g → y.derived) ∧
    (∀ gid, (joinGame s u gid).1.games g = some y →
      (joinGame s u gid).1.games g ≠ s.games g → y.derived) ∧
    (∀ filters found, (autoJoin s u filters found).1.games g = some y →
      (autoJoin s u filters found).1.games g ≠ s.games g → y.derived) ∧
    (∀ gid target, (addPlayer env s u gid target).1.games g = some y →
      (addPlayer env s u gid target).1.games g ≠ s.games g → y.derived) ∧
    (∀ gid q, (kickPlayer s u gid q).1.games g = some y →
      (kickPlayer s u gid q).1.games g ≠ s.games g → y.derived) ∧
    (∀ gid, (leaveGame s u gid).1.games g = some y →
      (leaveGame s u gid).1.games g ≠ s.games g → y.derived) ∧
    (∀ gid now, (joinWithWallet s u gid now).1.games g = some y →
      (joinWithWallet s u gid now).1.games g ≠ s.games g → y.derived) := by
  refine ⟨?_, ?_, ?_, ?_, ?_, ?_, ?_⟩
  · intro req newId
    unfold createGame
    split
    · intro _ hne; exact absurd rfl hne
    · split
      · intro _ hne; exact absurd rfl hne
      · split
        · intro _ hne; exact absurd rfl hne
        · intro h hne
          rw [update_changed _ _ _ _ _ h hne]
          exact preSave_derived _
  · intro gid
    unfold joinGame
    split
    · intro _ hne; exact absurd rfl hne
    · split
      · intro _ hne; exact absurd rfl hne
      · split
        · intro _ hne; exact absurd rfl hne
        · intro h hne
          rw [update_changed _ _ _ _ _ h hne]
          exact preSave_derived _
  · intro filters found
    unfold autoJoin
    split
    · intro _ hne; exact absurd rfl hne
    · split
      · intro _ hne; exact absurd rfl hne
      · split
        · intro h hne
          rw [update_changed _ _ _ _ _ h hne]
          exact preSave_derived _
        · intro _ hne; exact absurd rfl hne
  · intro gid target
    unfold addPlayer
    split
    · intro _ hne; exact absurd rfl hne
    · split
      · intro _ hne; exact absurd rfl hne
      · split
        · intro _ hne; exact absurd rfl hne
        · split
          · intro _ hne; exact absurd rfl hne
          · split
            · intro _ hne; exact absurd rfl hne
            · split
              · intro _ hne; exact absurd rfl hne
              · split
                · intro _ hne; exact absurd rfl hne
                · split
                  · intro _ hne; exact absurd rfl hne
                  · intro h hne
                    rw [update_changed _ _ _ _ _ h hne]
                    exact preSave_derived _
  · intro gid q
    unfold kickPlayer
    split
    · intro _ hne; exact absurd rfl hne
    · split
      · intro _ hne; exact absurd rfl hne
      · split
        · intro _ hne; exact absurd rfl hne
        · simp only []
          split
          · intro _ hne; exact absurd rfl hne
          · intro h hne
            rw [update_changed _ _ _ _ _ h hne]
            exact preSave_derived _
  · intro gid
    unfold leaveGame
    split
    · intro _ hne; exact absurd rfl hne
    · simp only []
      split
      · intro _ hne; exact absurd rfl hne
      · intro h hne
        rw [update_changed _ _ _ _ _ h hne]
        exact preSave_derived _
  · intro gid now
    rcases joinWithWallet_cases s u gid now with ⟨he, _⟩ |
      ⟨game, user, _, _, _, _, _, _, _, heq⟩
    · rw [he]; intro _ hne; exact absurd rfl hne
    · rw [heq]
      intro h hne
      simp only [joinedStore] at h hne
      rw [update_changed _ _ _ _ _ h hne]
      exact preSave_derived _

/-! ## pay-game, step by step -/

/-- The price step on a game with a positive price: the override is ignored and
nothing is written. -/
theorem payGamePrice_priced (s : Store) (gid : GameId) (game : Game) (tp : Option ℚ)
    (h : 0 < game.turfPrice) : payGamePrice s gid game tp = some (s, game.turfPrice) := by
  unfold payGamePrice
  have hn : ¬ (game.turfPrice = 0 ∨ game.turfPrice ≤ 0) := by
    intro hc
    rcases hc with hc | hc
    · rw [hc] at h; exact lt_irrefl 0 h
    · exact absurd h (not_lt.mpr hc)
  rw [if_neg hn]

/-- The price step on a game without a positive price and with a positive
override: the override is written to the game at once. -/
theorem payGamePrice_override (s : Store) (gid : GameId) (game : Game) (tp : ℚ)
    (h : game.turfPrice ≤ 0) (htp : 0 < tp) :
    payGamePrice s gid game (some tp) =
      some ({ s with games := Function.update s.games gid (some (pricedGame s game tp)) },
        tp) := by
  unfold payGamePrice
  have hn : ¬ (tp = 0 ∨ tp ≤ 0) := by
    intro hc
    rcases hc with hc | hc
    · rw [hc] at htp; exact lt_irrefl 0 htp
    · exact absurd htp (not_lt.mpr hc)
  rw [if_pos (Or.inr h)]
  simp only []
  rw [if_neg hn]
  rfl

/-- The price step on a game without a positive price and without a positive
override fails. -/
theorem payGamePrice_required (s : Store) (gid : GameId) (game : Game) (tp : Option ℚ)
    (h : game.turfPrice ≤ 0) (htp : ∀ p, tp = some p → p ≤ 0) :
    payGamePrice s gid game tp = none := by
  unfold payGamePrice
  rw [if_pos (Or.inr h)]
  cases tp with
  | none => rfl
  | some p =>
    simp only []
    rw [if_pos (Or.inr (htp p rfl))]

/-- Whatever the price step settles is a positive price. -/
theorem payGamePrice_pos (s : Store) (gid : GameId) (game : Game) (tp : Option ℚ)
    (s1 : Store) (price : ℚ) (h : payGamePrice s gid game tp = some (s1, price)) :
    0 < price := by
  by_cases hg : 0 < game.turfPrice
  · rw [payGamePrice_priced s gid game tp hg] at h
    simp only [Option.some.injEq, Prod.mk.injEq] at h
    rw [← h.2]; exact hg
  · cases tp with
    | none =>
      rw [payGamePrice_required s gid game none (not_lt.mp hg) (by simp)] at h
      simp at h
    | some p =>
      by_cases hp : 0 < p
      · rw [payGamePrice_override s gid game p (not_lt.mp hg) hp] at h
        simp only [Option.some.injEq, Prod.mk.injEq] at h
        rw [← h.2]; exact hp
      · rw [payGamePrice_required s gid game (some p) (not_lt.mp hg)
          (by intro q hq; simp only [Option.some.injEq] at hq; rw [← hq]; exact not_lt.mp hp)] at h
        simp at h

/-- The guards of `pay-game` before the price step. -/
theorem payGame_guards (s : Store) (u : UserId) (tp : Option ℚ) (now : Nat) :
    payGame s u none tp now = (s, PayGameResponse.gameIdRequired) ∧
    (∀ gid, s.games gid = none →
      payGame s u (some gid) tp now = (s, PayGameResponse.gameNotFound)) ∧
    (∀ gid game, s.games gid = some game → u ∉ populatedPlayers s game →
      payGame s u (some gid) tp now = (s, PayGameResponse.notParticipant)) ∧
    (∀ gid game, s.games gid = some game → u ∈ populatedPlayers s game →
      payGamePrice s gid game tp = none →
      payGame s u (some gid) tp now = (s, PayGameResponse.priceRequired)) := by
  refine ⟨rfl, ?_, ?_, ?_⟩
  · intro gid hg
    unfold payGame
    simp only []
    rw [hg]
  · intro gid game hg hn
    unfold payGame
    simp only []
    rw [hg]
    simp only []
    rw [if_pos hn]
  · intro gid game hg hm hp
    have hlen : ¬ ((populatedPlayers s game).length = 0) := by
      intro h0
      rw [List.length_eq_zero] at h0
      rw [h0] at hm
      exact absurd hm (List.not_mem_nil u)
    unfold payGame
    simp only []
    rw [hg]
    simp only []
    rw [if_neg (not_not.mpr hm), if_neg hlen, hp]

/-- `pay-game` once the price step has settled a price: the answer depends on
the wallet `getOrCreateWallet` returns. -/
theorem payGame_settled (s : Store) (u : UserId) (gid : GameId) (game : Game)
    (tp : Option ℚ) (now : Nat) (s1 : Store) (price : ℚ)
    (hg : s.games gid = some game) (hm : u ∈ populatedPlayers s game)
    (hp : payGamePrice s gid game tp = some (s1, price)) :
    ((∃ p, findPayment (getOrCreateWallet s1 u).2.payments gid = some p ∧
        p.status = PaymentStatus.paid) →
      payGame s u (some gid) tp now =
        ((getOrCreateWallet s1 u).1, PayGameResponse.alreadyPaid (payShare s game price))) ∧
    ((¬ ∃ p, findPayment (getOrCreateWallet s1 u).2.payments gid = some p ∧
        p.status = PaymentStatus.paid) →
      ((getOrCreateWallet s1 u).2.balance < payShare s game price →
        payGame s u (some gid) tp now =
          ((getOrCreateWallet s1 u).1,
            PayGameResponse.insufficientBalance (payShare s game price)
              (getOrCreateWallet s1 u).2.balance)) ∧
      (payShare s game price ≤ (getOrCreateWallet s1 u).2.balance →
        payGame s u (some gid) tp now =
          ({ (getOrCreateWallet s1 u).1 with
              wallets := Function.update (getOrCreateWallet s1 u).1.wallets u
                (some (paidWallet (getOrCreateWallet s1 u).2 gid game.teamName
                  (payShare s game price) now)) },
            PayGameResponse.paid (payShare s game price)
              (fsub (getOrCreateWallet s1 u).2.balance (payShare s game price))))) := by
  have hlen : ¬ ((populatedPlayers s game).length = 0) := by
    intro h0
    rw [List.length_eq_zero] at h0
    rw [h0] at hm
    exact absurd hm (List.not_mem_nil u)
  have hpos := payGamePrice_pos s gid game tp s1 price hp
  have hshare : 0 ≤ payShare s game price := by
    unfold payShare numberToFixed2 fdiv
    apply fl_nonneg
    apply toFixed2_nonneg
    apply fl_nonneg
    exact div_nonneg (le_of_lt hpos) (Nat.cast_nonneg _)
  refine ⟨?_, ?_⟩
  · intro hpaid
    unfold payGame
    simp only []
    rw [hg]
    simp only []
    rw [if_neg (not_not.mpr hm), if_neg hlen, hp]
    simp only []
    rw [if_pos hpaid]
    rfl
  · intro hnot
    constructor
    · intro hlt
      have hlt1 : (getOrCreateWallet s1 u).2.balance <
          numberToFixed2 (fdiv price ((populatedPlayers s game).length : ℚ)) := hlt
      unfold payGame
      simp only []
      rw [hg]
      simp only []
      rw [if_neg (not_not.mpr hm), if_neg hlen, hp]
      simp only []
      rw [if_neg hnot, if_pos hlt1]
      rfl
    · intro hle
      have hlt : ¬ ((getOrCreateWallet s1 u).2.balance <
          numberToFixed2 (fdiv price ((populatedPlayers s game).length : ℚ))) := not_lt.mpr hle
      have hv : ¬ (fsub (getOrCreateWallet s1 u).2.balance
          (numberToFixed2 (fdiv price ((populatedPlayers s game).length : ℚ))) < 0 ∨
          numberToFixed2 (fdiv price ((populatedPlayers s game).length : ℚ)) < 0) := by
        intro hc
        rcases hc with hc | hc
        · unfold payShare at hle
          exact absurd (fl_nonneg _ (sub_nonneg.mpr hle)) (not_le.mpr hc)
        · unfold payShare at hshare; linarith
      unfold payGame
      simp only []
      rw [hg]
      simp only []
      rw [if_neg (not_not.mpr hm), if_neg hlen, hp]
      simp only []
      rw [if_neg hnot, if_neg hlt, if_neg hv]
      rfl

/-- Once the price step has settled, the games `pay-game` leaves are the games
the price step left. -/
theorem payGame_games_settled (s : Store) (u : UserId) (gid : GameId) (game : Game)
    (tp : Option ℚ) (now : Nat) (s1 : Store) (price : ℚ)
    (hg : s.games gid = some game) (hm : u ∈ populatedPlayers s game)
    (hp : payGamePrice s gid game tp = some (s1, price)) :
    (payGame s u (some gid) tp now).1.games = s1.games := by
  obtain ⟨w, hw⟩ := getOrCreateWallet_frame s1 u
  have h := payGame_settled s u gid game tp now s1 price hg hm hp
  by_cases hpaid : ∃ p, findPayment (getOrCreateWallet s1 u).2.payments gid = some p ∧
      p.status = PaymentStatus.paid
  · rw [h.1 hpaid, hw]
  · by_cases hlt : (getOrCreateWallet s1 u).2.balance < payShare s game price
    · rw [(h.2 hpaid).1 hlt, hw]
    · rw [(h.2 hpaid).2 (not_lt.mp hlt), hw]

/-- The game of `danglingOps` after the create and the join of caller 9. -/
theorem dangling_after_join :
    (run exampleEnv emptyStore [Op.createGame 1 unpricedRequest 7, Op.joinGame 9 7]).games 7 =
      some fullGame ∧
    (run exampleEnv emptyStore [Op.createGame 1 unpricedRequest 7, Op.joinGame 9 7]).users =
      emptyStore.users := by
  have t1 : trim "Kickers" = "Kickers" := by decide
  have t2 : trim "football" = "football" := by decide
  have t3 : trim "Indiranagar" = "Indiranagar" := by decide
  simp [run, step, createGame, joinGame, exampleEnv, emptyStore, unpricedRequest,
    exampleRequest, exampleGame, fullGame, Game.preSave, t1, t2, t3]

/-- On the store of `dangling_after_join` the populated roster of the full game
is user 1 alone. -/
theorem dangling_populated :
    populatedPlayers
      (run exampleEnv emptyStore [Op.createGame 1 unpricedRequest 7, Op.joinGame 9 7])
      fullGame = [1] := by
  unfold populatedPlayers
  rw [dangling_after_join.2]
  simp [emptyStore, fullGame, List.filter]

/-- C12 fails on pay-game: user 1 creates an unpriced game for two, a caller 9
without a user document joins it (the game is full and closed), and user 1 pays
with a price of 50.  The game pay-game saves still has the two players and
`teamSize` 2, yet `availableSpots` is 1 and `isOpen` is true. -/
theorem payGame_reopens_full_game :
    ((run exampleEnv emptyStore danglingOps).games 7).map
        (fun g => (g.players, g.teamSize, g.turfPrice, g.availableSpots, g.isOpen)) =
      some ([1, 9], 2, 50, 1, true) ∧
    ¬ ∃ y, (run exampleEnv emptyStore danglingOps).games 7 = some y ∧ y.derived := by
  have hrun : run exampleEnv emptyStore danglingOps =
      (payGame (run exampleEnv emptyStore [Op.createGame 1 unpricedRequest 7, Op.joinGame 9 7])
        1 (some 7) (some 50) 30).1 := rfl
  have hgames := payGame_games_settled _ 1 7 fullGame (some 50) 30 _ 50 dangling_after_join.1
    (by rw [dangling_populated]; simp)
    (payGamePrice_override _ 7 fullGame 50 (by simp [fullGame]) (by norm_num))
  have hfinal : (run exampleEnv emptyStore danglingOps).games 7 =
      some { exampleGame with
        turfPrice := 50, players := [1, 9], availableSpots := 1, isOpen := true } := by
    rw [hrun, hgames]
    simp only [Function.update_same, pricedGame, dangling_populated]
    simp [fullGame, exampleGame]
    norm_num
  constructor
  · rw [hfinal]; simp [exampleGame]
  · rintro ⟨y, hy, hd⟩
    rw [hfinal] at hy
    simp only [Option.some.injEq] at hy
    rw [← hy] at hd
    simp [Game.derived, exampleGame] at hd

/-- When every player has a user document the populated roster is the roster. -/
theorem populatedPlayers_eq (s : Store) (game : Game)
    (h : ∀ p ∈ game.players, (s.users p).isSome = true) :
    populatedPlayers s game = game.players := by
  unfold populatedPlayers
  exact List.filter_eq_self.mpr h

/-- The games after `pay-game`: untouched, or the game of the request rewritten
with a positive override as its price. -/
theorem payGame_games_cases (s : Store) (u : UserId) (gid : GameId) (tp : Option ℚ)
    (now : Nat) :
    (payGame s u (some gid) tp now).1.games = s.games ∨
    ∃ game p, s.games gid = some game ∧ u ∈ populatedPlayers s game ∧ game.turfPrice ≤ 0 ∧
      tp = some p ∧ 0 < p ∧
      (payGame s u (some gid) tp now).1.games =
        Function.update s.games gid (some (pricedGame s game p)) := by
  have hguard := payGame_guards s u tp now
  cases hg : s.games gid with
  | none => left; rw [hguard.2.1 gid hg]
  | some game =>
    by_cases hm : u ∈ populatedPlayers s game
    · by_cases hprice : 0 < game.turfPrice
      · left
        rw [payGame_games_settled s u gid game tp now s game.turfPrice hg hm
          (payGamePrice_priced s gid game tp hprice)]
      · cases tp with
        | none =>
          left
          rw [hguard.2.2.2 gid game hg hm
            (payGamePrice_required s gid game none (not_lt.mp hprice) (by simp))]
        | some p =>
          by_cases hp : 0 < p
          · right
            refine ⟨game, p, rfl, hm, not_lt.mp hprice, rfl, hp, ?_⟩
            rw [payGame_games_settled s u gid game (some p) now _ p hg hm
              (payGamePrice_override s gid game p (not_lt.mp hprice) hp)]
          · left
            rw [hguard.2.2.2 gid game hg hm
              (payGamePrice_required s gid game (some p) (not_lt.mp hprice)
                (by intro q hq; simp only [Option.some.injEq] at hq; rw [← hq];
                    exact not_lt.mp hp))]
    · left; rw [hguard.2.2.1 gid game hg hm]

/-- The game document `pay-game` writes when it sets the price has its derived
fields in agreement with roster and status, provided every player of the game
has a user document. -/
theorem payGame_derived (s : Store) (u : UserId) (gid g : GameId) (tp : Option ℚ) (now : Nat)
    (y : Game)
    (hall : ∀ game, s.games gid = some game → ∀ p ∈ game.players, (s.users p).isSome = true)
    (h : (payGame s u (some gid) tp now).1.games g = some y)
    (hne : (payGame s u (some gid) tp now).1.games g ≠ s.games g) : y.derived := by
  rcases payGame_games_cases s u gid tp now with he | ⟨game, p, hg, _, _, _, _, he⟩
  · rw [he] at hne; exact absurd rfl hne
  · rw [he] at h hne
    rw [update_changed _ _ _ _ _ h hne]
    simp [Game.derived, pricedGame, populatedPlayers_eq s game (hall game hg)]

/-- The wallet `getOrCreateWallet` returns is the stored one, or an empty one,
and it is the wallet stored afterwards. -/
theorem getOrCreateWallet_eq (s : Store) (u : UserId) :
    getOrCreateWallet s u =
      ({ s with wallets := Function.update s.wallets u (some ((s.wallets u).getD emptyWallet)) },
        (s.wallets u).getD emptyWallet) := by
  unfold getOrCreateWallet
  cases hw : s.wallets u with
  | none => rfl
  | some w =>
    simp only [Option.getD_some]
    have : Function.update s.wallets u (some w) = s.wallets := by
      rw [← hw]; exact Function.update_eq_self u s.wallets
    rw [this]

/-- Every way `pay-game` can go.  `wallet` is the caller's wallet, empty when
there was none. -/
theorem payGame_cases (s : Store) (u : UserId) (g : Option GameId) (tp : Option ℚ)
    (now : Nat) :
    (g = none ∧ payGame s u g tp now = (s, PayGameResponse.gameIdRequired)) ∨
    (∃ gid, g = some gid ∧ s.games gid = none ∧
      payGame s u g tp now = (s, PayGameResponse.gameNotFound)) ∨
    (∃ gid game, g = some gid ∧ s.games gid = some game ∧ u ∉ populatedPlayers s game ∧
      payGame s u g tp now = (s, PayGameResponse.notParticipant)) ∨
    (∃ gid game, g = some gid ∧ s.games gid = some game ∧ u ∈ populatedPlayers s game ∧
      payGamePrice s gid game tp = none ∧
      payGame s u g tp now = (s, PayGameResponse.priceRequired)) ∨
    (∃ gid game games price, g = some gid ∧ s.games gid = some game ∧
      u ∈ populatedPlayers s game ∧
      payGamePrice s gid game tp = some ({ s with games := games }, price) ∧
      (((∃ p, findPayment ((s.wallets u).getD emptyWallet).payments gid = some p ∧
            p.status = PaymentStatus.paid) ∧
          payGame s u g tp now =
            ({ s with
                games := games
                wallets := Function.update s.wallets u
                  (some ((s.wallets u).getD emptyWallet)) },
              PayGameResponse.alreadyPaid (payShare s game price))) ∨
        ((¬ ∃ p, findPayment ((s.wallets u).getD emptyWallet).payments gid = some p ∧
            p.status = PaymentStatus.paid) ∧
          ((s.wallets u).getD emptyWallet).balance < payShare s game price ∧
          payGame s u g tp now =
            ({ s with
                games := games
                wallets := Function.update s.wallets u
                  (some ((s.wallets u).getD emptyWallet)) },
              PayGameResponse.insufficientBalance (payShare s game price)
                ((s.wallets u).getD emptyWallet).balance)) ∨
        ((¬ ∃ p, findPayment ((s.wallets u).getD emptyWallet).payments gid = some p ∧
            p.status = PaymentStatus.paid) ∧
          payShare s game price ≤ ((s.wallets u).getD emptyWallet).balance ∧
          payGame s u g tp now =
            ({ s with
                games := games
                wallets := Function.update s.wallets u
                  (some (paidWallet ((s.wallets u).getD emptyWallet) gid game.teamName
                    (payShare s game price) now)) },
              PayGameResponse.paid (payShare s game price)
                (fsub ((s.wallets u).getD emptyWallet).balance (payShare s game price)))))) := by
  have hguard := payGame_guards s u tp now
  cases g with
  | none => exact Or.inl ⟨rfl, hguard.1⟩
  | some gid =>
    right
    cases hg : s.games gid with
    | none => exact Or.inl ⟨gid, rfl, hg, hguard.2.1 gid hg⟩
    | some game =>
      right
      by_cases hm : u ∈ populatedPlayers s game
      · right
        cases hp : payGamePrice s gid game tp with
        | none => exact Or.inl ⟨gid, game, rfl, hg, hm, hp, hguard.2.2.2 gid game hg hm hp⟩
        | some r =>
          right
          obtain ⟨s1, price⟩ := r
          obtain ⟨games, hs1⟩ := payGamePrice_frame s gid game tp s1 price hp
          subst hs1
          have hset := payGame_settled s u gid game tp now _ price hg hm hp
          rw [getOrCreateWallet_eq] at hset
          refine ⟨gid, game, games, price, rfl, hg, hm, hp, ?_⟩
          by_cases hpaid : ∃ p, findPayment ((s.wallets u).getD emptyWallet).payments gid =
              some p ∧ p.status = PaymentStatus.paid
          · exact Or.inl ⟨hpaid, hset.1 hpaid⟩
          · by_cases hlt : ((s.wallets u).getD emptyWallet).balance < payShare s game price
            · exact Or.inr (Or.inl ⟨hpaid, hlt, (hset.2 hpaid).1 hlt⟩)
            · refine Or.inr (Or.inr ⟨hpaid, not_lt.mp hlt, ?_⟩)
              rw [(hset.2 hpaid).2 (not_lt.mp hlt)]
              simp
      · exact Or.inl ⟨gid, game, rfl, hg, hm, hguard.2.2.1 gid game hg hm⟩

/-! ## Claims on pay-game -/

/-- The share of 50 over 1 player and of 50 over 2 players. -/
theorem numberToFixed2_fifty : toFixed2 50 = 50 ∧
    numberToFixed2 (fdiv 50 ((1 : ℕ) : ℚ)) = 50 ∧
    numberToFixed2 (fdiv 50 ((2 : ℕ) : ℚ)) = 25 := by
  have h50 : toFixed2 50 = 50 := by
    rw [toFixed2_of_bounds 50 5000 (by norm_num) (by norm_num) (by norm_num)]; norm_num
  refine ⟨h50, ?_, ?_⟩
  · unfold numberToFixed2 fdiv
    have h : (50 : ℚ) / ((1 : ℕ) : ℚ) = 50 := by norm_num
    rw [h, fl_fifty, h50, fl_fifty]
  · unfold numberToFixed2 fdiv
    have h : (50 : ℚ) / ((2 : ℕ) : ℚ) = 25 := by norm_num
    rw [h, fl_twentyfive, toFixed2_twentyfive, fl_twentyfive]

/-- C13 as stated fails: user 2 holds a paid record for game 7 but is not on its
roster, and pay-game answers 403 You are not part of this game instead of
success. -/
theorem paid_but_left_rejected :
    (∃ w p, paidStore.wallets 2 = some w ∧ findPayment w.payments 7 = some p ∧
      p.status = PaymentStatus.paid) ∧
    (payGame paidStore 2 (some 7) none 9).2 = PayGameResponse.notParticipant := by
  constructor
  · exact ⟨walletWithPaid 10 25,
      { game := 7, amount := 25, status := PaymentStatus.paid, paidAt := some 5 },
      by simp [paidStore], by simp [findPayment, walletWithPaid], rfl⟩
  · rw [(payGame_guards paidStore 2 none 9).2.2.1 7 exampleGame (by simp [paidStore, exampleStore])
      (by simp [populatedPlayers, exampleGame, paidStore, exampleStore, emptyStore, List.filter])]

/-- C13, amended: when the payment record of the game in the caller's wallet
(the first one, which the handler looks up) has status `paid`, pay-game leaves
every wallet (balance, transactions, payments) unchanged; it answers with
success (already paid) when the caller is on the populated roster of the
existing game and the game has a positive price or the call brings a positive
override. -/
theorem paid_record_no_second_debit (s : Store) (u : UserId) (gid : GameId) (tp : Option ℚ)
    (now : Nat) (wallet : Wallet) (p : GamePayment)
    (hw : s.wallets u = some wallet) (hrec : findPayment wallet.payments gid = some p)
    (hpaid : p.status = PaymentStatus.paid) :
    (payGame s u (some gid) tp now).1.wallets = s.wallets ∧
    (∀ game, s.games gid = some game → u ∈ populatedPlayers s game →
      (0 < game.turfPrice ∨ ∃ q, tp = some q ∧ 0 < q) →
      ∃ share, (payGame s u (some gid) tp now).2 = PayGameResponse.alreadyPaid share) := by
  have hgetD : (s.wallets u).getD emptyWallet = wallet := by rw [hw]; rfl
  have hupd : Function.update s.wallets u (some wallet) = s.wallets := by
    rw [← hw]; exact Function.update_eq_self u s.wallets
  have hex : ∃ q, findPayment ((s.wallets u).getD emptyWallet).payments gid = some q ∧
      q.status = PaymentStatus.paid := by rw [hgetD]; exact ⟨p, hrec, hpaid⟩
  rcases payGame_cases s u (some gid) tp now with ⟨h, _⟩ | ⟨g1, _, _, he⟩ |
    ⟨g1, game, h1, hg, hn, he⟩ | ⟨g1, game, h1, hg, hm, hp, he⟩ |
    ⟨g1, game, games, price, h1, hg, hm, hp, hc⟩
  · exact absurd h (by simp)
  · rw [he]
    refine ⟨rfl, ?_⟩
    intro game hg2
    simp only [Option.some.injEq] at *
    subst_vars
    simp_all
  · simp only [Option.some.injEq] at h1
    subst h1
    rw [he]
    refine ⟨rfl, ?_⟩
    intro game2 hg2 hm2
    rw [hg] at hg2
    simp only [Option.some.injEq] at hg2
    subst hg2
    exact absurd hm2 hn
  · simp only [Option.some.injEq] at h1
    subst h1
    rw [he]
    refine ⟨rfl, ?_⟩
    intro game2 hg2 _ hprice
    rw [hg] at hg2
    simp only [Option.some.injEq] at hg2
    subst hg2
    exfalso
    rcases hprice with hpos | ⟨q, hq, hqpos⟩
    · rw [payGamePrice_priced s gid game tp hpos] at hp; simp at hp
    · by_cases hpos : 0 < game.turfPrice
      · rw [payGamePrice_priced s gid game tp hpos] at hp; simp at hp
      · rw [hq, payGamePrice_override s gid game q (not_lt.mp hpos) hqpos] at hp; simp at hp
  · simp only [Option.some.injEq] at h1
    subst h1
    rcases hc with ⟨_, he⟩ | ⟨hnot, _, _⟩ | ⟨hnot, _, _⟩
    · rw [he, hgetD]
      exact ⟨hupd, fun _ _ _ _ => ⟨_, rfl⟩⟩
    · exact absurd hex hnot
    · exact absurd hex hnot

/-- C13, amended, for user 1 of `paidStore`, who is on the roster of game 7. -/
theorem paid_record_no_second_debit_witness :
    paidStore.wallets 1 = some (walletWithPaid 20 50) ∧
    findPayment (walletWithPaid 20 50).payments 7 =
      some { game := 7, amount := 50, status := PaymentStatus.paid, paidAt := some 5 } ∧
    (payGame paidStore 1 (some 7) none 9).1.wallets = paidStore.wallets :=
  ⟨by simp [paidStore], by simp [findPayment, walletWithPaid],
    (paid_record_no_second_debit paidStore 1 7 none 9 (walletWithPaid 20 50)
      { game := 7, amount := 50, status := PaymentStatus.paid, paidAt := some 5 }
      (by simp [paidStore]) (by simp [findPayment, walletWithPaid]) rfl).1⟩

/-- The answer of `pay-game` to a caller whose record of the game is paid, on
the populated roster, once the price step has settled a price. -/
theorem payGame_already_paid (s : Store) (u : UserId) (gid : GameId) (game : Game)
    (tp : Option ℚ) (now : Nat) (s1 : Store) (price : ℚ) (wallet : Wallet) (p : GamePayment)
    (hg : s.games gid = some game) (hm : u ∈ populatedPlayers s game)
    (hp : payGamePrice s gid game tp = some (s1, price))
    (hw : s.wallets u = some wallet) (hrec : findPayment wallet.payments gid = some p)
    (hpaid : p.status = PaymentStatus.paid) :
    (payGame s u (some gid) tp now).2 = PayGameResponse.alreadyPaid (payShare s game price) := by
  obtain ⟨games, hs1⟩ := payGamePrice_frame s gid game tp s1 price hp
  have hset := payGame_settled s u gid game tp now s1 price hg hm hp
  have hgw : (getOrCreateWallet s1 u).2 = wallet := by
    rw [getOrCreateWallet_eq, hs1]
    simp only []
    rw [hw]; rfl
  rw [hset.1 (by rw [hgw]; exact ⟨p, hrec, hpaid⟩)]

/-- C14 as stated fails: user 1 paid 50 when alone on the roster; after user 2
joined, the repeated call answers with a share of 25, not with the 50 stored in
the paid record. -/
theorem repeat_share_recomputed :
    (∃ w, grownStore.wallets 1 = some w ∧
      findPayment w.payments 7 =
        some { game := 7, amount := 50, status := PaymentStatus.paid, paidAt := some 5 }) ∧
    (payGame grownStore 1 (some 7) none 9).2 = PayGameResponse.alreadyPaid 25 ∧
    (25 : ℚ) ≠ 50 := by
  have hpop : populatedPlayers grownStore grownGame = [1, 2] := by
    simp [populatedPlayers, grownStore, paidStore, exampleStore, emptyStore, grownGame,
      List.filter]
  refine ⟨⟨walletWithPaid 20 50, by simp [grownStore, paidStore],
    by simp [findPayment, walletWithPaid]⟩, ?_, by norm_num⟩
  rw [payGame_already_paid grownStore 1 7 grownGame none 9 grownStore 50 (walletWithPaid 20 50)
    { game := 7, amount := 50, status := PaymentStatus.paid, paidAt := some 5 }
    (by simp [grownStore]) (by rw [hpop]; simp)
    (payGamePrice_priced grownStore 7 grownGame none (by simp [grownGame, exampleGame]))
    (by simp [grownStore, paidStore]) (by simp [findPayment, walletWithPaid]) rfl]
  simp only [payShare, hpop]
  exact congrArg _ numberToFixed2_fifty.2.2

/-- C14, amended: when the payment record of the game in the caller's wallet is
`paid` and the caller is on the populated roster, pay-game answers with the
share computed at the time of the call, the price over the current number of
players rounded to 2 decimals (the price being the positive `turfPrice` of the
game, or else the positive override), whatever amount the record stores. -/
theorem paid_record_share_is_current (s : Store) (u : UserId) (gid : GameId) (game : Game)
    (tp : Option ℚ) (now : Nat) (wallet : Wallet) (p : GamePayment)
    (hg : s.games gid = some game) (hm : u ∈ populatedPlayers s game)
    (hw : s.wallets u = some wallet) (hrec : findPayment wallet.payments gid = some p)
    (hpaid : p.status = PaymentStatus.paid) :
    (0 < game.turfPrice →
      (payGame s u (some gid) tp now).2 =
        PayGameResponse.alreadyPaid
          (payShare s game game.turfPrice)) ∧
    (game.turfPrice ≤ 0 → ∀ q, tp = some q → 0 < q →
      (payGame s u (some gid) tp now).2 =
        PayGameResponse.alreadyPaid
          (payShare s game q)) := by
  constructor
  · intro hpos
    exact payGame_already_paid s u gid game tp now s game.turfPrice wallet p hg hm
      (payGamePrice_priced s gid game tp hpos) hw hrec hpaid
  · intro hle q hq hqpos
    rw [hq]
    exact payGame_already_paid s u gid game (some q) now _ q wallet p hg hm
      (payGamePrice_override s gid game q hle hqpos) hw hrec hpaid

/-- C14, amended, on `grownStore`: the share of the repeated call is 50 over the
two current players. -/
theorem paid_record_share_is_current_witness :
    grownStore.games 7 = some grownGame ∧ (1 : UserId) ∈ populatedPlayers grownStore grownGame ∧
    grownStore.wallets 1 = some (walletWithPaid 20 50) ∧
    findPayment (walletWithPaid 20 50).payments 7 =
      some { game := 7, amount := 50, status := PaymentStatus.paid, paidAt := some 5 } ∧
    (0 < grownGame.turfPrice →
      (payGame grownStore 1 (some 7) none 9).2 =
        PayGameResponse.alreadyPaid
          (payShare grownStore grownGame grownGame.turfPrice)) :=
  ⟨by simp [grownStore],
    by simp [populatedPlayers, grownStore, paidStore, exampleStore, emptyStore, grownGame,
      List.filter],
    by simp [grownStore, paidStore], by simp [findPayment, walletWithPaid],
    (paid_record_share_is_current grownStore 1 7 grownGame none 9 (walletWithPaid 20 50)
      { game := 7, amount := 50, status := PaymentStatus.paid, paidAt := some 5 }
      (by simp [grownStore])
      (by simp [populatedPlayers, grownStore, paidStore, exampleStore, emptyStore, grownGame,
        List.filter])
      (by simp [grownStore, paidStore]) (by simp [findPayment, walletWithPaid]) rfl).1⟩

/-- C15: price-setting in pay-game, for a caller on the (populated) roster of the
game.  When `turfPrice` is unset (0) or `<= 0`: without a positive `totalPrice`
the call fails with PriceRequired and the store (game, wallet) is unchanged;
with a positive override `q` the saved game has `turfPrice = q`.  When
`turfPrice` is already `> 0` the override is ignored: no game is written, and
the share of the answer is computed from the existing price. -/
theorem payGame_price_setting (s : Store) (u : UserId) (gid : GameId) (game : Game)
    (tp : Option ℚ) (now : Nat)
    (hg : s.games gid = some game) (hm : u ∈ populatedPlayers s game) :
    (game.turfPrice ≤ 0 → (∀ q, tp = some q → q ≤ 0) →
      payGame s u (some gid) tp now = (s, PayGameResponse.priceRequired)) ∧
    (game.turfPrice ≤ 0 → ∀ q, tp = some q → 0 < q →
      ∃ y, (payGame s u (some gid) tp now).1.games gid = some y ∧ y.turfPrice = q ∧
        y.players = game.players) ∧
    (0 < game.turfPrice →
      (payGame s u (some gid) tp now).1.games = s.games ∧
      ((payGame s u (some gid) tp now).2 =
          PayGameResponse.alreadyPaid
            (payShare s game game.turfPrice) ∨
        (∃ b, (payGame s u (some gid) tp now).2 =
          PayGameResponse.insufficientBalance
            (payShare s game game.turfPrice) b) ∨
        (∃ b, (payGame s u (some gid) tp now).2 =
          PayGameResponse.paid
            (payShare s game game.turfPrice) b))) := by
  refine ⟨?_, ?_, ?_⟩
  · intro hle hno
    exact (payGame_guards s u tp now).2.2.2 gid game hg hm
      (payGamePrice_required s gid game tp hle hno)
  · intro hle q hq hqpos
    rw [hq, payGame_games_settled s u gid game (some q) now _ q hg hm
      (payGamePrice_override s gid game q hle hqpos)]
    exact ⟨pricedGame s game q, by simp, rfl, rfl⟩
  · intro hpos
    have hp := payGamePrice_priced s gid game tp hpos
    refine ⟨payGame_games_settled s u gid game tp now s game.turfPrice hg hm hp, ?_⟩
    have hset := payGame_settled s u gid game tp now s game.turfPrice hg hm hp
    by_cases hpaid : ∃ p, findPayment (getOrCreateWallet s u).2.payments gid = some p ∧
        p.status = PaymentStatus.paid
    · left; rw [hset.1 hpaid]
    · by_cases hlt : (getOrCreateWallet s u).2.balance < payShare s game game.turfPrice
      · right; left; rw [(hset.2 hpaid).1 hlt]; exact ⟨_, rfl⟩
      · right; right; rw [(hset.2 hpaid).2 (not_lt.mp hlt)]; exact ⟨_, rfl⟩

/-- C15 on `unpricedStore`: user 1, on the roster of the unpriced game 7, calls
without an override and is refused, the store unchanged. -/
theorem payGame_price_setting_witness :
    unpricedStore.games 7 = some unpricedGame ∧
    (1 : UserId) ∈ populatedPlayers unpricedStore unpricedGame ∧
    (unpricedGame.turfPrice ≤ 0 → (∀ q, (none : Option ℚ) = some q → q ≤ 0) →
      payGame unpricedStore 1 (some 7) none 0 = (unpricedStore, PayGameResponse.priceRequired)) :=
  ⟨by simp [unpricedStore],
    by simp [populatedPlayers, unpricedStore, unpricedGame, exampleGame, exampleStore,
      emptyStore, List.filter],
    (payGame_price_setting unpricedStore 1 7 unpricedGame none 0 (by simp [unpricedStore])
      (by simp [populatedPlayers, unpricedStore, unpricedGame, exampleGame, exampleStore,
        emptyStore, List.filter])).1⟩

/-- C16 as stated fails: user 1 has no money and pays for the unpriced game 7
with an override of 50.  The call fails with InsufficientBalance, yet the saved
game now has `turfPrice` 50. -/
theorem insufficient_balance_keeps_price :
    (unpricedStore.games 7).map (fun g => g.turfPrice) = some 0 ∧
    (payGame unpricedStore 1 (some 7) (some 50) 0).2 =
      PayGameResponse.insufficientBalance 50 0 ∧
    ((payGame unpricedStore 1 (some 7) (some 50) 0).1.games 7).map (fun g => g.turfPrice) =
      some 50 := by
  have hg : unpricedStore.games 7 = some unpricedGame := by simp [unpricedStore]
  have hpop : populatedPlayers unpricedStore unpricedGame = [1] := by
    simp [populatedPlayers, unpricedStore, unpricedGame, exampleGame, exampleStore,
      emptyStore, List.filter]
  have hm : (1 : UserId) ∈ populatedPlayers unpricedStore unpricedGame := by rw [hpop]; simp
  have hp := payGamePrice_override unpricedStore 7 unpricedGame 50
    (by simp [unpricedGame]) (by norm_num)
  have hshare : payShare unpricedStore unpricedGame 50 = 50 := by
    simp only [payShare, hpop]
    exact numberToFixed2_fifty.2.1
  have hset := payGame_settled unpricedStore 1 7 unpricedGame (some 50) 0 _ 50 hg hm hp
  have hwal : (getOrCreateWallet
      { unpricedStore with
        games := Function.update unpricedStore.games 7
          (some (pricedGame unpricedStore unpricedGame 50)) } 1).2 = emptyWallet := by
    rw [getOrCreateWallet_eq]
    simp [unpricedStore, exampleStore, emptyStore]
  have hnot : ¬ ∃ p, findPayment (getOrCreateWallet
      { unpricedStore with
        games := Function.update unpricedStore.games 7
          (some (pricedGame unpricedStore unpricedGame 50)) } 1).2.payments 7 = some p ∧
        p.status = PaymentStatus.paid := by
    rw [hwal]; simp [findPayment, emptyWallet]
  have hlt : (getOrCreateWallet
      { unpricedStore with
        games := Function.update unpricedStore.games 7
          (some (pricedGame unpricedStore unpricedGame 50)) } 1).2.balance <
      payShare unpricedStore unpricedGame 50 := by
    rw [hwal, hshare]; simp [emptyWallet]
  refine ⟨by simp [unpricedStore, unpricedGame], ?_, ?_⟩
  · rw [(hset.2 hnot).1 hlt, hwal, hshare]
    rfl
  · rw [payGame_games_settled unpricedStore 1 7 unpricedGame (some 50) 0 _ 50 hg hm hp]
    simp [pricedGame]

/-- The games the price step leaves: untouched, or the game rewritten with the
positive override. -/
theorem payGamePrice_games (s : Store) (gid : GameId) (game : Game) (tp : Option ℚ)
    (s1 : Store) (price : ℚ) (h : payGamePrice s gid game tp = some (s1, price)) :
    s1.games = s.games ∨
    ∃ q, tp = some q ∧ 0 < q ∧ game.turfPrice ≤ 0 ∧
      s1.games = Function.update s.games gid (some (pricedGame s game q)) := by
  by_cases hpos : 0 < game.turfPrice
  · rw [payGamePrice_priced s gid game tp hpos] at h
    simp only [Option.some.injEq, Prod.mk.injEq] at h
    left; rw [← h.1]
  · cases tp with
    | none =>
      rw [payGamePrice_required s gid game none (not_lt.mp hpos) (by simp)] at h
      simp at h
    | some q =>
      by_cases hq : 0 < q
      · rw [payGamePrice_override s gid game q (not_lt.mp hpos) hq] at h
        simp only [Option.some.injEq, Prod.mk.injEq] at h
        right
        exact ⟨q, rfl, hq, not_lt.mp hpos, by rw [← h.1]⟩
      · rw [payGamePrice_required s gid game (some q) (not_lt.mp hpos)
          (by intro r hr; simp only [Option.some.injEq] at hr; rw [← hr];
              exact not_lt.mp hq)] at h
        simp at h

/-- C16, amended: a pay-game that fails with GameNotFound, NotAParticipant,
NoParticipants or PriceRequired (or for want of a `gameId`) leaves the store
exactly as before.  One that fails with InsufficientBalance leaves users and
ledger as before and the caller's wallet as before (created empty when there
was none); the game is as before unless the game had no positive price and the
call brought a positive override, which has then been saved as `turfPrice`
together with the derived fields. -/
theorem payGame_failure_state (s : Store) (u : UserId) (g : Option GameId) (tp : Option ℚ)
    (now : Nat) :
    (((payGame s u g tp now).2 = PayGameResponse.gameIdRequired ∨
        (payGame s u g tp now).2 = PayGameResponse.gameNotFound ∨
        (payGame s u g tp now).2 = PayGameResponse.notParticipant ∨
        (payGame s u g tp now).2 = PayGameResponse.noPlayers ∨
        (payGame s u g tp now).2 = PayGameResponse.priceRequired) →
      (payGame s u g tp now).1 = s) ∧
    (∀ req bal, (payGame s u g tp now).2 = PayGameResponse.insufficientBalance req bal →
      (payGame s u g tp now).1.users = s.users ∧
      (payGame s u g tp now).1.ledger = s.ledger ∧
      (payGame s u g tp now).1.wallets =
        Function.update s.wallets u (some ((s.wallets u).getD emptyWallet)) ∧
      ((payGame s u g tp now).1.games = s.games ∨
        ∃ gid game q, g = some gid ∧ s.games gid = some game ∧ game.turfPrice ≤ 0 ∧
          tp = some q ∧ 0 < q ∧
          (payGame s u g tp now).1.games =
            Function.update s.games gid (some (pricedGame s game q)))) := by
  rcases payGame_cases s u g tp now with ⟨_, he⟩ | ⟨g1, _, _, he⟩ |
    ⟨g1, game, _, _, _, he⟩ | ⟨g1, game, _, _, _, _, he⟩ |
    ⟨g1, game, games, price, h1, hg, hm, hp, hc⟩
  · rw [he]; exact ⟨fun _ => rfl, fun _ _ h => by simp at h⟩
  · rw [he]; exact ⟨fun _ => rfl, fun _ _ h => by simp at h⟩
  · rw [he]; exact ⟨fun _ => rfl, fun _ _ h => by simp at h⟩
  · rw [he]; exact ⟨fun _ => rfl, fun _ _ h => by simp at h⟩
  · rcases hc with ⟨_, he⟩ | ⟨_, _, he⟩ | ⟨_, _, he⟩
    · rw [he]
      refine ⟨fun h => ?_, fun _ _ h => by simp at h⟩
      simp at h
    · rw [he]
      refine ⟨fun h => ?_, fun _ _ _ => ⟨rfl, rfl, rfl, ?_⟩⟩
      · simp at h
      · rcases payGamePrice_games s g1 game tp _ price hp with hs | ⟨q, hq, hqpos, hle, hs⟩
        · left; exact hs
        · right; exact ⟨g1, game, q, h1, hg, hle, hq, hqpos, hs⟩
    · rw [he]
      refine ⟨fun h => ?_, fun _ _ h => by simp at h⟩
      simp at h

/-- C16, amended, on `exampleStore`: there is no game 8, the call fails with
GameNotFound and the store is the one before. -/
theorem payGame_failure_state_witness :
    (payGame exampleStore 1 (some 8) none 0).2 = PayGameResponse.gameNotFound ∧
    (payGame exampleStore 1 (some 8) none 0).1 = exampleStore := by
  have h : (payGame exampleStore 1 (some 8) none 0).2 = PayGameResponse.gameNotFound := by
    rw [(payGame_guards exampleStore 1 none 0).2.1 8 (by simp [exampleStore])]
  exact ⟨h, (payGame_failure_state exampleStore 1 (some 8) none 0).1 (Or.inr (Or.inl h))⟩

/-- On a game whose roster is empty `pay-game` answers 403 You are not part of
this game: the participant check comes first. -/
theorem payGame_empty_roster (s : Store) (u : UserId) (gid : GameId) (game : Game)
    (tp : Option ℚ) (now : Nat) (hg : s.games gid = some game) (he : game.players = []) :
    payGame s u (some gid) tp now = (s, PayGameResponse.notParticipant) := by
  apply (payGame_guards s u tp now).2.2.1 gid game hg
  simp [populatedPlayers, he]

/-- C17 fails: game 7 of `vacantStore` exists and its player list is empty, and
pay-game answers NotAParticipant (403), not NoParticipants; the check
`players.length === 0` is never reached. -/
theorem empty_roster_not_participant :
    (vacantStore.games 7).map (fun g => g.players) = some [] ∧
    payGame vacantStore 1 (some 7) none 0 = (vacantStore, PayGameResponse.notParticipant) ∧
    (payGame vacantStore 1 (some 7) none 0).2 ≠ PayGameResponse.noPlayers := by
  have h := payGame_empty_roster vacantStore 1 7 vacantGame none 0 (by simp [vacantStore]) rfl
  refine ⟨by simp [vacantStore, vacantGame], h, ?_⟩
  rw [h]
  simp

/-- `pay-game` never answers No players in this game yet. -/
theorem payGame_never_noPlayers (s : Store) (u : UserId) (g : Option GameId) (tp : Option ℚ)
    (now : Nat) : (payGame s u g tp now).2 ≠ PayGameResponse.noPlayers := by
  rcases payGame_cases s u g tp now with ⟨_, he⟩ | ⟨g1, _, _, he⟩ |
    ⟨g1, game, _, _, _, he⟩ | ⟨g1, game, _, _, _, _, he⟩ |
    ⟨g1, game, games, price, _, _, _, _, hc⟩
  · rw [he]; simp
  · rw [he]; simp
  · rw [he]; simp
  · rw [he]; simp
  · rcases hc with ⟨_, he⟩ | ⟨_, _, he⟩ | ⟨_, _, he⟩ <;> rw [he] <;> simp

/-- `markPaid` rewrites the record `findPayment` returns, in place, and nothing
else. -/
theorem markPaid_spec (payments : List GamePayment) (gid : GameId) (share : ℚ) (now : Nat)
    (p : GamePayment) (h : findPayment payments gid = some p) :
    ∃ pre post, payments = pre ++ p :: post ∧ (∀ q ∈ pre, q.game ≠ gid) ∧ p.game = gid ∧
      markPaid payments gid share now =
        pre ++ { p with status := PaymentStatus.paid, amount := share, paidAt := some now } ::
          post := by
  induction payments with
  | nil => simp [findPayment] at h
  | cons x rest ih =>
    by_cases hx : x.game = gid
    · have hp : x = p := by
        simp [findPayment, List.find?, hx] at h
        exact h
      subst hp
      refine ⟨[], rest, rfl, by simp, hx, ?_⟩
      simp [markPaid, hx]
    · have hrest : findPayment rest gid = some p := by
        simp only [findPayment, List.find?, decide_eq_true_eq] at h ⊢
        simpa [hx] using h
      obtain ⟨pre, post, hr, hpre, hpg, hm⟩ := ih hrest
      refine ⟨x :: pre, post, by rw [hr]; rfl, ?_, hpg, ?_⟩
      · intro q hq
        rcases List.mem_cons.mp hq with hq | hq
        · rw [hq]; exact hx
        · exact hpre q hq
      · simp [markPaid, hx, hm]

/-- C18: for a caller on the (populated) roster whose record of the game is not
`paid`, once the price is settled, with the share
`s = Number((price / |players|).toFixed(2))`: the binary64 value of a decimal
`m / 100` within half a hundredth of the quotient the handler computed.  If the
wallet balance is below `s`, pay-game fails with InsufficientBalance reporting
`s` and the balance, and the wallet is as before (created empty when there was
none).  Otherwise the balance becomes the old balance minus `s`, as the
subtraction on Numbers gives it, exactly one transaction (payment, amount `s`,
the game) is appended, and the payment record of the game is `paid` with amount
`s`: an existing record is rewritten in place, otherwise one record is appended;
no other wallet changes.  When every player has a user document, `|players|` is
the length of the stored player list. -/
theorem payGame_payment (s : Store) (u : UserId) (gid : GameId) (game : Game)
    (tp : Option ℚ) (now : Nat) (s1 : Store) (price : ℚ)
    (hg : s.games gid = some game) (hm : u ∈ populatedPlayers s game)
    (hp : payGamePrice s gid game tp = some (s1, price))
    (hnot : ¬ ∃ p, findPayment ((s.wallets u).getD emptyWallet).payments gid = some p ∧
      p.status = PaymentStatus.paid) :
    (((s.wallets u).getD emptyWallet).balance <
        payShare s game price →
      (payGame s u (some gid) tp now).2 =
        PayGameResponse.insufficientBalance
          (payShare s game price)
          ((s.wallets u).getD emptyWallet).balance ∧
      (payGame s u (some gid) tp now).1.wallets =
        Function.update s.wallets u (some ((s.wallets u).getD emptyWallet))) ∧
    (payShare s game price ≤
        ((s.wallets u).getD emptyWallet).balance →
      (payGame s u (some gid) tp now).2 =
        PayGameResponse.paid (payShare s game price)
          (fsub ((s.wallets u).getD emptyWallet).balance (payShare s game price)) ∧
      (∀ v, v ≠ u → (payGame s u (some gid) tp now).1.wallets v = s.wallets v) ∧
      ∃ w, (payGame s u (some gid) tp now).1.wallets u = some w ∧
        w.balance = fsub ((s.wallets u).getD emptyWallet).balance (payShare s game price) ∧
        w.transactions = ((s.wallets u).getD emptyWallet).transactions ++
          [{ type := LegacyTxType.payment
             amount := payShare s game price
             description := "Payment for " ++ game.teamName
             game := some gid
             status := LegacyTxStatus.completed
             createdAt := now }] ∧
        (findPayment ((s.wallets u).getD emptyWallet).payments gid = none →
          w.payments = ((s.wallets u).getD emptyWallet).payments ++
            [{ game := gid
               amount := payShare s game price
               status := PaymentStatus.paid
               paidAt := some now }]) ∧
        (∀ p, findPayment ((s.wallets u).getD emptyWallet).payments gid = some p →
          ∃ pre post, ((s.wallets u).getD emptyWallet).payments = pre ++ p :: post ∧
            (∀ q ∈ pre, q.game ≠ gid) ∧
            w.payments = pre ++
              { p with
                status := PaymentStatus.paid
                amount := payShare s game price
                paidAt := some now } :: post)) ∧
    ((∀ p ∈ game.players, (s.users p).isSome = true) →
      (populatedPlayers s game).length = game.players.length) ∧
    (∃ m : ℤ, payShare s game price = fl ((m : ℚ) / 100) ∧
      |(m : ℚ) / 100 - fdiv price ((populatedPlayers s game).length : ℚ)| ≤ 1 / 200) := by
  refine ⟨?_, ?_, fun hall => by rw [populatedPlayers_eq s game hall],
    numberToFixed2_spec _⟩
  · intro hlt
    rcases payGame_cases s u (some gid) tp now with ⟨h, _⟩ | ⟨g1, h1, hn, _⟩ |
      ⟨g1, game1, h1, hg1, hn, _⟩ | ⟨g1, game1, h1, hg1, _, hp1, _⟩ |
      ⟨g1, game1, games, price1, h1, hg1, _, hp1, hc⟩
    · simp at h
    · simp only [Option.some.injEq] at h1; subst h1; rw [hg] at hn; simp at hn
    · simp only [Option.some.injEq] at h1; subst h1
      rw [hg] at hg1; simp only [Option.some.injEq] at hg1; subst hg1
      exact absurd hm hn
    · simp only [Option.some.injEq] at h1; subst h1
      rw [hg] at hg1; simp only [Option.some.injEq] at hg1; subst hg1
      rw [hp] at hp1; simp at hp1
    · simp only [Option.some.injEq] at h1; subst h1
      rw [hg] at hg1; simp only [Option.some.injEq] at hg1; subst hg1
      rw [hp] at hp1
      simp only [Option.some.injEq, Prod.mk.injEq] at hp1
      obtain ⟨_, hprice⟩ := hp1
      subst hprice
      rcases hc with ⟨hpaid, _⟩ | ⟨_, _, he⟩ | ⟨_, hle, _⟩
      · exact absurd hpaid hnot
      · rw [he]; exact ⟨rfl, rfl⟩
      · exact absurd hlt (not_lt.mpr hle)
  · intro hle
    rcases payGame_cases s u (some gid) tp now with ⟨h, _⟩ | ⟨g1, h1, hn, _⟩ |
      ⟨g1, game1, h1, hg1, hn, _⟩ | ⟨g1, game1, h1, hg1, _, hp1, _⟩ |
      ⟨g1, game1, games, price1, h1, hg1, _, hp1, hc⟩
    · simp at h
    · simp only [Option.some.injEq] at h1; subst h1; rw [hg] at hn; simp at hn
    · simp only [Option.some.injEq] at h1; subst h1
      rw [hg] at hg1; simp only [Option.some.injEq] at hg1; subst hg1
      exact absurd hm hn
    · simp only [Option.some.injEq] at h1; subst h1
      rw [hg] at hg1; simp only [Option.some.injEq] at hg1; subst hg1
      rw [hp] at hp1; simp at hp1
    · simp only [Option.some.injEq] at h1; subst h1
      rw [hg] at hg1; simp only [Option.some.injEq] at hg1; subst hg1
      rw [hp] at hp1
      simp only [Option.some.injEq, Prod.mk.injEq] at hp1
      obtain ⟨_, hprice⟩ := hp1
      subst hprice
      rcases hc with ⟨hpaid, _⟩ | ⟨_, hlt, _⟩ | ⟨_, _, he⟩
      · exact absurd hpaid hnot
      · exact absurd hlt (not_lt.mpr hle)
      · rw [he]
        refine ⟨rfl, ?_, ?_⟩
        · intro v hv
          simp only []
          rw [Function.update_noteq hv]
        · refine ⟨paidWallet ((s.wallets u).getD emptyWallet) gid game.teamName
            (payShare s game price) now, by simp, rfl, rfl, ?_, ?_⟩
          · intro hnone
            simp [paidWallet, hnone, payShare]
          · intro p hsome
            obtain ⟨pre, post, h1, h2, _, h4⟩ :=
              markPaid_spec ((s.wallets u).getD emptyWallet).payments gid
                (payShare s game price) now p hsome
            refine ⟨pre, post, h1, h2, ?_⟩
            simp only [paidWallet, hsome, Option.isSome_some, if_true]
            exact h4

/-- C18 on `fundedStore`: user 1, alone on the roster of game 7 (price 50), has
80 and no record; the payment is accepted with a share of 50 over 1 player. -/
theorem payGame_payment_witness :
    fundedStore.games 7 = some exampleGame ∧
    (1 : UserId) ∈ populatedPlayers fundedStore exampleGame ∧
    payGamePrice fundedStore 7 exampleGame none = some (fundedStore, 50) ∧
    (¬ ∃ p, findPayment ((fundedStore.wallets 1).getD emptyWallet).payments 7 = some p ∧
      p.status = PaymentStatus.paid) ∧
    payShare fundedStore exampleGame 50 ≤
      ((fundedStore.wallets 1).getD emptyWallet).balance ∧
    (payGame fundedStore 1 (some 7) none 9).2 =
      PayGameResponse.paid
        (payShare fundedStore exampleGame 50)
        (fsub ((fundedStore.wallets 1).getD emptyWallet).balance
          (payShare fundedStore exampleGame 50)) := by
  have hg : fundedStore.games 7 = some exampleGame := by simp [fundedStore, exampleStore]
  have hpop : populatedPlayers fundedStore exampleGame = [1] := by
    simp [populatedPlayers, fundedStore, exampleStore, emptyStore, exampleGame, List.filter]
  have hm : (1 : UserId) ∈ populatedPlayers fundedStore exampleGame := by rw [hpop]; simp
  have hp : payGamePrice fundedStore 7 exampleGame none = some (fundedStore, 50) :=
    payGamePrice_priced fundedStore 7 exampleGame none (by simp [exampleGame])
  have hnot : ¬ ∃ p, findPayment ((fundedStore.wallets 1).getD emptyWallet).payments 7 =
      some p ∧ p.status = PaymentStatus.paid := by
    simp [fundedStore, findPayment]
  have hle : payShare fundedStore exampleGame 50 ≤
      ((fundedStore.wallets 1).getD emptyWallet).balance := by
    unfold payShare
    rw [hpop]
    have h50 : numberToFixed2 (fdiv 50 (([1] : List UserId).length : ℚ)) = 50 :=
      numberToFixed2_fifty.2.1
    rw [h50]
    simp [fundedStore]
    norm_num
  exact ⟨hg, hm, hp, hnot, hle,
    ((payGame_payment fundedStore 1 7 exampleGame none 9 fundedStore 50 hg hm hp hnot).2.1
      hle).1⟩

/-! ## Claims on create-order -/

/-- C19: create-order validation.  With the gateway credentials configured, an
amount that is not a number, is `<= 0` or is `< 1` is refused with InvalidAmount
(400) and no order request is sent to the gateway; without credentials the
answer is GatewayUnavailable (503) for every input, and no request is sent. -/
theorem createOrder_validation (env : Env) (ordersCreate : OrderOptions → Option GatewayOrder)
    (u : UserId) (amount : Option ℚ) (now : Nat) :
    (env.razorpayConfigured →
      (amount = none ∨ ∃ a, amount = some a ∧ (a ≤ 0 ∨ a < 1)) →
      ∃ message, createOrder env ordersCreate u amount now =
        (CreateOrderResponse.invalidAmount message, none)) ∧
    (¬ env.razorpayConfigured →
      createOrder env ordersCreate u amount now =
        (CreateOrderResponse.gatewayUnavailable, none)) := by
  constructor
  · intro hc hbad
    unfold createOrder
    rw [if_neg (not_not.mpr hc)]
    rcases hbad with hnone | ⟨a, ha, hlow⟩
    · rw [hnone]; exact ⟨_, rfl⟩
    · rw [ha]
      simp only []
      by_cases h0 : a = 0 ∨ a ≤ 0
      · rw [if_pos h0]; exact ⟨_, rfl⟩
      · rw [if_neg h0]
        have h1 : a < 1 := by
          rcases hlow with h | h
          · exact absurd (Or.inr h) h0
          · exact h
        rw [if_pos h1]; exact ⟨_, rfl⟩
  · intro hc
    unfold createOrder
    rw [if_pos hc]

/-- C19 for an amount of -5 with credentials, and for any amount without. -/
theorem createOrder_validation_witness :
    exampleEnv.razorpayConfigured ∧
    ((some (-5) : Option ℚ) = none ∨ ∃ a, (some (-5) : Option ℚ) = some a ∧ (a ≤ 0 ∨ a < 1)) ∧
    (∃ message, createOrder exampleEnv exampleOrdersCreate 2 (some (-5)) 0 =
      (CreateOrderResponse.invalidAmount message, none)) ∧
    ¬ bareEnv.razorpayConfigured ∧
    createOrder bareEnv exampleOrdersCreate 2 (some 50) 0 =
      (CreateOrderResponse.gatewayUnavailable, none) := by
  have hbad : (some (-5) : Option ℚ) = none ∨
      ∃ a, (some (-5) : Option ℚ) = some a ∧ (a ≤ 0 ∨ a < 1) :=
    Or.inr ⟨-5, rfl, Or.inl (by norm_num)⟩
  have hbare : ¬ bareEnv.razorpayConfigured := by
    simp [Env.razorpayConfigured, bareEnv]
  exact ⟨exampleEnv_configured, hbad,
    (createOrder_validation exampleEnv exampleOrdersCreate 2 (some (-5)) 0).1
      exampleEnv_configured hbad, hbare,
    (createOrder_validation bareEnv exampleOrdersCreate 2 (some 50) 0).2 hbare⟩

/-- The amount 1.4649999999999999 of a request body as a Number. -/
theorem fl_rupees1465 : fl (14649999999999999 / 10000000000000000) = rupees1465 := by
  rw [fl_of (14649999999999999 / 10000000000000000) 0 6597773454097776 (by norm_num)
    (by norm_num) (by norm_num) (by apply roundHalfEven_of_near <;> norm_num)]
  unfold rupees1465
  norm_num

/-- The product `1.4649999999999999 * 100` on Numbers is 146.5: the exact product
lies halfway between two binary64 values and goes to the even one, above. -/
theorem fmul_rupees1465 : fmul rupees1465 100 = 293 / 2 := by
  unfold fmul rupees1465
  rw [fl_of _ 7 5154510511013888 (by norm_num) (by norm_num) (by norm_num)
    (by
      have h : (412360840881111 / 281474976710656 * 100 : ℚ) / (2 : ℚ) ^ ((7 : ℤ) - 52) =
          ((5154510511013887 : ℤ) : ℚ) + 1 / 2 := by norm_num
      rw [h, roundHalfEven_tie]
      norm_num)]
  norm_num

/-- C20 as stated fails in the amount: for a requested amount of
1.4649999999999999 (received as the Number 1.46499999999999985789...) the order
request carries 147 paise, while the requested amount times 100 lies below 146.5,
whether taken as the decimal of the request or as the Number received, and its
nearest integer is 146. -/
theorem order_amount_rounds_product :
    fl (14649999999999999 / 10000000000000000) = rupees1465 ∧
    (∃ options, (createOrder exampleEnv exampleOrdersCreate 2 (some rupees1465) 0).2 =
        some options ∧ options.amount = 147) ∧
    |rupees1465 * 100 - 146| < 1 / 2 ∧
    |(14649999999999999 / 10000000000000000 : ℚ) * 100 - 146| < 1 / 2 := by
  refine ⟨fl_rupees1465, ⟨orderOptions exampleEnv 2 rupees1465 0, ?_, ?_⟩, ?_, ?_⟩
  · unfold createOrder
    rw [if_neg (not_not.mpr exampleEnv_configured)]
    simp only []
    rw [if_neg (by unfold rupees1465; norm_num), if_neg (by unfold rupees1465; norm_num)]
    cases exampleOrdersCreate (orderOptions exampleEnv 2 rupees1465 0) <;> rfl
  · simp only [orderOptions, fmul_rupees1465, mathRound]
    norm_num
  · unfold rupees1465
    rw [abs_lt]
    constructor <;> norm_num
  · rw [abs_lt]
    constructor <;> norm_num

/-- C20, amended: for every user id, timestamp and valid amount (a number
`>= 1`) with the credentials configured, the order request create-order sends
has a receipt equal to the first 40 characters of `wallet_<userId>_<timestamp>`
(so at most 40 long), currency INR, notes with the caller's id and the type
WALLET_TOPUP, and the amount `Math.round(amount * 100)`: the product on Numbers
of the requested amount and 100, rounded to the nearest integer with a tie going
up.  That integer is within a half of the product on Numbers, hence within a
half and half a binary64 spacing of the exact product. -/
theorem createOrder_request (env : Env) (ordersCreate : OrderOptions → Option GatewayOrder)
    (u : UserId) (a : ℚ) (now : Nat) (hc : env.razorpayConfigured) (ha : 1 ≤ a) :
    ∃ options, (createOrder env ordersCreate u (some a) now).2 = some options ∧
      options.receipt =
        String.mk
          (("wallet_" ++ env.objectIdString u ++ "_" ++ toString now).data.take 40) ∧
      options.receipt.length ≤ 40 ∧
      options.currency = "INR" ∧
      options.amount = ⌊fmul a 100 + 1 / 2⌋ ∧
      (options.amount : ℚ) ≤ fmul a 100 + 1 / 2 ∧ fmul a 100 - 1 / 2 < (options.amount : ℚ) ∧
      |(options.amount : ℚ) - a * 100| ≤ 1 / 2 + ulp (a * 100) / 2 ∧
      options.notesUserId = env.objectIdString u ∧
      options.notesType = "WALLET_TOPUP" := by
  have h0 : ¬ (a = 0 ∨ a ≤ 0) := by
    intro h
    rcases h with h | h <;> linarith
  have h1 : ¬ (a < 1) := not_lt.mpr ha
  have hlow : (⌊fmul a 100 + 1 / 2⌋ : ℚ) ≤ fmul a 100 + 1 / 2 := Int.floor_le _
  have hup : fmul a 100 - 1 / 2 < (⌊fmul a 100 + 1 / 2⌋ : ℚ) := by
    have := Int.lt_floor_add_one (fmul a 100 + 1 / 2)
    linarith
  refine ⟨orderOptions env u a now, ?_, rfl, ?_, rfl, rfl, hlow, hup, ?_, rfl, rfl⟩
  · unfold createOrder
    rw [if_neg (not_not.mpr hc)]
    simp only []
    rw [if_neg h0, if_neg h1]
    cases ordersCreate (orderOptions env u a now) <;> rfl
  · simp only [orderOptions, String.length]
    rw [List.length_take]
    exact Nat.min_le_left _ _
  · have herr := fl_error (a * 100)
    rw [abs_le] at herr ⊢
    unfold fmul at hlow hup
    have hamt : (orderOptions env u a now).amount = ⌊fl (a * 100) + 1 / 2⌋ := rfl
    rw [hamt]
    obtain ⟨e1, e2⟩ := herr
    constructor <;> linarith

/-- C20, amended, for user 2 asking for 50 rupees: 5000 paise. -/
theorem createOrder_request_witness :
    exampleEnv.razorpayConfigured ∧ (1 : ℚ) ≤ 50 ∧
    ∃ options, (createOrder exampleEnv exampleOrdersCreate 2 (some 50) 0).2 = some options ∧
      options.receipt =
        String.mk
          (("wallet_" ++ exampleEnv.objectIdString 2 ++ "_" ++ toString (0 : Nat)).data.take 40) ∧
      options.receipt.length ≤ 40 ∧
      options.currency = "INR" ∧
      options.amount = ⌊fmul 50 100 + 1 / 2⌋ ∧
      (options.amount : ℚ) ≤ fmul 50 100 + 1 / 2 ∧
      fmul 50 100 - 1 / 2 < (options.amount : ℚ) ∧
      |(options.amount : ℚ) - 50 * 100| ≤ 1 / 2 + ulp (50 * 100) / 2 ∧
      options.notesUserId = exampleEnv.objectIdString 2 ∧
      options.notesType = "WALLET_TOPUP" :=
  ⟨exampleEnv_configured, by norm_num,
    createOrder_request exampleEnv exampleOrdersCreate 2 50 0 exampleEnv_configured
      (by norm_num)⟩

/-! ## Claims on the ledger query -/

/-- C21: for a page `p >= 1` and a limit `l >= 1` (`p` is the `page` of the
query, 1 when it is absent, not a number or 0; `l` is the `limit` of the query,
10 when it is absent, not a number or 0, and 50 when it exceeds 50), the ledger
query returns the entries at positions `(p-1)*l .. p*l-1` of the caller's
entries ordered newest first by `createdAt` (only entries of the caller, all
from the ledger, in that order), with `page = p`, `limit = l`, `total` the
number of the caller's entries, `totalPages = ceil(total / l)`,
`hasNextPage = (p*l < total)` and `hasPrevPage = (p > 1)`; the page defaults to
1, the limit defaults to 10 and is capped at 50. -/
theorem getTransactions_page (s : Store) (u : UserId) (page limit : Option Int)
    (hp : 1 ≤ effectivePage page) (hl : 1 ≤ effectiveLimit limit) :
    ∃ transactions pg, getTransactions s u page limit = TransactionsResponse.ok transactions pg ∧
      transactions =
        ((userTransactions s u).drop
          ((effectivePage page - 1) * effectiveLimit limit).toNat).take
            (effectiveLimit limit).toNat ∧
      (userTransactions s u).Perm (s.ledger.filter (fun e => decide (e.user = u))) ∧
      (userTransactions s u).Sorted newerOrSame ∧
      (∀ e ∈ transactions, e.user = u ∧ e ∈ s.ledger) ∧
      transactions.Sorted newerOrSame ∧
      pg.page = effectivePage page ∧ pg.limit = effectiveLimit limit ∧
      pg.total = (s.ledger.filter (fun e => decide (e.user = u))).length ∧
      pg.totalPages = ⌈(pg.total : ℚ) / (effectiveLimit limit : ℚ)⌉ ∧
      (pg.hasNextPage = true ↔ effectivePage page * effectiveLimit limit < (pg.total : Int)) ∧
      (pg.hasPrevPage = true ↔ 1 < effectivePage page) ∧
      effectivePage none = 1 ∧ effectiveLimit none = 10 ∧
      (∀ n : Int, n ≠ 0 → effectiveLimit (some n) = min n 50) ∧
      effectiveLimit limit ≤ 50 ∧
      (∀ n : Int, n ≠ 0 → effectivePage (some n) = n) ∧
      effectivePage (some 0) = 1 ∧ effectiveLimit (some 0) = 10 := by
  have hskip : ¬ ((effectivePage page - 1) * effectiveLimit limit < 0) := by
    apply not_lt.mpr
    apply mul_nonneg <;> omega
  have hperm : (userTransactions s u).Perm (s.ledger.filter (fun e => decide (e.user = u))) :=
    List.perm_insertionSort newerOrSame _
  have hsorted : (userTransactions s u).Sorted newerOrSame :=
    List.sorted_insertionSort newerOrSame _
  have hnat : (effectiveLimit limit).natAbs = (effectiveLimit limit).toNat := by omega
  refine ⟨((userTransactions s u).drop
      ((effectivePage page - 1) * effectiveLimit limit).toNat).take (effectiveLimit limit).toNat,
    pagination (effectivePage page) (effectiveLimit limit)
      (s.ledger.filter (fun e : WalletTransaction => decide (e.user = u))).length,
    ?_, rfl, hperm, hsorted, ?_, ?_, rfl, rfl, rfl, rfl, ?_, ?_, rfl, rfl, ?_, ?_, ?_,
    rfl, rfl⟩
  · unfold getTransactions
    simp only []
    rw [if_neg hskip, hnat]
  · intro e he
    have h1 : e ∈ userTransactions s u :=
      List.mem_of_mem_drop (List.mem_of_mem_take he)
    have h2 := (hperm.mem_iff).mp h1
    rw [List.mem_filter] at h2
    exact ⟨by simpa using h2.2, h2.1⟩
  · exact (hsorted.sublist (List.drop_sublist _ _)).sublist (List.take_sublist _ _)
  · simp [pagination]
  · simp [pagination]
  · intro n hn
    simp [effectiveLimit, orDefault, hn]
  · exact min_le_right _ _
  · intro n hn
    simp [effectivePage, orDefault, hn]

/-- The entries of user 2 in `busyStore`, newest first. -/
theorem busyStore_userTransactions :
    userTransactions busyStore 2 =
      [addMoneyEntry 2 "order_3" "pay_3" 30 3, addMoneyEntry 2 "order_2" "pay_2" 20 2,
       addMoneyEntry 2 "order_1" "pay_1" 50 1] := by
  simp [userTransactions, busyStore, addMoneyEntry, List.filter, List.insertionSort,
    List.orderedInsert, newerOrSame]

/-- C21 on `busyStore`: the second page of two of the three entries of user 2
holds the oldest entry. -/
theorem getTransactions_page_witness :
    1 ≤ effectivePage (some 2) ∧ 1 ≤ effectiveLimit (some 2) ∧
    ∃ pg, getTransactions busyStore 2 (some 2) (some 2) =
        TransactionsResponse.ok [addMoneyEntry 2 "order_1" "pay_1" 50 1] pg ∧
      pg.page = 2 ∧ pg.limit = 2 ∧ pg.total = 3 ∧ pg.hasNextPage = false ∧
      pg.hasPrevPage = true := by
  have hp : 1 ≤ effectivePage (some 2) := by decide
  have hl : 1 ≤ effectiveLimit (some 2) := by decide
  obtain ⟨transactions, pg, hres, htx, _, _, _, _, h1, h2, h3, _, h5, h6, _⟩ :=
    getTransactions_page busyStore 2 (some 2) (some 2) hp hl
  have e1 : effectivePage (some 2) = 2 := by decide
  have e2 : effectiveLimit (some 2) = 2 := by decide
  have htotal : pg.total = 3 := by
    rw [h3]; simp [busyStore, addMoneyEntry, List.filter]
  refine ⟨hp, hl, pg, ?_, by rw [h1, e1], by rw [h2, e2], htotal, ?_, ?_⟩
  · rw [hres, htx, busyStore_userTransactions, e1, e2]
    rfl
  · cases hb : pg.hasNextPage
    · rfl
    · rw [h5, e1, e2, htotal] at hb; exact absurd hb (by decide)
  · rw [h6, e1]; decide

/-- C30: the pagination flags agree with the page count.  For every page (in
particular every page `>= 1`), limit `>= 1` and total, `hasNextPage`
(`page * limit < total`) holds exactly when `page < totalPages` with
`totalPages = ceil(total / limit)`; and the effective limit is at most 50
whatever limit is requested. -/
theorem pagination_flags (page limit : Int) (total : Nat) (hl : 1 ≤ limit) :
    ((pagination page limit total).hasNextPage = true ↔
      page < (pagination page limit total).totalPages) ∧
    ((pagination page limit total).hasNextPage = true ↔ page * limit < (total : Int)) ∧
    (pagination page limit total).totalPages = ⌈(total : ℚ) / (limit : ℚ)⌉ ∧
    ∀ requested, effectiveLimit requested ≤ 50 := by
  have hlq : (0 : ℚ) < (limit : ℚ) := by exact_mod_cast (by omega : (0 : Int) < limit)
  have key : page * limit < (total : Int) ↔ page < ⌈(total : ℚ) / (limit : ℚ)⌉ := by
    rw [Int.lt_ceil, lt_div_iff₀ hlq]
    constructor
    · intro h; exact_mod_cast h
    · intro h; exact_mod_cast h
  refine ⟨?_, ?_, rfl, fun _ => min_le_right _ _⟩
  · simp only [pagination, decide_eq_true_eq]
    exact key
  · simp only [pagination, decide_eq_true_eq]

/-- C30 for page 1, limit 2 and 3 entries: there is a next page and 1 < 2 pages. -/
theorem pagination_flags_witness :
    (1 : Int) ≤ 2 ∧
    ((pagination 1 2 3).hasNextPage = true ↔ 1 < (pagination 1 2 3).totalPages) ∧
    (pagination 1 2 3).hasNextPage = true :=
  ⟨by decide, (pagination_flags 1 2 3 (by decide)).1, by decide⟩

/-! ## Claims on the ledger-based game status -/

/-- An entry is among the DEBIT / GAME_JOIN entries of a game exactly when it is
such an entry of the ledger. -/
theorem mem_gameJoinTransactions (ledger : List WalletTransaction) (gid : GameId)
    (e : WalletTransaction) :
    e ∈ gameJoinTransactions ledger gid ↔
      e ∈ ledger ∧ e.game = some gid ∧ e.type = TxType.DEBIT ∧
        e.reason = TxReason.GAME_JOIN := by
  simp [gameJoinTransactions, List.mem_filter]

/-- `transactionMap[userId]` is defined exactly when some entry is of the user,
and it is then an entry of the user. -/
theorem transactionOf_spec (transactions : List WalletTransaction) (p : UserId) :
    (transactions.any (fun t => decide (t.user = p)) = true ↔
      ∃ e, transactionOf transactions p = some e) ∧
    (∀ e, transactionOf transactions p = some e → e ∈ transactions ∧ e.user = p) ∧
    (transactions.any (fun t => decide (t.user = p)) = true ↔
      ∃ e ∈ transactions, e.user = p) := by
  have hmem : ∀ e, transactionOf transactions p = some e → e ∈ transactions ∧ e.user = p := by
    intro e he
    have h := List.mem_of_getLast?_eq_some he
    rw [List.mem_filter] at h
    exact ⟨h.1, by simpa using h.2⟩
  have hany : transactions.any (fun t => decide (t.user = p)) = true ↔
      ∃ e ∈ transactions, e.user = p := by
    simp [List.any_eq_true]
  refine ⟨?_, hmem, hany⟩
  rw [hany]
  constructor
  · rintro ⟨e, he, hu⟩
    cases hl : transactionOf transactions p with
    | some x => exact ⟨x, rfl⟩
    | none =>
      unfold transactionOf at hl
      rw [List.getLast?_eq_none_iff] at hl
      have : e ∈ transactions.filter (fun t => decide (t.user = p)) := by
        rw [List.mem_filter]; exact ⟨he, by simpa using hu⟩
      rw [hl] at this
      exact absurd this (List.not_mem_nil e)
  · rintro ⟨e, he⟩
    exact ⟨e, (hmem e he).1, (hmem e he).2⟩

/-- C22 as stated fails: game 7 of `danglingStore` has two players, one of them
without a user document, and the status response holds a single record. -/
theorem status_skips_missing_user :
    (danglingStore.games 7).map (fun g => g.players) = some [1, 9] ∧
    ∃ total perPlayer records, ledgerGameStatus danglingStore 7 =
        GameStatusResponse.ok 7 total perPlayer records ∧
      records.map (fun r => r.userId) = [1] := by
  refine ⟨by simp [danglingStore, fullGame], ?_⟩
  have hpop : populatedPlayers danglingStore fullGame = [1] := by
    simp [populatedPlayers, danglingStore, emptyStore, fullGame, List.filter]
  unfold ledgerGameStatus
  have hg : danglingStore.games 7 = some fullGame := by simp [danglingStore]
  rw [hg]
  simp only []
  rw [hpop]
  exact ⟨_, _, _, rfl, rfl⟩

/-- C22, amended: for an existing game the ledger-based status returns exactly
one record per player whose user document exists, in roster order (one per
player of the game when every player has a user document).  The status of a
record is `paid` exactly when the ledger holds an entry with type DEBIT, reason
GAME_JOIN, that game and that user; otherwise it is `pending` with amount 0 and
no `paidAt`; for a paid record amount and `paidAt` are those of such an entry.
`amountPerPlayer` is `turfPrice / teamSize` to 2 decimals, and 0 when `turfPrice`
is unset. -/
theorem ledgerGameStatus_records (s : Store) (gid : GameId) (game : Game)
    (hg : s.games gid = some game) :
    ∃ records, ledgerGameStatus s gid =
        GameStatusResponse.ok gid game.turfPrice
          (if game.turfPrice ≠ 0 ∧ game.teamSize ≠ 0 then
            toFixed2 (fdiv game.turfPrice game.teamSize) else 0) records ∧
      records.map (fun r => r.userId) = populatedPlayers s game ∧
      ((∀ p ∈ game.players, (s.users p).isSome = true) →
        records.map (fun r => r.userId) = game.players) ∧
      ∀ r ∈ records,
        (r.status = PaymentStatus.paid ↔
          ∃ e ∈ s.ledger, e.type = TxType.DEBIT ∧ e.reason = TxReason.GAME_JOIN ∧
            e.game = some gid ∧ e.user = r.userId) ∧
        (r.status ≠ PaymentStatus.paid →
          r.status = PaymentStatus.pending ∧ r.amount = 0 ∧ r.paidAt = none) ∧
        (r.status = PaymentStatus.paid →
          ∃ e ∈ s.ledger, e.type = TxType.DEBIT ∧ e.reason = TxReason.GAME_JOIN ∧
            e.game = some gid ∧ e.user = r.userId ∧ r.amount = e.amount ∧
            r.paidAt = some e.createdAt) := by
  unfold ledgerGameStatus
  rw [hg]
  simp only []
  refine ⟨_, rfl, ?_, ?_, ?_⟩
  · rw [List.map_map]
    exact List.map_id' _
  · intro hall
    rw [List.map_map, populatedPlayers_eq s game hall]
    exact List.map_id' _
  · intro r hr
    rw [List.mem_map] at hr
    obtain ⟨p, _, hrp⟩ := hr
    obtain ⟨h1, h2, h3⟩ := transactionOf_spec (gameJoinTransactions s.ledger gid) p
    subst hrp
    simp only []
    by_cases hany : (gameJoinTransactions s.ledger gid).any (fun t => decide (t.user = p)) = true
    · obtain ⟨e, he⟩ := h1.mp hany
      obtain ⟨hemem, heu⟩ := h2 e he
      obtain ⟨hl, hgame, hty, hre⟩ := (mem_gameJoinTransactions s.ledger gid e).mp hemem
      rw [if_pos hany, he]
      refine ⟨⟨fun _ => ⟨e, hl, hty, hre, hgame, heu⟩, fun _ => rfl⟩, fun h => absurd rfl h,
        fun _ => ⟨e, hl, hty, hre, hgame, heu, rfl, rfl⟩⟩
    · have hnone : transactionOf (gameJoinTransactions s.ledger gid) p = none := by
        cases hl : transactionOf (gameJoinTransactions s.ledger gid) p with
        | none => rfl
        | some x => exact absurd (h1.mpr ⟨x, hl⟩) hany
      rw [if_neg hany, hnone]
      refine ⟨⟨fun h => by simp at h, ?_⟩, fun _ => ⟨rfl, rfl, rfl⟩, fun h => by simp at h⟩
      rintro ⟨e, hl, hty, hre, hgame, heu⟩
      exfalso
      apply hany
      rw [h3]
      exact ⟨e, (mem_gameJoinTransactions s.ledger gid e).mpr ⟨hl, hgame, hty, hre⟩, heu⟩

/-- C22, amended, on `exampleStore`: game 7 exists and the status lists its
populated roster. -/
theorem ledgerGameStatus_records_witness :
    exampleStore.games 7 = some exampleGame ∧
    ∃ records, ledgerGameStatus exampleStore 7 =
        GameStatusResponse.ok 7 exampleGame.turfPrice
          (if exampleGame.turfPrice ≠ 0 ∧ exampleGame.teamSize ≠ 0 then
            toFixed2 (fdiv exampleGame.turfPrice exampleGame.teamSize) else 0) records ∧
      records.map (fun r => r.userId) = populatedPlayers exampleStore exampleGame := by
  have hg : exampleStore.games 7 = some exampleGame := by simp [exampleStore]
  obtain ⟨records, h1, h2, _⟩ := ledgerGameStatus_records exampleStore 7 exampleGame hg
  exact ⟨hg, records, h1, h2⟩

/-! ## Claims on rosters -/

/-- A roster without its occurrences of a user has no duplicates when the roster
had none. -/
theorem nodup_filter_ne (players : List UserId) (u : UserId) (h : players.Nodup) :
    (players.filter (fun p => decide (p ≠ u))).Nodup :=
  h.filter _

/-- A roster followed by a user who was not on it has no duplicates when the
roster had none. -/
theorem nodup_append_new (players : List UserId) (u : UserId) (h : players.Nodup)
    (hn : u ∉ players) : (players ++ [u]).Nodup := by
  rw [List.nodup_append]
  refine ⟨h, List.nodup_singleton u, ?_⟩
  intro a ha hb
  rw [List.mem_singleton] at hb
  subst hb
  exact hn ha

/-- Writing a game with a duplicate-free roster keeps every roster
duplicate-free. -/
theorem update_nodup (games : GameId → Option Game) (gid : GameId) (x : Game)
    (h : ∀ g game, games g = some game → game.players.Nodup) (hx : x.players.Nodup) :
    ∀ g game, Function.update games gid (some x) g = some game → game.players.Nodup := by
  intro g game hgame
  by_cases hg : g = gid
  · subst hg
    simp only [Function.update_same, Option.some.injEq] at hgame
    rw [← hgame]; exact hx
  · rw [Function.update_noteq hg] at hgame
    exact h g game hgame

/-- Serving a request other than add-player keeps every roster
duplicate-free. -/
theorem step_nodup (env : Env) (s : Store) (op : Op) (hop : op.isAddPlayer = false)
    (h : ∀ g game, s.games g = some game → game.players.Nodup) :
    ∀ g game, (step env s op).games g = some game → game.players.Nodup := by
  cases op with
  | createGame u req newId =>
    simp only [step]
    unfold createGame
    split
    · exact h
    · split
      · exact h
      · split
        · exact h
        · exact update_nodup s.games newId _ h (by simp [Game.preSave])
  | joinGame u gid =>
    simp only [step]
    unfold joinGame
    split
    · exact h
    · rename_i game hg
      split
      · exact h
      · split
        · exact h
        · rename_i hn
          exact update_nodup s.games gid _ h
            (by simpa [Game.preSave] using nodup_append_new game.players u (h gid game hg) hn)
  | leaveGame u gid =>
    simp only [step]
    unfold leaveGame
    split
    · exact h
    · rename_i game hg
      simp only []
      split
      · exact h
      · exact update_nodup s.games gid _ h
          (by simpa [Game.preSave] using nodup_filter_ne game.players u (h gid game hg))
  | kickPlayer u gid q =>
    simp only [step]
    unfold kickPlayer
    split
    · exact h
    · rename_i game hg
      split
      · exact h
      · split
        · exact h
        · simp only []
          split
          · exact h
          · exact update_nodup s.games gid _ h
              (by simpa [Game.preSave] using nodup_filter_ne game.players q (h gid game hg))
  | addPlayer u gid t => simp [Op.isAddPlayer] at hop
  | autoJoin u filters found =>
    simp only [step]
    unfold autoJoin
    split
    · exact h
    · split
      · exact h
      · rename_i gid _ game hg
        split
        · rename_i hq
          exact update_nodup s.games gid _ h
            (by simpa [Game.preSave] using
              nodup_append_new game.players u (h gid game hg) hq.2.2.2.1)
        · exact h
  | joinWithWallet u gid now =>
    rcases joinWithWallet_cases s u gid now with ⟨he, _⟩ |
      ⟨game, user, hg, _, _, _, hn, _, _, heq⟩
    · simp only [step, he]; exact h
    · simp only [step, heq, joinedStore]
      exact update_nodup s.games gid _ h
        (by simpa [Game.preSave] using nodup_append_new game.players u (h gid game hg) hn)
  | verifyAndCredit gw u o p sig now =>
    rcases verifyAndCredit_cases env gw s u o p sig now with
      ⟨he, _⟩ | ⟨user, amount, calls, _, _, _, _, _, heq⟩
    · simp only [step, he]; exact h
    · simp only [step, heq, creditedStore]; exact h
  | topup u a now =>
    obtain ⟨w, he⟩ := topup_frame s u a now
    simp only [step, he]; exact h
  | payGame u g tp now =>
    simp only [step]
    cases g with
    | none => rw [(payGame_guards s u tp now).1]; exact h
    | some gid =>
      rcases payGame_games_cases s u gid tp now with he | ⟨game, p, hg, _, _, _, _, he⟩
      · rw [he]; exact h
      · rw [he]
        exact update_nodup s.games gid _ h (by simpa [pricedGame] using h gid game hg)

/-- Serving a sequence of requests without add-player keeps every roster
duplicate-free. -/
theorem run_nodup (env : Env) (ops : List Op) :
    ∀ s, (∀ op ∈ ops, op.isAddPlayer = false) →
      (∀ g game, s.games g = some game → game.players.Nodup) →
      ∀ g game, (run env s ops).games g = some game → game.players.Nodup := by
  induction ops with
  | nil => intro s _ h; exact h
  | cons op rest ih =>
    intro s hops h
    exact ih (step env s op) (fun o ho => hops o (List.mem_cons_of_mem _ ho))
      (step_nodup env s op (hops op (List.mem_cons_self _ _)) h)

/-- A join or a join-with-wallet for a user who is on the roster fails and
leaves the store as it was, and so does an add-player whose body carries the
text `toString()` prints for that user. -/
theorem member_join_refused (env : Env) (t : Store) (u : UserId) (g : GameId) (game : Game)
    (hg : t.games g = some game) (hu : u ∈ game.players) :
    ((joinGame t u g).1 = t ∧ ∀ y, (joinGame t u g).2 ≠ RosterResponse.ok y) ∧
    (∀ caller, (addPlayer env t caller g (some (env.objectIdString u))).1 = t ∧
      ∀ y, (addPlayer env t caller g (some (env.objectIdString u))).2 ≠
        RosterResponse.ok y) ∧
    (∀ now, (joinWithWallet t u g now).1 = t ∧
      ∀ b a n k, (joinWithWallet t u g now).2 ≠ JoinWalletResponse.joined b a n k) := by
  refine ⟨?_, ?_, ?_⟩
  · unfold joinGame
    rw [hg]
    simp only []
    split
    · exact ⟨rfl, fun y h => by simp at h⟩
    · exact ⟨rfl, fun y h => by simp at h⟩
  · intro caller
    have hany : game.players.any (fun p => decide (env.objectIdString p =
        env.objectIdString u)) = true := by
      rw [List.any_eq_true]
      exact ⟨u, hu, by simp⟩
    unfold addPlayer
    simp only []
    split
    · exact ⟨rfl, fun y h => by simp at h⟩
    · rw [hg]
      simp only []
      split
      · exact ⟨rfl, fun y h => by simp at h⟩
      · exact ⟨rfl, fun y h => by simp at h⟩
  · intro now
    rcases joinWithWallet_cases t u g now with h | ⟨game1, user, hg1, _, _, _, hn, _⟩
    · exact h
    · rw [hg] at hg1
      simp only [Option.some.injEq] at hg1
      subst hg1
      exact absurd hu hn

/-- A game `POST /api/games` creates has its creator as only player. -/
theorem createGame_players (env : Env) (s : Store) (u : UserId) (req : CreateGameRequest)
    (newId id : GameId) (game : Game)
    (h : (createGame env s u req newId).2 = CreateGameResponse.created id game) :
    game.players = [u] ∧ game.derived ∧ game.teamSize = req.teamSize ∧ 1 ≤ game.teamSize ∧
      (createGame env s u req newId).1.games newId = some game := by
  unfold createGame at h ⊢
  by_cases h1 : req.teamName = "" ∨ req.teamSize = 0 ∨ req.gameType = "" ∨
      req.turfLocation = "" ∨ req.turfDateTime = ""
  · rw [if_pos h1] at h; simp at h
  · rw [if_neg h1] at h ⊢
    cases hd : env.parseDate req.turfDateTime with
    | none => rw [hd] at h; simp at h
    | some date =>
      rw [hd] at h
      simp only [] at h ⊢
      by_cases h2 : trim req.teamName = "" ∨ trim req.gameType = "" ∨
          trim req.turfLocation = "" ∨ req.teamSize < 1 ∨ (s.games newId).isSome = true
      · rw [if_pos h2] at h; simp at h
      · rw [if_neg h2] at h ⊢
        simp only [CreateGameResponse.created.injEq] at h
        rw [← h.2]
        refine ⟨by simp [Game.preSave], preSave_derived _, by simp [Game.preSave], ?_, by simp⟩
        simp only [Game.preSave]
        exact not_lt.mp (fun hlt => h2 (Or.inr (Or.inr (Or.inr (Or.inl hlt)))))

/-- In `exampleEnv` the id 10 prints in lower case, and its upper-case text
casts to the same id. -/
theorem upperCaseId_casts :
    exampleEnv.objectIdString 1 = "000000000000000000000001" ∧
    exampleEnv.objectIdString 10 = "00000000000000000000000a" ∧
    exampleEnv.castObjectId upperCaseId = some 10 := by
  refine ⟨?_, ?_, ?_⟩ <;> decide

/-- Creating `trioRequest` on `clubStore` under id 7. -/
theorem trio_created :
    (createGame exampleEnv clubStore 1 trioRequest 7).1 =
      { clubStore with games := fun g => if g = 7 then some trioGame else none } := by
  have t1 : trim "Kickers" = "Kickers" := by decide
  have t2 : trim "football" = "football" := by decide
  have t3 : trim "Indiranagar" = "Indiranagar" := by decide
  simp [createGame, exampleEnv, clubStore, emptyStore, trioRequest, exampleRequest, trioGame,
    exampleGame, Game.preSave, t1, t2, t3]
  funext g
  by_cases h : g = 7
  · subst h; simp; norm_num
  · simp [Function.update_noteq h, h]

/-- User 10 joins the game for three. -/
theorem trio_joined :
    (joinGame { clubStore with games := fun g => if g = 7 then some trioGame else none }
      10 7).1 = pairStore := by
  have hg : ({ clubStore with
      games := fun g => if g = 7 then some trioGame else none } : Store).games 7 =
      some trioGame := by simp
  unfold joinGame
  rw [hg]
  simp only []
  rw [if_neg (by simp [trioGame, exampleGame]), if_neg (by simp [trioGame, exampleGame])]
  simp only [pairStore]
  congr 1
  funext g
  by_cases h : g = 7
  · subst h
    simp [Game.preSave, pairGame, trioGame, exampleGame]
    norm_num
  · simp [Function.update_noteq h, h]

/-- The store after the creation and the join is `pairStore`. -/
theorem pairStore_reached :
    run exampleEnv clubStore [Op.createGame 1 trioRequest 7, Op.joinGame 10 7] = pairStore := by
  simp only [run, List.foldl, step]
  rw [trio_created, trio_joined]

/-- The add-player request with the upper-case text is accepted and appends
user 10 to the roster that holds user 10. -/
theorem upper_added :
    addPlayer exampleEnv pairStore 1 7 (some upperCaseId) =
      ({ pairStore with
          games := Function.update pairStore.games 7
            (some (Game.preSave { pairGame with players := [1, 10, 10] })) },
        RosterResponse.ok (Game.preSave { pairGame with players := [1, 10, 10] })) := by
  obtain ⟨h1, h10, hcast⟩ := upperCaseId_casts
  have hne1 : ¬ ("000000000000000000000001" = upperCaseId) := by decide
  have hne10 : ¬ ("00000000000000000000000a" = upperCaseId) := by decide
  have hne : ¬ (upperCaseId = "") := by decide
  have hg : pairStore.games 7 = some pairGame := by simp [pairStore]
  have hu : pairStore.users 10 = some (exampleUser 0) := by simp [pairStore, clubStore]
  unfold addPlayer
  simp only []
  rw [if_neg hne, hg]
  simp only []
  rw [if_neg (by simp [pairGame, trioGame, exampleGame])]
  have hany : ¬ (pairGame.players.any
      (fun p => decide (exampleEnv.objectIdString p = upperCaseId)) = true) := by
    simp only [pairGame, List.any_cons, List.any_nil, h1, h10]
    simp [hne1, hne10]
  rw [if_neg hany, if_neg (by simp [pairGame]), hcast]
  simp only []
  rw [hu]
  simp [pairGame]

/-- C23 fails on add-player: user 1 creates a game for three, user 10 joins, and
user 1 adds a player with the id of user 10 written in upper case.  The
membership test compares texts and lets the request pass, `User.findById` casts
the text to the id of user 10, and that id is pushed a second time: the request
is answered with success and the roster is `[1, 10, 10]`. -/
theorem addPlayer_pushes_member_again :
    run exampleEnv clubStore [Op.createGame 1 trioRequest 7, Op.joinGame 10 7] = pairStore ∧
    (pairStore.games 7).map (fun game => game.players) = some [1, 10] ∧
    exampleEnv.objectIdString 10 = "00000000000000000000000a" ∧
    exampleEnv.castObjectId upperCaseId = some 10 ∧
    (∃ game,
      (addPlayer exampleEnv pairStore 1 7 (some upperCaseId)).2 = RosterResponse.ok game ∧
      game.players = [1, 10, 10]) ∧
    ((run exampleEnv clubStore trioOps).games 7).map (fun game => game.players) =
      some [1, 10, 10] := by
  obtain ⟨_, h10, hcast⟩ := upperCaseId_casts
  refine ⟨pairStore_reached, by simp [pairStore, pairGame], h10, hcast, ?_, ?_⟩
  · rw [upper_added]
    exact ⟨_, rfl, by simp [Game.preSave]⟩
  · have hrun : run exampleEnv clubStore trioOps =
        (addPlayer exampleEnv
          (run exampleEnv clubStore [Op.createGame 1 trioRequest 7, Op.joinGame 10 7])
          1 7 (some upperCaseId)).1 := rfl
    rw [hrun, pairStore_reached, upper_added]
    simp [Game.preSave]

/-! ## Claims on capacity -/

/-- After a write under `gid`, a game document is the one before, or it is the
written one and `gid` is its id. -/
theorem update_at (games : GameId → Option Game) (gid g : GameId) (x game : Game)
    (hg : games g = some game) :
    Function.update games gid (some x) g = some game ∨
      (gid = g ∧ Function.update games gid (some x) g = some x) := by
  by_cases h : g = gid
  · subst h; right; exact ⟨rfl, by simp⟩
  · left; rw [Function.update_noteq h]; exact hg

/-- What a request other than pay-game does to a game: nothing, or one user is
appended while a spot was available, or the occurrences of one user are removed;
the rest of the document is kept up to `captain` and the derived fields the
`pre('save')` hook recomputes. -/
theorem step_game_cases (env : Env) (s : Store) (op : Op) (hop : op.isPayGame = false)
    (g : GameId) (game : Game) (hg : s.games g = some game) :
    (step env s op).games g = some game ∨
    (∃ u, 0 < game.availableSpots ∧
      (step env s op).games g =
        some (Game.preSave { game with players := game.players ++ [u] })) ∨
    (∃ u captain, (step env s op).games g =
      some (Game.preSave { game with
        players := game.players.filter (fun p => decide (p ≠ u)), captain := captain })) := by
  cases op with
  | createGame u req newId =>
    simp only [step]
    unfold createGame
    split
    · exact Or.inl hg
    · split
      · exact Or.inl hg
      · split
        · exact Or.inl hg
        · rename_i hfree
          left
          have hne : g ≠ newId := by
            intro h; subst h; apply hfree; simp [hg]
          simp only []
          rw [Function.update_noteq hne]; exact hg
  | joinGame u gid =>
    simp only [step]
    unfold joinGame
    split
    · exact Or.inl hg
    · rename_i game1 hg1
      split
      · exact Or.inl hg
      · rename_i hopen
        split
        · exact Or.inl hg
        · rename_i hn
          rcases update_at s.games gid g
            (Game.preSave { game1 with players := game1.players ++ [u] }) game hg with h | ⟨he, h⟩
          · exact Or.inl h
          · subst he
            rw [hg] at hg1
            simp only [Option.some.injEq] at hg1
            subst hg1
            exact Or.inr (Or.inl ⟨u, lt_of_not_le (fun hle => hopen (Or.inr hle)), h⟩)
  | leaveGame u gid =>
    simp only [step]
    unfold leaveGame
    split
    · exact Or.inl hg
    · rename_i game1 hg1
      simp only []
      split
      · exact Or.inl hg
      · rcases update_at s.games gid g
          (Game.preSave { game1 with
            players := game1.players.filter (fun p => decide (p ≠ u)),
            captain := if game1.captain = some u then none else game1.captain }) game hg with
          h | ⟨he, h⟩
        · exact Or.inl h
        · subst he
          rw [hg] at hg1
          simp only [Option.some.injEq] at hg1
          subst hg1
          exact Or.inr (Or.inr ⟨u, _, h⟩)
  | kickPlayer u gid q =>
    simp only [step]
    unfold kickPlayer
    split
    · exact Or.inl hg
    · rename_i game1 hg1
      split
      · exact Or.inl hg
      · split
        · exact Or.inl hg
        · simp only []
          split
          · exact Or.inl hg
          · rcases update_at s.games gid g
              (Game.preSave { game1 with
                players := game1.players.filter (fun p => decide (p ≠ q)),
                captain := if game1.captain = some q then none else game1.captain }) game hg with
              h | ⟨he, h⟩
            · exact Or.inl h
            · subst he
              rw [hg] at hg1
              simp only [Option.some.injEq] at hg1
              subst hg1
              exact Or.inr (Or.inr ⟨q, _, h⟩)
  | addPlayer u gid t =>
    simp only [step]
    unfold addPlayer
    split
    · exact Or.inl hg
    · split
      · exact Or.inl hg
      · split
        · exact Or.inl hg
        · rename_i game1 hg1
          split
          · exact Or.inl hg
          · split
            · exact Or.inl hg
            · split
              · exact Or.inl hg
              · rename_i hspots
                split
                · exact Or.inl hg
                · rename_i q _
                  split
                  · exact Or.inl hg
                  · rcases update_at s.games gid g
                      (Game.preSave { game1 with players := game1.players ++ [q] }) game hg with
                      h | ⟨he, h⟩
                    · exact Or.inl h
                    · subst he
                      rw [hg] at hg1
                      simp only [Option.some.injEq] at hg1
                      subst hg1
                      exact Or.inr (Or.inl ⟨q, lt_of_not_le hspots, h⟩)
  | autoJoin u filters found =>
    simp only [step]
    unfold autoJoin
    split
    · exact Or.inl hg
    · split
      · exact Or.inl hg
      · rename_i gid _ game1 hg1
        split
        · rename_i hq
          rcases update_at s.games gid g
            (Game.preSave { game1 with players := game1.players ++ [u] }) game hg with h | ⟨he, h⟩
          · exact Or.inl h
          · subst he
            rw [hg] at hg1
            simp only [Option.some.injEq] at hg1
            subst hg1
            exact Or.inr (Or.inl ⟨u, hq.2.2.1, h⟩)
        · exact Or.inl hg
  | joinWithWallet u gid now =>
    rcases joinWithWallet_cases s u gid now with ⟨he, _⟩ |
      ⟨game1, user, hg1, _, _, hspots, hn, _, _, heq⟩
    · simp only [step, he]; exact Or.inl hg
    · simp only [step, heq, joinedStore]
      rcases update_at s.games gid g
        (Game.preSave { game1 with players := game1.players ++ [u] }) game hg with h | ⟨he, h⟩
      · exact Or.inl h
      · subst he
        rw [hg] at hg1
        simp only [Option.some.injEq] at hg1
        subst hg1
        exact Or.inr (Or.inl ⟨u, hspots, h⟩)
  | verifyAndCredit gw u o p sig now =>
    rcases verifyAndCredit_cases env gw s u o p sig now with
      ⟨he, _⟩ | ⟨user, amount, calls, _, _, _, _, _, heq⟩
    · simp only [step, he]; exact Or.inl hg
    · simp only [step, heq, creditedStore]; exact Or.inl hg
  | topup u a now =>
    obtain ⟨w, he⟩ := topup_frame s u a now
    simp only [step, he]; exact Or.inl hg
  | payGame u g tp now => simp [Op.isPayGame] at hop

/-- A request other than pay-game keeps a game with agreeing derived fields and
an integer `teamSize` within its capacity. -/
theorem step_capacity (env : Env) (s : Store) (op : Op) (hop : op.isPayGame = false)
    (g : GameId) (game : Game) (hg : s.games g = some game) (hd : game.derived)
    (hint : ∃ n : ℕ, game.teamSize = (n : ℚ))
    (hcap : (game.players.length : ℚ) ≤ game.teamSize) :
    ∃ game1, (step env s op).games g = some game1 ∧ game1.derived ∧
      (∃ n : ℕ, game1.teamSize = (n : ℚ)) ∧
      (game1.players.length : ℚ) ≤ game1.teamSize := by
  rcases step_game_cases env s op hop g game hg with h | ⟨u, hspots, h⟩ | ⟨u, captain, h⟩
  · exact ⟨game, h, hd, hint, hcap⟩
  · refine ⟨_, h, preSave_derived _, hint, ?_⟩
    obtain ⟨n, hn⟩ := hint
    simp only [Game.preSave, List.length_append, List.length_singleton]
    rw [hd.1, hn] at hspots
    rw [hn]
    have hlt : (game.players.length : ℚ) < (n : ℚ) := by linarith
    have hlt' : game.players.length < n := by exact_mod_cast hlt
    exact_mod_cast hlt'
  · refine ⟨_, h, preSave_derived _, hint, ?_⟩
    simp only [Game.preSave]
    have hle : (game.players.filter (fun p => decide (p ≠ u))).length ≤ game.players.length :=
      List.length_filter_le _ _
    have hle' : ((game.players.filter (fun p => decide (p ≠ u))).length : ℚ) ≤
        (game.players.length : ℚ) := by exact_mod_cast hle
    linarith

/-- A sequence of requests without pay-game keeps a game with agreeing derived
fields and an integer `teamSize` within its capacity. -/
theorem run_capacity (env : Env) (ops : List Op) (g : GameId) :
    ∀ (s : Store) (game : Game), (∀ op ∈ ops, op.isPayGame = false) →
      s.games g = some game → game.derived → (∃ n : ℕ, game.teamSize = (n : ℚ)) →
      (game.players.length : ℚ) ≤ game.teamSize →
      ∃ game1, (run env s ops).games g = some game1 ∧ game1.derived ∧
        (∃ n : ℕ, game1.teamSize = (n : ℚ)) ∧
        (game1.players.length : ℚ) ≤ game1.teamSize := by
  induction ops with
  | nil => intro s game _ hg hd hint hcap; exact ⟨game, hg, hd, hint, hcap⟩
  | cons op rest ih =>
    intro s game hops hg hd hint hcap
    obtain ⟨game1, h1, hd1, hint1, hcap1⟩ :=
      step_capacity env s op (hops op (List.mem_cons_self _ _)) g game hg hd hint hcap
    exact ih (step env s op) game1 (fun o ho => hops o (List.mem_cons_of_mem _ ho))
      h1 hd1 hint1 hcap1

/-- C26: capacity is never exceeded.  For a game as `POST /api/games` creates it
with an integer `teamSize >= 1` (players `[creator]`, derived fields in
agreement), after any sequence of join, auto-join, add-player,
join-with-wallet, leave and kick requests (any requests but pay-game) the game
has `|players| <= teamSize`, and its stored `availableSpots` is
`teamSize - |players| >= 0`. -/
theorem capacity_never_exceeded (env : Env) (s : Store) (ops : List Op) (g : GameId)
    (game : Game) (creator : UserId) (n : ℕ)
    (hg : s.games g = some game) (hplayers : game.players = [creator])
    (hd : game.derived) (hsize : game.teamSize = (n : ℚ)) (hn : 1 ≤ n)
    (hops : ∀ op ∈ ops, op.isPayGame = false) :
    ∃ game1, (run env s ops).games g = some game1 ∧
      (game1.players.length : ℚ) ≤ game1.teamSize ∧
      game1.availableSpots = game1.teamSize - (game1.players.length : ℚ) ∧
      0 ≤ game1.availableSpots := by
  have hcap : (game.players.length : ℚ) ≤ game.teamSize := by
    rw [hplayers, hsize]
    simp only [List.length_singleton, Nat.cast_one]
    exact_mod_cast hn
  obtain ⟨game1, h1, hd1, _, hcap1⟩ :=
    run_capacity env ops g s game hops hg hd ⟨n, hsize⟩ hcap
  refine ⟨game1, h1, hcap1, hd1.1, ?_⟩
  rw [hd1.1]
  linarith

/-- C26 on `exampleStore`: game 7 is as its creation left it (team of 2, creator
alone); after a paid join, a leave and two joins it is within its capacity. -/
theorem capacity_never_exceeded_witness :
    exampleStore.games 7 = some exampleGame ∧ exampleGame.players = [1] ∧
    exampleGame.derived ∧ exampleGame.teamSize = ((2 : ℕ) : ℚ) ∧
    (∀ op ∈ [Op.joinWithWallet 2 7 10, Op.leaveGame 2 7, Op.joinGame 2 7, Op.joinGame 3 7],
      op.isPayGame = false) ∧
    ∃ game1, (run exampleEnv exampleStore
        [Op.joinWithWallet 2 7 10, Op.leaveGame 2 7, Op.joinGame 2 7, Op.joinGame 3 7]).games 7 =
          some game1 ∧
      (game1.players.length : ℚ) ≤ game1.teamSize ∧
      game1.availableSpots = game1.teamSize - (game1.players.length : ℚ) ∧
      0 ≤ game1.availableSpots := by
  have hg : exampleStore.games 7 = some exampleGame := by simp [exampleStore]
  have hd : exampleGame.derived := by
    simp [Game.derived, exampleGame]; norm_num
  have hsize : exampleGame.teamSize = ((2 : ℕ) : ℚ) := by simp [exampleGame]
  have hops : ∀ op ∈ [Op.joinWithWallet 2 7 10, Op.leaveGame 2 7, Op.joinGame 2 7,
      Op.joinGame 3 7], op.isPayGame = false := by simp [Op.isPayGame]
  exact ⟨hg, rfl, hd, hsize, hops,
    capacity_never_exceeded exampleEnv exampleStore _ 7 exampleGame 1 2 hg rfl hd hsize
      (by norm_num) hops⟩

/-! ## Claims on the payments list of the embedded wallet -/

/-- `markPaid` keeps the number of records of every game. -/
theorem markPaid_countP (payments : List GamePayment) (gid : GameId) (share : ℚ) (now : Nat)
    (g : GameId) :
    (markPaid payments gid share now).countP (fun p => decide (p.game = g)) =
      payments.countP (fun p => decide (p.game = g)) := by
  induction payments with
  | nil => rfl
  | cons x rest ih =>
    unfold markPaid
    by_cases hx : x.game = gid
    · rw [if_pos hx]
      simp only [List.countP_cons]
    · rw [if_neg hx]
      simp only [List.countP_cons, ih]

/-- When `findPayment` finds nothing the list has no record of the game. -/
theorem findPayment_none_countP (payments : List GamePayment) (gid : GameId)
    (h : findPayment payments gid = none) :
    payments.countP (fun p => decide (p.game = gid)) = 0 := by
  unfold findPayment at h
  rw [List.find?_eq_none] at h
  rw [List.countP_eq_zero]
  exact h

/-- The wallet `pay-game` saves has one record per game when the wallet it
loaded had. -/
theorem paidWallet_onePerGame (w : Wallet) (gid : GameId) (name : String) (share : ℚ)
    (now : Nat) (h : w.onePerGame) : (paidWallet w gid name share now).onePerGame := by
  intro g
  unfold paidWallet
  simp only []
  cases hf : findPayment w.payments gid with
  | some p =>
    simp only [Option.isSome_some, if_true]
    rw [markPaid_countP]
    exact h g
  | none =>
    simp only [Option.isSome_none, Bool.false_eq_true, if_false, List.countP_append,
      List.countP_cons, List.countP_nil]
    by_cases hg : gid = g
    · subst hg
      rw [findPayment_none_countP w.payments gid hf]
      simp
    · have := h g
      simp [hg]
      exact this

/-- The wallet `getOrCreateWallet` returns has one record per game when the
stored one has. -/
theorem getD_onePerGame (s : Store) (u : UserId)
    (h : ∀ w, s.wallets u = some w → w.onePerGame) :
    ((s.wallets u).getD emptyWallet).onePerGame := by
  cases hw : s.wallets u with
  | none => intro g; simp [emptyWallet]
  | some w => exact h w hw

/-- A wallet store updated at the caller with a wallet that has one record per
game keeps that property at every user that had it. -/
theorem update_onePerGame (wallets : UserId → Option Wallet) (c u : UserId) (x : Wallet)
    (h : ∀ w, wallets u = some w → w.onePerGame) (hx : u = c → x.onePerGame) :
    ∀ w, Function.update wallets c (some x) u = some w → w.onePerGame := by
  intro w hw
  by_cases huc : u = c
  · subst huc
    rw [Function.update_same] at hw
    simp only [Option.some.injEq] at hw
    rw [← hw]
    exact hx rfl
  · rw [Function.update_noteq huc] at hw
    exact h w hw

/-- A `pay-game` call keeps one record per game in the wallet of every user. -/
theorem payGame_onePerGame (s : Store) (c : UserId) (g : Option GameId) (tp : Option ℚ)
    (now : Nat) (u : UserId) (h : ∀ w, s.wallets u = some w → w.onePerGame) :
    ∀ w, (payGame s c g tp now).1.wallets u = some w → w.onePerGame := by
  have hold : u = c → ((s.wallets c).getD emptyWallet).onePerGame := by
    intro huc; subst huc; exact getD_onePerGame s u h
  rcases payGame_cases s c g tp now with ⟨_, he⟩ | ⟨_, _, _, he⟩ | ⟨_, _, _, _, _, he⟩ |
    ⟨_, _, _, _, _, _, he⟩ | ⟨gid, game, games, price, _, _, _, _, hc⟩
  · rw [he]; exact h
  · rw [he]; exact h
  · rw [he]; exact h
  · rw [he]; exact h
  · rcases hc with ⟨_, he⟩ | ⟨_, _, he⟩ | ⟨_, _, he⟩
    · rw [he]; exact update_onePerGame s.wallets c u _ h hold
    · rw [he]; exact update_onePerGame s.wallets c u _ h hold
    · rw [he]
      exact update_onePerGame s.wallets c u _ h
        (fun huc => paidWallet_onePerGame _ gid _ _ now (hold huc))

/-- A `topup` call keeps one record per game in the wallet of every user. -/
theorem topup_onePerGame (s : Store) (c : UserId) (a : ℚ) (now : Nat) (u : UserId)
    (h : ∀ w, s.wallets u = some w → w.onePerGame) :
    ∀ w, (topup s c a now).1.wallets u = some w → w.onePerGame := by
  have hold : u = c → ((s.wallets c).getD emptyWallet).onePerGame := by
    intro huc; subst huc; exact getD_onePerGame s u h
  unfold topup
  rw [getOrCreateWallet_eq]
  split
  · exact h
  · simp only []
    split
    · exact update_onePerGame s.wallets c u _ h hold
    · simp only [Function.update_idem]
      exact update_onePerGame s.wallets c u _ h (fun huc g => hold huc g)

/-- Serving a request keeps one record per game in the wallet of every user. -/
theorem step_onePerGame (env : Env) (s : Store) (op : Op) (u : UserId)
    (h : ∀ w, s.wallets u = some w → w.onePerGame) :
    ∀ w, (step env s op).wallets u = some w → w.onePerGame := by
  cases op with
  | createGame c req newId =>
    obtain ⟨gs, he⟩ := createGame_frame env s c req newId
    simp only [step, he]; exact h
  | joinGame c g =>
    obtain ⟨gs, he⟩ := joinGame_frame s c g
    simp only [step, he]; exact h
  | leaveGame c g =>
    obtain ⟨gs, he⟩ := leaveGame_frame s c g
    simp only [step, he]; exact h
  | kickPlayer c g q =>
    obtain ⟨gs, he⟩ := kickPlayer_frame s c g q
    simp only [step, he]; exact h
  | addPlayer c g t =>
    obtain ⟨gs, he⟩ := addPlayer_frame env s c g t
    simp only [step, he]; exact h
  | autoJoin c filters found =>
    obtain ⟨gs, he⟩ := autoJoin_frame s c filters found
    simp only [step, he]; exact h
  | joinWithWallet c g now =>
    rcases joinWithWallet_cases s c g now with ⟨he, _⟩ | ⟨game, user, _, _, _, _, _, _, _, heq⟩
    · simp only [step, he]; exact h
    · simp only [step, heq, joinedStore]; exact h
  | verifyAndCredit gw c o p sig now =>
    rcases verifyAndCredit_cases env gw s c o p sig now with
      ⟨he, _⟩ | ⟨user, amount, calls, _, _, _, _, _, heq⟩
    · simp only [step, he]; exact h
    · simp only [step, heq, creditedStore]; exact h
  | topup c a now => exact topup_onePerGame s c a now u h
  | payGame c g tp now => exact payGame_onePerGame s c g tp now u h

/-- Serving a sequence of requests keeps one record per game in the wallet of
every user. -/
theorem run_onePerGame (env : Env) (ops : List Op) (u : UserId) :
    ∀ s : Store, (∀ w, s.wallets u = some w → w.onePerGame) →
      ∀ w, (run env s ops).wallets u = some w → w.onePerGame := by
  induction ops with
  | nil => intro s h; exact h
  | cons op rest ih =>
    intro s h
    exact ih (step env s op) (step_onePerGame env s op u h)

/-- C29: in the embedded wallet each game has at most one payment record.  When
the wallet of a user has at most one record per game, then after any sequence
of requests (pay-game calls of any caller for any game among them) the wallet of that
user still has at most one record per game, and at most one record per game
with status `paid`. -/
theorem one_payment_record_per_game (env : Env) (s : Store) (ops : List Op) (u : UserId)
    (h : ∀ w, s.wallets u = some w → w.onePerGame) :
    ∀ w, (run env s ops).wallets u = some w → ∀ g : GameId,
      w.payments.countP (fun p => decide (p.game = g)) ≤ 1 ∧
      w.payments.countP
        (fun p => decide (p.game = g) && decide (p.status = PaymentStatus.paid)) ≤ 1 := by
  intro w hw g
  have h1 := run_onePerGame env ops u s h w hw g
  refine ⟨h1, le_trans ?_ h1⟩
  apply List.countP_mono_left
  intro p _ hp
  simp only [Bool.and_eq_true, decide_eq_true_eq] at hp ⊢
  exact hp.1

/-- C29 on `paidStore`: user 1 holds one paid record for game 7; after the
calls of `payOps` the wallet of user 1 still has at most one record per game. -/
theorem one_payment_record_per_game_witness :
    (∀ w, paidStore.wallets 1 = some w → w.onePerGame) ∧
    ∀ w, (run exampleEnv paidStore payOps).wallets 1 = some w → ∀ g : GameId,
      w.payments.countP (fun p => decide (p.game = g)) ≤ 1 ∧
      w.payments.countP
        (fun p => decide (p.game = g) && decide (p.status = PaymentStatus.paid)) ≤ 1 :=
  have h : ∀ w, paidStore.wallets 1 = some w → w.onePerGame := by
    intro w hw g
    simp only [paidStore, if_true, Option.some.injEq] at hw
    rw [← hw]
    exact List.countP_le_length _
  ⟨h, one_payment_record_per_game exampleEnv paidStore payOps 1 h⟩

/-! ## Claims on leaving and kicking -/

/-- A store is a roster change of itself. -/
theorem rosterChangeOnly_refl (s : Store) (g : GameId) : s.rosterChangeOnly s g :=
  ⟨rfl, rfl, rfl, fun _ _ => rfl, Or.inl rfl⟩

/-- Saving a game with another player list and captain is a roster change. -/
theorem rosterChangeOnly_save (s : Store) (g : GameId) (game : Game) (players : List UserId)
    (captain : Option UserId) (hg : s.games g = some game) :
    s.rosterChangeOnly
      { s with
        games := Function.update s.games g
          (some (Game.preSave { game with players := players, captain := captain })) } g := by
  refine ⟨rfl, rfl, rfl, ?_,
    Or.inr ⟨game, Game.preSave { game with players := players, captain := captain }, hg, ?_, ?_⟩⟩
  · intro g1 hne
    exact Function.update_noteq hne _ _
  · exact Function.update_same _ _ _
  · rfl

/-- C28: leaving or being kicked never refunds.  For every store, game and
users, the leave and the kick request (accepted or refused) leave every
`User` document (so every `walletBalance`), the whole ledger and every `Wallet`
document as they were, leave every other game as it was, and change at most
`players`, `captain`, `availableSpots` and `isOpen` of the game. -/
theorem leave_kick_never_refund (s : Store) (userId : UserId) (gameId : GameId)
    (playerId : UserId) :
    s.rosterChangeOnly (leaveGame s userId gameId).1 gameId ∧
    s.rosterChangeOnly (kickPlayer s userId gameId playerId).1 gameId := by
  constructor
  · unfold leaveGame
    cases hg : s.games gameId with
    | none => exact rosterChangeOnly_refl s gameId
    | some game =>
      simp only []
      split
      · exact rosterChangeOnly_refl s gameId
      · exact rosterChangeOnly_save s gameId game _ _ hg
  · unfold kickPlayer
    cases hg : s.games gameId with
    | none => exact rosterChangeOnly_refl s gameId
    | some game =>
      simp only []
      split
      · exact rosterChangeOnly_refl s gameId
      · split
        · exact rosterChangeOnly_refl s gameId
        · split
          · exact rosterChangeOnly_refl s gameId
          · exact rosterChangeOnly_save s gameId game _ _ hg

/-! ## Claims on the owner of an order -/

/-- The amount taken from an order does not depend on the user the order was
created for. -/
theorem orderAmount_owner (gw1 gw2 : Gateway) (h : gw1.sameButOwner gw2) (o : String)
    (calls : List GatewayCall) : orderAmount gw1 o calls = orderAmount gw2 o calls := by
  have ho := h.2 o
  unfold orderAmount
  cases h1 : gw1.ordersFetch o with
  | none =>
    cases h2 : gw2.ordersFetch o with
    | none => rfl
    | some b => rw [h1, h2] at ho; simp at ho
  | some a =>
    cases h2 : gw2.ordersFetch o with
    | none => rw [h1, h2] at ho; simp at ho
    | some b =>
      rw [h1, h2] at ho
      simp only [Option.map_some', Option.some.injEq, GatewayOrder.withoutOwner,
        GatewayOrder.mk.injEq] at ho
      simp only [ho.2.1]

/-- The gateway part of `verify-and-credit` does not depend on the user the
order was created for. -/
theorem gatewayAmount_owner (gw1 gw2 : Gateway) (h : gw1.sameButOwner gw2) (o p : String) :
    gatewayAmount gw1 o p = gatewayAmount gw2 o p := by
  unfold gatewayAmount
  rw [h.1]
  simp only [orderAmount_owner gw1 gw2 h]

/-- C27: `verify-and-credit` credits the authenticated caller whoever the order
was created for.  For two gateways that differ at most in the user each order
was created for (`notes.userId`), the same caller and the same order id, payment
id and signature, the handler gives the same store, the same response and the
same gateway calls; and when it answers Wallet credited it is the `walletBalance`
of the caller that grows, by the credited amount, while every other user is as
before. -/
theorem credit_ignores_order_owner (env : Env) (gw1 gw2 : Gateway) (s : Store)
    (userId : UserId) (orderId paymentId signature : String) (now : Nat)
    (h : gw1.sameButOwner gw2) :
    verifyAndCredit env gw1 s userId orderId paymentId signature now =
      verifyAndCredit env gw2 s userId orderId paymentId signature now ∧
    ∀ bal amt,
      (verifyAndCredit env gw1 s userId orderId paymentId signature now).2.1 =
          VerifyResponse.credited bal amt →
        ∃ user, s.users userId = some user ∧ bal = fadd user.walletBalance amt ∧
          (verifyAndCredit env gw2 s userId orderId paymentId signature now).1.users userId =
            some { user with walletBalance := fadd user.walletBalance amt } ∧
          ∀ v, v ≠ userId →
            (verifyAndCredit env gw2 s userId orderId paymentId signature now).1.users v =
              s.users v := by
  have heq : verifyAndCredit env gw1 s userId orderId paymentId signature now =
      verifyAndCredit env gw2 s userId orderId paymentId signature now := by
    unfold verifyAndCredit
    rw [gatewayAmount_owner gw1 gw2 h]
  refine ⟨heq, ?_⟩
  intro bal amt hr
  rw [← heq]
  rcases verifyAndCredit_cases env gw1 s userId orderId paymentId signature now with
    ⟨_, hne⟩ | ⟨user, a, calls, hu, _, _, _, _, hc⟩
  · exact absurd hr (hne bal amt)
  · rw [hc] at hr ⊢
    simp only [VerifyResponse.credited.injEq] at hr
    obtain ⟨hb, ha⟩ := hr
    subst ha
    refine ⟨user, hu, hb.symm, ?_, ?_⟩
    · simp [creditedStore]
    · intro v hv
      simp only [creditedStore]
      exact Function.update_noteq hv _ _

/-- The two example gateways differ only in the owner of order `order_1`. -/
theorem strangerGateway_sameButOwner : orderOnlyGateway.sameButOwner strangerGateway := by
  refine ⟨rfl, ?_⟩
  intro id
  simp only [strangerGateway, Option.map_map]
  cases orderOnlyGateway.ordersFetch id <;> rfl

/-- With the payment fetch down, the order of 5000 paise credits user 2 with 50. -/
theorem orderOnly_credit_response :
    (verifyAndCredit exampleEnv orderOnlyGateway exampleStore 2 "order_1" "pay_1"
        exampleSignature 1).2.1 = VerifyResponse.credited 150 50 := by
  have hga : gatewayAmount orderOnlyGateway "order_1" "pay_1" =
      (Except.ok 50, [GatewayCall.paymentsFetch "pay_1", GatewayCall.ordersFetch "order_1"]) := by
    simp [gatewayAmount, orderAmount, orderOnlyGateway, exampleGateway]
    exact fdiv_paise
  rw [verifyAndCredit_credits exampleEnv orderOnlyGateway exampleStore 2 "order_1"
    "pay_1" exampleSignature 1 (exampleUser 100) 50 _ exampleEnv_configured (by decide)
    (by decide) (by decide) exampleSignature_valid hga rfl
    (by simp [exampleStore, emptyStore]) (by norm_num)
    (by simp [exampleUser, fadd_hundred_fifty])]
  simp [exampleUser, fadd_hundred_fifty]

/-- C27 on `exampleStore`: user 2 presents the payment of an order created for
user 9 and gets what the order created for user 2 gives: a credit of 50 on the
balance of user 2. -/
theorem credit_ignores_order_owner_witness :
    orderOnlyGateway.sameButOwner strangerGateway ∧
    (strangerGateway.ordersFetch "order_1").map (fun o => o.notesUserId) = some "9" ∧
    (orderOnlyGateway.ordersFetch "order_1").map (fun o => o.notesUserId) = some "2" ∧
    (verifyAndCredit exampleEnv orderOnlyGateway exampleStore 2 "order_1" "pay_1"
        exampleSignature 1 =
      verifyAndCredit exampleEnv strangerGateway exampleStore 2 "order_1" "pay_1"
        exampleSignature 1) ∧
    ∃ user, exampleStore.users 2 = some user ∧ (150 : ℚ) = fadd user.walletBalance 50 ∧
      (verifyAndCredit exampleEnv strangerGateway exampleStore 2 "order_1" "pay_1"
          exampleSignature 1).1.users 2 =
        some { user with walletBalance := fadd user.walletBalance 50 } ∧
      ∀ v, v ≠ 2 →
        (verifyAndCredit exampleEnv strangerGateway exampleStore 2 "order_1" "pay_1"
          exampleSignature 1).1.users v = exampleStore.users v :=
  ⟨strangerGateway_sameButOwner, by simp [strangerGateway, orderOnlyGateway, exampleGateway],
    by simp [orderOnlyGateway, exampleGateway],
    (credit_ignores_order_owner exampleEnv orderOnlyGateway strangerGateway exampleStore 2
      "order_1" "pay_1" exampleSignature 1 strangerGateway_sameButOwner).1,
    (credit_ignores_order_owner exampleEnv orderOnlyGateway strangerGateway exampleStore 2
      "order_1" "pay_1" exampleSignature 1 strangerGateway_sameButOwner).2 150 50
      orderOnly_credit_response⟩

/-! ## Claims on the rounding of the share -/

/-- The quotient `1201 / 40` on Numbers lies just below 30.025. -/
theorem fdiv_forty : fdiv 1201 40 = 8451286175737446 / 281474976710656 := by
  unfold fdiv
  rw [fl_of (1201 / 40) 4 8451286175737446 (by norm_num) (by norm_num) (by norm_num)
    (by apply roundHalfEven_of_near <;> norm_num)]
  norm_num

/-- The value 30.02 as a Number. -/
theorem fl_thirty02 : fl (3002 / 100) = 8449878800853893 / 281474976710656 := by
  rw [fl_of (3002 / 100) 4 8449878800853893 (by norm_num) (by norm_num) (by norm_num)
    (by apply roundHalfEven_of_near <;> norm_num)]
  norm_num

/-- The share of 1201 over 40 is the Number 30.02. -/
theorem share_forty : numberToFixed2 (fdiv 1201 40) = 8449878800853893 / 281474976710656 := by
  unfold numberToFixed2
  rw [fdiv_forty, toFixed2_of_bounds _ 3002 (by norm_num) (by norm_num) (by norm_num),
    ← fl_thirty02]
  norm_num

/-- The share of 2.01 over two players is 1.00: the price is received as the
Number just below 2.01, and its half lies below 1.005. -/
theorem share_two_players : numberToFixed2 (fdiv (fl (201 / 100)) 2) = 1 := by
  have h201 : fl (201 / 100) = 1131529406376837 / 562949953421312 := by
    rw [fl_of (201 / 100) 1 4526117625507348 (by norm_num) (by norm_num) (by norm_num)
      (by apply roundHalfEven_of_near <;> norm_num)]
    norm_num
  have hq : fdiv (1131529406376837 / 562949953421312) 2 =
      1131529406376837 / 1125899906842624 := by
    unfold fdiv
    have h : (1131529406376837 / 562949953421312 : ℚ) / 2 =
        1131529406376837 / 1125899906842624 := by norm_num
    rw [h]
    exact fl_exact _ 0 4526117625507348 (by norm_num) (by norm_num) (by norm_num)
      (by norm_num)
  have h1 : fl 1 = 1 := by simpa using fl_natCast 1 (by norm_num)
  unfold numberToFixed2
  rw [h201, hq, toFixed2_of_bounds _ 100 (by norm_num) (by norm_num) (by norm_num)]
  norm_num
  exact h1

/-- With a balance of 30.02 user 2 joins the game for forty at a price of 1201:
the amount deducted is the Number 30.02 and nothing is left. -/
theorem forty_join :
    (joinWithWallet fortyStore 2 7 0).2 =
      JoinWalletResponse.joined 0 (8449878800853893 / 281474976710656) 2 38 := by
  have hprice : perPlayerPrice fortyGame = 8449878800853893 / 281474976710656 := share_forty
  rw [joinWithWallet_of_guards fortyStore 2 7 0 fortyGame
    (exampleUser (8449878800853893 / 281474976710656))
    (by simp [fortyStore]) (by simp [fortyStore]) rfl
    (by simp [fortyGame, exampleGame]) (by simp [fortyGame, exampleGame])
    (by simp [fortyGame, exampleGame])
    (by rw [hprice]; norm_num) (by rw [hprice]; simp [exampleUser])]
  simp only [hprice, exampleUser]
  have hz : fsub (8449878800853893 / 281474976710656 : ℚ)
      (8449878800853893 / 281474976710656) = 0 := by
    unfold fsub
    rw [sub_self]
    exact fl_zero
  rw [hz]
  simp [fortyGame, exampleGame]
  norm_num

/-- C24 as stated fails: for a price of 1201 and a divisor of 40 the exact
quotient is the half 30.025, yet the share is the Number 30.02 and not 30.03:
the quotient on Numbers lies below 30.025.  That share is not a multiple of 0.01,
and it differs from the exact quotient by more than 0.005. -/
theorem half_rounds_down :
    (1201 : ℚ) / 40 = 3002 / 100 + 1 / 200 ∧
    perPlayerPrice fortyGame = numberToFixed2 (fdiv 1201 40) ∧
    numberToFixed2 (fdiv 1201 40) = fl (3002 / 100) ∧
    numberToFixed2 (fdiv 1201 40) ≠ fl (3003 / 100) ∧
    (¬ ∃ m : ℤ, numberToFixed2 (fdiv 1201 40) = (m : ℚ) / 100) ∧
    1 / 200 < |numberToFixed2 (fdiv 1201 40) - 1201 / 40| := by
  have h03 : fl (3003 / 100) = 8452693550621000 / 281474976710656 := by
    rw [fl_of (3003 / 100) 4 8452693550621000 (by norm_num) (by norm_num) (by norm_num)
      (by apply roundHalfEven_of_near <;> norm_num)]
    norm_num
  refine ⟨by norm_num, rfl, by rw [share_forty, fl_thirty02], ?_, ?_, ?_⟩
  · rw [share_forty, h03]; norm_num
  · rintro ⟨m, hm⟩
    rw [share_forty] at hm
    have h : (8449878800853893 : ℚ) * 100 = (m : ℚ) * 281474976710656 := by
      field_simp at hm
      linarith
    have h2 : (8449878800853893 : ℤ) * 100 = m * 281474976710656 := by exact_mod_cast h
    omega
  · rw [share_forty, abs_sub_comm, abs_of_pos (by norm_num)]
    norm_num

/-- C24, amended: the share is `Number((price / divisor).toFixed(2))`, with
divisor `teamSize` in join-with-wallet and `|players|` in pay-game.  For every
price `> 0` and divisor `>= 1` it is the Number nearest to a multiple `m / 100`
of 0.01 that differs from the quotient on Numbers by at most 0.005; that
quotient is within half a binary64 spacing of the exact one; and when the
quotient on Numbers is an exact half of a hundredth (as for 0.125), the decimal
rounds up in magnitude (0.13). -/
theorem share_rounding (price divisor : ℚ) (hp : 0 < price) (hd : 1 ≤ divisor) :
    (∀ game : Game, game.turfPrice = price → game.teamSize = divisor →
      perPlayerPrice game = numberToFixed2 (fdiv price divisor)) ∧
    (∀ (s : Store) (game : Game), ((populatedPlayers s game).length : ℚ) = divisor →
      payShare s game price = numberToFixed2 (fdiv price divisor)) ∧
    0 ≤ numberToFixed2 (fdiv price divisor) ∧
    (∃ m : ℤ, 0 ≤ m ∧ numberToFixed2 (fdiv price divisor) = fl ((m : ℚ) / 100) ∧
      |(m : ℚ) / 100 - fdiv price divisor| ≤ 1 / 200) ∧
    |fdiv price divisor - price / divisor| ≤ ulp (price / divisor) / 2 ∧
    (∀ k : ℤ, fdiv price divisor * 100 = (k : ℚ) + 1 / 2 →
      numberToFixed2 (fdiv price divisor) = fl (((k + 1 : ℤ) : ℚ) / 100)) := by
  have hq : 0 ≤ fdiv price divisor :=
    fl_nonneg _ (div_nonneg hp.le (by linarith))
  refine ⟨?_, ?_, fl_nonneg _ (toFixed2_nonneg _ hq), ?_, fl_error _, ?_⟩
  · intro game h1 h2
    unfold perPlayerPrice
    rw [h1, h2]
  · intro s game h
    unfold payShare
    rw [h]
  · refine ⟨⌊fdiv price divisor * 100 + 1 / 2⌋, ?_, ?_, ?_⟩
    · apply Int.floor_nonneg.mpr
      have : 0 ≤ fdiv price divisor * 100 := mul_nonneg hq (by norm_num)
      linarith
    · unfold numberToFixed2 toFixed2
      rw [if_pos hq]
    · have h := toFixed2_error (fdiv price divisor)
      unfold toFixed2 at h
      rw [if_pos hq] at h
      exact h
  · intro k hk
    unfold numberToFixed2 toFixed2
    rw [if_pos hq, hk]
    have hfloor : ⌊(k : ℚ) + 1 / 2 + 1 / 2⌋ = k + 1 := by
      rw [Int.floor_eq_iff]
      push_cast
      constructor <;> linarith
    rw [hfloor]

/-- C24, amended, for a price of 0.25 and a divisor of 2: the quotient on
Numbers is the half 0.125 and the share is the Number 0.13. -/
theorem share_rounding_witness :
    (0 : ℚ) < 1 / 4 ∧ (1 : ℚ) ≤ 2 ∧ fdiv (1 / 4) 2 * 100 = ((12 : ℤ) : ℚ) + 1 / 2 ∧
    numberToFixed2 (fdiv (1 / 4) 2) = fl (((12 + 1 : ℤ) : ℚ) / 100) := by
  have hq : fdiv (1 / 4) 2 = 1 / 8 := by
    unfold fdiv
    have h : (1 / 4 : ℚ) / 2 = 1 / 8 := by norm_num
    rw [h]
    exact fl_exact _ (-3) (2 ^ 52) (by norm_num) (by norm_num) (by norm_num) (by norm_num)
  have htie : fdiv (1 / 4) 2 * 100 = ((12 : ℤ) : ℚ) + 1 / 2 := by
    rw [hq]; norm_num
  exact ⟨by norm_num, by norm_num, htie,
    (share_rounding (1 / 4) 2 (by norm_num) (by norm_num)).2.2.2.2.2 12 htie⟩

end SportSync
